import Mathlib

/-!
# Points ledger, reward redemptions and goal progress (donetick)

A shallow embedding of

* `internal/points/service.go` (`AwardPoints`, `DeductPoints`),
* `internal/rewards/repo/repository.go` (redemptions, goal progress),
* `internal/rewards/service.go` (incremental goal progress),
* `internal/rewards/handler.go` (`RedeemReward`, `UpdateRedemptionStatus`),

followed by the properties of the ledger, the redemption flow and the progress
computation.

Conventions.  A database is a record of tables, each table a list of rows in
insertion order.  Go `int` columns are `Int`: the sums and the relative updates
of the source are computed by the SQL engine; the one addition made in Go (the
incremental path) wraps at 64 bits.  Instants (`time.Time`) are integers, and one
call reads the clock once.  Every storage statement may fail: a connection
carries the script of the faults still to come, one entry per statement.  The raw
query of the leaderboard depends on the SQL engine (its dialect and its order of
rows with equal points): there the engine is a parameter.
-/

namespace Donetick

/-! ## Data model -/

/-- An instant (`time.Time` in UTC), as an integer number of clock ticks. -/
abbrev Time := Int

/-- Value of a Go `float64`.  `fin q` is a finite value (the two zeros are
identified), `inf neg` an infinity, `nan` a NaN. -/
inductive F64 where
  | fin (q : ℚ)
  | inf (neg : Bool)
  | nan
  deriving DecidableEq

/-- `pModel.PointsHistoryAction`: `Add` is stored as `0` (the leaderboard query
selects grants with `ph.action = 0`), `Redeem` is the spending action. -/
inductive PointsHistoryAction where
  | Add
  | Redeem
  deriving DecidableEq

/-- `pModel.PointsHistory`, with the fields the source writes. -/
structure PointsHistory where
  Action : PointsHistoryAction
  Points : Int
  CreatedAt : Time
  CreatedBy : Int
  UserID : Int
  CircleID : Int
  deriving DecidableEq

/-- `cModel.UserCircle` (table `user_circles`), with the columns the source
reads and writes: the membership of a user in a circle and the balance. -/
structure UserCircle where
  UserID : Int
  CircleID : Int
  Points : Int
  IsActive : Bool
  deriving DecidableEq

/-- `rModel.Reward`.  The presentation columns (description, category, icon,
color) play no part in any operation and are left out. -/
structure Reward where
  ID : Int
  Name : String
  PointsCost : Int
  CircleID : Int
  CreatedBy : Int
  IsActive : Bool
  MaxRedeems : Option Int
  TimesRedeemed : Int
  CreatedAt : Time
  UpdatedAt : Time
  deriving DecidableEq

/-- `rModel.RedemptionStatus`, an `int8` in the source. -/
abbrev RedemptionStatus := Int

/-- `RedemptionStatusPending`. -/
def RedemptionStatusPending : RedemptionStatus := 0

/-- `RedemptionStatusApproved`. -/
def RedemptionStatusApproved : RedemptionStatus := 1

/-- `RedemptionStatusRejected`. -/
def RedemptionStatusRejected : RedemptionStatus := 2

/-- `RedemptionStatusCompleted`. -/
def RedemptionStatusCompleted : RedemptionStatus := 3

/-- `rModel.RewardRedemption` (the preloaded `Reward` relation is not a column). -/
structure RewardRedemption where
  ID : Int
  RewardID : Int
  UserID : Int
  CircleID : Int
  Points : Int
  Status : RedemptionStatus
  Notes : Option String
  CreatedAt : Time
  UpdatedAt : Time
  deriving DecidableEq

/-- `rModel.Goal`, presentation columns left out. -/
structure Goal where
  ID : Int
  Name : String
  TargetPoints : Int
  CircleID : Int
  UserID : Option Int
  CreatedBy : Int
  IsActive : Bool
  StartDate : Option Time
  EndDate : Option Time
  RewardPoints : Option Int
  CompletedAt : Option Time
  CreatedAt : Time
  UpdatedAt : Time
  deriving DecidableEq

/-- `rModel.GoalProgress`, primary key `(GoalID, UserID)`. -/
structure GoalProgress where
  GoalID : Int
  UserID : Int
  CurrentPoints : Int
  Progress : F64
  CompletedAt : Option Time
  UpdatedAt : Time
  deriving DecidableEq

/-- The tables the rewards and points packages work on. -/
structure DB where
  userCircles : List UserCircle
  pointsHistories : List PointsHistory
  rewards : List Reward
  redemptions : List RewardRedemption
  goals : List Goal
  goalProgresses : List GoalProgress
  deriving DecidableEq

/-! ## Storage statements -/

/-- What a storage statement reports when it does not succeed. -/
inductive DBError where
  | storage
  | recordNotFound
  deriving DecidableEq

/-- A connection (`*gorm.DB`): the tables together with the faults of the
statements still to come.  The head of `faults` tells whether the next statement
fails; an exhausted script means no further fault. -/
structure Conn where
  db : DB
  faults : List Bool
  deriving DecidableEq

/-- One writing statement (`Create`, `Update`, `Updates`, `Save`): it either
fails and writes nothing, or applies `f`. -/
def exec (f : DB → DB) (c : Conn) : Option DBError × Conn :=
  match c.faults with
  | true :: rest => (some DBError.storage, { db := c.db, faults := rest })
  | false :: rest => (none, { db := f c.db, faults := rest })
  | [] => (none, { db := f c.db, faults := [] })

/-- One reading statement (`Find`, `Scan`, `Pluck`): it fails or returns `f db`. -/
def query {α : Type} (f : DB → α) (c : Conn) : Except DBError α × Conn :=
  match c.faults with
  | true :: rest => (Except.error DBError.storage, { db := c.db, faults := rest })
  | false :: rest => (Except.ok (f c.db), { db := c.db, faults := rest })
  | [] => (Except.ok (f c.db), c)

/-- `db.Transaction(fc)`: begin, run `fc`, commit when it returned `nil`, roll
back to the tables at the start when it returned an error.  Beginning and
committing are statements and may fail too. -/
def Transaction (fc : Conn → Option DBError × Conn) (c : Conn) : Option DBError × Conn :=
  match c.faults with
  | true :: rest => (some DBError.storage, { db := c.db, faults := rest })
  | _ =>
    match fc { db := c.db, faults := c.faults.tail } with
    | (some err, c1) => (some err, { db := c.db, faults := c1.faults })
    | (none, c1) =>
      match c1.faults with
      | true :: rest => (some DBError.storage, { db := c.db, faults := rest })
      | _ => (none, { db := c1.db, faults := c1.faults.tail })

/-! ## `internal/points/service.go` -/

/-- The statement `UPDATE user_circles SET points = expr(points)
WHERE user_id = ? AND circle_id = ?`: every matching row is rewritten. -/
def updateUserCirclePoints (userID circleID : Int) (expr : Int → Int) (db : DB) : DB :=
  { db with userCircles := db.userCircles.map fun uc =>
      if uc.UserID = userID ∧ uc.CircleID = circleID then
        { uc with Points := expr uc.Points }
      else uc }

/-- The statement `INSERT INTO points_histories`. -/
def insertPointsHistory (h : PointsHistory) (db : DB) : DB :=
  { db with pointsHistories := db.pointsHistories ++ [h] }

/-- Modelled from the spec: `PointsRepository.CreatePointsHistory` is not among
the sources; by section 4.1 the ledger write adds "exactly one new PointEvent
row", so it is the single insert of the given row on the given connection. -/
def CreatePointsHistory (pointsHistory : PointsHistory) (tx : Conn) : Option DBError × Conn :=
  exec (insertPointsHistory pointsHistory) tx

/-- `Service.AwardPoints`: `points + ?` on the balance, then the history row. -/
def AwardPoints (now : Time) (userID circleID points createdBy : Int) (tx : Conn) :
    Option DBError × Conn :=
  match exec (updateUserCirclePoints userID circleID (fun p => p + points)) tx with
  | (some err, tx1) => (some err, tx1)
  | (none, tx1) =>
    CreatePointsHistory
      { Action := PointsHistoryAction.Add, Points := points, CreatedAt := now,
        CreatedBy := createdBy, UserID := userID, CircleID := circleID } tx1

/-- `Service.DeductPoints`: `points - ?` on the balance, then the history row. -/
def DeductPoints (now : Time) (userID circleID points createdBy : Int) (tx : Conn) :
    Option DBError × Conn :=
  match exec (updateUserCirclePoints userID circleID (fun p => p - points)) tx with
  | (some err, tx1) => (some err, tx1)
  | (none, tx1) =>
    CreatePointsHistory
      { Action := PointsHistoryAction.Redeem, Points := points, CreatedAt := now,
        CreatedBy := createdBy, UserID := userID, CircleID := circleID } tx1

/-- `Service.GetUserPoints`: `var points int` is declared and returned with a
`nil` error; no statement between the two reads the tables or assigns to it. -/
def GetUserPoints (_userID _circleID : Int) (c : Conn) : Except DBError Int × Conn :=
  let points : Int := 0
  (Except.ok points, c)

/-! ## Observations on the ledger -/

/-- The balance lookup of `Handler.RedeemReward`: the points of the first listed
member with the given user id, `0` when there is none. -/
def lookupPoints (circleUsers : List UserCircle) (userID : Int) : Int :=
  match circleUsers.find? (fun user => user.UserID = userID) with
  | some user => user.Points
  | none => 0

/-- The membership rows of a circle. -/
def circleUsersOf (db : DB) (circleID : Int) : List UserCircle :=
  db.userCircles.filter fun uc => uc.CircleID = circleID

/-- The balance of a (user, circle) pair. -/
def balance (db : DB) (userID circleID : Int) : Int :=
  lookupPoints (circleUsersOf db circleID) userID

/-- The pair has a balance row. -/
def hasBalanceRow (db : DB) (userID circleID : Int) : Prop :=
  ∃ uc ∈ db.userCircles, uc.UserID = userID ∧ uc.CircleID = circleID

instance (db : DB) (userID circleID : Int) : Decidable (hasBalanceRow db userID circleID) := by
  unfold hasBalanceRow; infer_instance

/-- Sum of the amounts of the events of one kind of a (user, circle) pair. -/
def actionTotal (action : PointsHistoryAction) (hs : List PointsHistory)
    (userID circleID : Int) : Int :=
  ((hs.filter fun h => h.Action = action ∧ h.UserID = userID ∧ h.CircleID = circleID).map
    fun h => h.Points).sum

/-- The ledger invariant: every balance is grants minus spends of its pair. -/
def LedgerInvariant (db : DB) : Prop :=
  ∀ userID circleID : Int,
    balance db userID circleID =
      actionTotal PointsHistoryAction.Add db.pointsHistories userID circleID -
        actionTotal PointsHistoryAction.Redeem db.pointsHistories userID circleID

/-- A call of the ledger service. -/
inductive LedgerCall where
  | award (now : Time) (userID circleID points createdBy : Int)
  | deduct (now : Time) (userID circleID points createdBy : Int)

/-- The user of a call. -/
def LedgerCall.userID : LedgerCall → Int
  | LedgerCall.award _ u _ _ _ => u
  | LedgerCall.deduct _ u _ _ _ => u

/-- The circle of a call. -/
def LedgerCall.circleID : LedgerCall → Int
  | LedgerCall.award _ _ g _ _ => g
  | LedgerCall.deduct _ _ g _ _ => g

/-- Run one call on a connection. -/
def LedgerCall.run : LedgerCall → Conn → Option DBError × Conn
  | LedgerCall.award now u g p by_ => AwardPoints now u g p by_
  | LedgerCall.deduct now u g p by_ => DeductPoints now u g p by_

/-- Run a sequence of calls; `some` of the final connection when every call of
the sequence returned `nil`. -/
def runCalls : List LedgerCall → Conn → Option Conn
  | [], c => some c
  | call :: rest, c =>
    match call.run c with
    | (none, c1) => runCalls rest c1
    | (some _, _) => none

/-! ## `internal/rewards/repo/repository.go`: rewards and redemptions -/

/-- `RewardsRepository.GetRewardByID`: `First(&reward, rewardID)`, the reward
with that primary key, whatever its `is_active` flag; `ErrRecordNotFound` when
there is none. -/
def GetRewardByID (rewardID : Int) (c : Conn) : Except DBError Reward × Conn :=
  match query (fun db => db.rewards.find? fun r => r.ID = rewardID) c with
  | (Except.error err, c1) => (Except.error err, c1)
  | (Except.ok none, c1) => (Except.error DBError.recordNotFound, c1)
  | (Except.ok (some reward), c1) => (Except.ok reward, c1)

/-- The statement `INSERT INTO reward_redemptions`; the database assigns the
primary key `newID` to a row created with the zero id. -/
def insertRedemption (newID : Int) (redemption : RewardRedemption) (db : DB) : DB :=
  { db with redemptions := db.redemptions ++
      [{ redemption with ID := if redemption.ID = 0 then newID else redemption.ID }] }

/-- The statement `UPDATE rewards SET times_redeemed = times_redeemed + 1
WHERE id = ?` (gorm also stamps `updated_at`). -/
def incrementTimesRedeemed (now : Time) (rewardID : Int) (db : DB) : DB :=
  { db with rewards := db.rewards.map fun r =>
      if r.ID = rewardID then
        { r with TimesRedeemed := r.TimesRedeemed + 1, UpdatedAt := now }
      else r }

/-- `RewardsRepository.CreateRedemption`: in one transaction, the redemption
row, the increment of `times_redeemed` and a `Redeem` history row.  No statement
of it touches `user_circles`. -/
def CreateRedemption (now : Time) (newID : Int) (redemption : RewardRedemption) (c : Conn) :
    Option DBError × Conn :=
  Transaction (fun tx =>
    match exec (insertRedemption newID redemption) tx with
    | (some err, tx1) => (some err, tx1)
    | (none, tx1) =>
      match exec (incrementTimesRedeemed now redemption.RewardID) tx1 with
      | (some err, tx2) => (some err, tx2)
      | (none, tx2) =>
        match exec (insertPointsHistory
            { Action := PointsHistoryAction.Redeem, Points := redemption.Points,
              CreatedAt := now, CreatedBy := redemption.UserID,
              UserID := redemption.UserID, CircleID := redemption.CircleID }) tx2 with
        | (some err, tx3) => (some err, tx3)
        | (none, tx3) => (none, tx3)) c

/-- The statement `UPDATE reward_redemptions SET status = ?, updated_at = ?
[, notes = ?] WHERE id = ?`; `notes` is part of it only when the caller passed
a non-nil pointer. -/
def setRedemptionStatus (now : Time) (redemptionID : Int) (status : RedemptionStatus)
    (notes : Option String) (db : DB) : DB :=
  { db with redemptions := db.redemptions.map fun r =>
      if r.ID = redemptionID then
        { r with
          Status := status
          UpdatedAt := now
          Notes := match notes with
            | some text => some text
            | none => r.Notes }
      else r }

/-- `RewardsRepository.UpdateRedemptionStatus`: the one update, whatever the
current status of the redemption is. -/
def UpdateRedemptionStatus (now : Time) (redemptionID : Int) (status : RedemptionStatus)
    (notes : Option String) (c : Conn) : Option DBError × Conn :=
  exec (setRedemptionStatus now redemptionID status notes) c

/-- The rows of `GetRewardsByCircle`: `circle_id = ? AND is_active = true ORDER
BY points_cost ASC`.  The query names no second key: rewards of equal cost keep
the order of the table, which is one of the orders the engine may return. -/
def rewardsByCircle (db : DB) (circleID : Int) : List Reward :=
  (db.rewards.filter fun r => decide (r.CircleID = circleID) && r.IsActive).insertionSort
    fun a b => a.PointsCost ≤ b.PointsCost

/-- `RewardsRepository.GetRewardsByCircle`. -/
def GetRewardsByCircle (circleID : Int) (c : Conn) : Except DBError (List Reward) × Conn :=
  query (fun db => rewardsByCircle db circleID) c

/-! ## `internal/rewards/handler.go` -/

/-- The authenticated caller (`auth.CurrentUser`). -/
structure CurrentUser where
  ID : Int
  CircleID : Int
  deriving DecidableEq

/-- What a handler writes with `c.JSON`: the status code, the error text (empty
on success) and, for a redemption, the record returned under `res`. -/
structure Response where
  code : Nat
  error : String
  res : Option RewardRedemption
  deriving DecidableEq

/-- Modelled from the spec: `CircleRepository.GetCircleUsers` is not among the
sources; by section 6 the membership provider "resolves a user's group
membership", so it reads the membership rows of the circle, each with its
points. -/
def GetCircleUsers (circleID : Int) (c : Conn) : Except DBError (List UserCircle) × Conn :=
  query (fun db => circleUsersOf db circleID) c

/-- Modelled from the spec: `CircleRepository.RedeemPoints` is not among the
sources; by section 4.4 creation ends with "Deduct points via 4.1", and by 4.1 a
deduction is one atomic transaction with "exactly one new PointEvent row, exactly
one Balance delta", which is `DeductPoints` above in a transaction of its own. -/
def RedeemPoints (now : Time) (circleID userID points createdBy : Int) (c : Conn) :
    Option DBError × Conn :=
  Transaction (DeductPoints now userID circleID points createdBy) c

/-- The availability check of `RedeemReward`:
`reward.MaxRedeems != nil && reward.TimesRedeemed >= *reward.MaxRedeems`. -/
def capReached (reward : Reward) : Bool :=
  match reward.MaxRedeems with
  | some maxRedeems => decide (maxRedeems ≤ reward.TimesRedeemed)
  | none => false

/-- `Handler.RedeemReward`.  `currentUser` is the result of `auth.CurrentUser`
(`none` when it reports failure), `rewardIDParam` the result of `strconv.Atoi` on
the path parameter (`none` when it is not an integer). -/
def RedeemReward (now : Time) (newID : Int) (currentUser : Option CurrentUser)
    (rewardIDParam : Option Int) (c : Conn) : Response × Conn :=
  match currentUser with
  | none => ({ code := 500, error := "Error getting current user", res := none }, c)
  | some currentUser =>
    match rewardIDParam with
    | none => ({ code := 400, error := "Invalid reward ID", res := none }, c)
    | some rewardID =>
      match GetRewardByID rewardID c with
      | (Except.error _, c1) => ({ code := 404, error := "Reward not found", res := none }, c1)
      | (Except.ok reward, c1) =>
        if reward.CircleID ≠ currentUser.CircleID then
          ({ code := 403, error := "Reward not available in your circle", res := none }, c1)
        else if capReached reward then
          ({ code := 400, error := "Reward is no longer available", res := none }, c1)
        else
          match GetCircleUsers currentUser.CircleID c1 with
          | (Except.error _, c2) =>
            ({ code := 500, error := "Failed to get user points", res := none }, c2)
          | (Except.ok circleUsers, c2) =>
            let userPoints := lookupPoints circleUsers currentUser.ID
            if userPoints < reward.PointsCost then
              ({ code := 400, error := "Insufficient points", res := none }, c2)
            else
              let redemption : RewardRedemption :=
                { ID := 0, RewardID := rewardID, UserID := currentUser.ID,
                  CircleID := currentUser.CircleID, Points := reward.PointsCost,
                  Status := RedemptionStatusPending, Notes := none,
                  CreatedAt := now, UpdatedAt := now }
              match CreateRedemption now newID redemption c2 with
              | (some _, c3) =>
                ({ code := 500, error := "Failed to redeem reward", res := none }, c3)
              | (none, c3) =>
                match RedeemPoints now currentUser.CircleID currentUser.ID reward.PointsCost
                    currentUser.ID c3 with
                | (some _, c4) =>
                  ({ code := 500, error := "Failed to process redemption", res := none }, c4)
                | (none, c4) =>
                  ({ code := 200, error := "", res := some { redemption with ID := newID } }, c4)

/-- The JSON body of `Handler.UpdateRedemptionStatus`. -/
structure UpdateStatusReq where
  Status : RedemptionStatus
  Notes : Option String
  deriving DecidableEq

/-- `Handler.UpdateRedemptionStatus`.  `isAdmin` is the result of
`isCircleAdmin`, `redemptionIDParam` of `strconv.Atoi`, `body` of decoding the
JSON body (`none` when malformed).  The tag `binding:"required"` on `Status`
makes the binder reject the zero value, which is `RedemptionStatusPending`. -/
def HandlerUpdateRedemptionStatus (now : Time) (currentUser : Option CurrentUser)
    (isAdmin : Bool) (redemptionIDParam : Option Int) (body : Option UpdateStatusReq)
    (c : Conn) : Response × Conn :=
  match currentUser with
  | none => ({ code := 500, error := "Error getting current user", res := none }, c)
  | some _ =>
    if !isAdmin then
      ({ code := 403, error := "Only admins can update redemption status", res := none }, c)
    else
      match redemptionIDParam with
      | none => ({ code := 400, error := "Invalid redemption ID", res := none }, c)
      | some redemptionID =>
        match body with
        | none => ({ code := 400, error := "Invalid request", res := none }, c)
        | some req =>
          if req.Status = 0 then
            ({ code := 400, error := "Invalid request", res := none }, c)
          else
            match UpdateRedemptionStatus now redemptionID req.Status req.Notes c with
            | (some _, c1) =>
              ({ code := 500, error := "Failed to update redemption status", res := none }, c1)
            | (none, c1) => ({ code := 200, error := "", res := none }, c1)

/-! ## `float64` arithmetic

IEEE 754 binary64 with round-to-nearest, ties-to-even, which is what Go's
conversion `float64(n)`, `/` and `*` compute.  The exponent range is not
bounded here: for operands that come from 64-bit integers no quotient or product
of the progress computation leaves the range of normal numbers, so neither
overflow nor gradual underflow occurs. -/

/-- The integer nearest to `x`, the even one of the two when `x` lies halfway. -/
def roundHalfEven (x : ℚ) : ℤ :=
  if x - ⌊x⌋ < 1 / 2 then ⌊x⌋
  else if 1 / 2 < x - ⌊x⌋ then ⌊x⌋ + 1
  else if ⌊x⌋ % 2 = 0 then ⌊x⌋
  else ⌊x⌋ + 1

/-- The `float64` nearest to the real `x`: with `2 ^ e ≤ |x| < 2 ^ (e + 1)` the
significand `x / 2 ^ (e - 52)` is rounded to an integer (of 53 bits). -/
def roundF64 (x : ℚ) : ℚ :=
  if x = 0 then 0
  else (roundHalfEven (x / (2 : ℚ) ^ (Int.log 2 |x| - 52)) : ℚ) * (2 : ℚ) ^ (Int.log 2 |x| - 52)

/-- The conversion `float64(n)` of an integer. -/
def F64.ofInt (n : Int) : F64 := F64.fin (roundF64 n)

/-- The quotient `x / y` of two `float64` (the zero divisor met here is `+0`). -/
def F64.div : F64 → F64 → F64
  | F64.fin a, F64.fin b =>
    if b = 0 then (if a = 0 then F64.nan else F64.inf (decide (a < 0)))
    else F64.fin (roundF64 (a / b))
  | F64.fin _, F64.inf _ => F64.fin 0
  | F64.inf s, F64.fin b => F64.inf (xor s (decide (b < 0)))
  | F64.inf _, F64.inf _ => F64.nan
  | F64.nan, _ => F64.nan
  | _, F64.nan => F64.nan

/-- The product `x * y` of two `float64`. -/
def F64.mul : F64 → F64 → F64
  | F64.fin a, F64.fin b => F64.fin (roundF64 (a * b))
  | F64.fin a, F64.inf t => if a = 0 then F64.nan else F64.inf (xor (decide (a < 0)) t)
  | F64.inf s, F64.fin b => if b = 0 then F64.nan else F64.inf (xor s (decide (b < 0)))
  | F64.inf s, F64.inf t => F64.inf (xor s t)
  | F64.nan, _ => F64.nan
  | _, F64.nan => F64.nan

/-- The comparison `x > y` of two `float64`; false when either is a NaN. -/
def F64.gt : F64 → F64 → Bool
  | F64.fin a, F64.fin b => decide (b < a)
  | F64.fin _, F64.inf t => t
  | F64.inf s, F64.fin _ => !s
  | F64.inf s, F64.inf t => !s && t
  | F64.nan, _ => false
  | _, F64.nan => false

/-- The progress percentage, as both `updateUserGoalProgress` and
`UpdateGoalProgressForUser` compute it:
`progress := float64(currentPoints) / float64(goal.TargetPoints) * 100`, then
`if progress > 100 { progress = 100 }`. -/
def progressPercent (currentPoints targetPoints : Int) : F64 :=
  let progress :=
    F64.mul (F64.div (F64.ofInt currentPoints) (F64.ofInt targetPoints)) (F64.fin 100)
  if F64.gt progress (F64.fin 100) then F64.fin 100 else progress

/-! ## `internal/rewards/repo/repository.go`: goal progress -/

/-- The rows selected by the history query of `updateUserGoalProgress`:
`user_id = ? AND circle_id = ? AND action = Add`, then `created_at >= start_date`
when the goal has one and `created_at <= end_date` when it has one. -/
def inGoalWindow (goal : Goal) (userID : Int) (h : PointsHistory) : Bool :=
  (decide (h.UserID = userID) && decide (h.CircleID = goal.CircleID)
    && decide (h.Action = PointsHistoryAction.Add))
  && (match goal.StartDate with
      | some startDate => decide (startDate ≤ h.CreatedAt)
      | none => true)
  && (match goal.EndDate with
      | some endDate => decide (h.CreatedAt ≤ endDate)
      | none => true)

/-- `SELECT COALESCE(SUM(points), 0)` over the selected rows. -/
def goalWindowPoints (goal : Goal) (userID : Int) (db : DB) : Int :=
  ((db.pointsHistories.filter (inGoalWindow goal userID)).map fun h => h.Points).sum

/-- `Save(goalProgress)`: an upsert on the primary key `(goal_id, user_id)`. -/
def saveGoalProgress (p : GoalProgress) (db : DB) : DB :=
  if db.goalProgresses.any (fun r => decide (r.GoalID = p.GoalID) && decide (r.UserID = p.UserID))
  then
    { db with goalProgresses := db.goalProgresses.map fun r =>
        if r.GoalID = p.GoalID ∧ r.UserID = p.UserID then p else r }
  else { db with goalProgresses := db.goalProgresses ++ [p] }

/-- The statement `UPDATE goals SET completed_at = ? WHERE id = ?` (gorm also
stamps `updated_at`). -/
def markGoalCompleted (now : Time) (goalID : Int) (db : DB) : DB :=
  { db with goals := db.goals.map fun g =>
      if g.ID = goalID then { g with CompletedAt := some now, UpdatedAt := now } else g }

/-- The bonus block of `updateUserGoalProgress` (when `goal.RewardPoints` is set
and positive): `points + ?` on the balance, then the bonus history row. -/
def awardGoalBonus (now : Time) (goal : Goal) (userID : Int) (tx : Conn) :
    Option DBError × Conn :=
  match goal.RewardPoints with
  | none => (none, tx)
  | some rewardPoints =>
    if 0 < rewardPoints then
      match exec (updateUserCirclePoints userID goal.CircleID (fun p => p + rewardPoints)) tx with
      | (some err, tx1) => (some err, tx1)
      | (none, tx1) =>
        exec (insertPointsHistory
          { Action := PointsHistoryAction.Add, Points := rewardPoints, CreatedAt := now,
            CreatedBy := userID, UserID := userID, CircleID := goal.CircleID }) tx1
    else (none, tx)

/-- `RewardsRepository.updateUserGoalProgress`, on the transaction `tx` of its
caller. -/
def updateUserGoalProgress (now : Time) (goal : Goal) (userID : Int) (tx : Conn) :
    Option DBError × Conn :=
  match query (goalWindowPoints goal userID) tx with
  | (Except.error err, tx1) => (some err, tx1)
  | (Except.ok currentPoints, tx1) =>
    let progress := progressPercent currentPoints goal.TargetPoints
    if goal.TargetPoints ≤ currentPoints ∧ goal.CompletedAt = none then
      match awardGoalBonus now goal userID tx1 with
      | (some err, tx2) => (some err, tx2)
      | (none, tx2) =>
        match exec (markGoalCompleted now goal.ID) tx2 with
        | (some err, tx3) => (some err, tx3)
        | (none, tx3) =>
          exec (saveGoalProgress
            { GoalID := goal.ID, UserID := userID, CurrentPoints := currentPoints,
              Progress := progress, CompletedAt := some now, UpdatedAt := now }) tx3
    else
      exec (saveGoalProgress
        { GoalID := goal.ID, UserID := userID, CurrentPoints := currentPoints,
          Progress := progress, CompletedAt := none, UpdatedAt := now }) tx1

/-- The progress row of a (goal, user) pair, if any. -/
def findGoalProgress (db : DB) (goalID userID : Int) : Option GoalProgress :=
  db.goalProgresses.find? fun r => decide (r.GoalID = goalID) && decide (r.UserID = userID)

/-! ## `internal/rewards/service.go`: incremental goal progress -/

/-- `ORDER BY end_date ASC, target_points ASC`, a missing end date first (the
place SQLite, the default store, gives `NULL` in ascending order). -/
def goalQueryOrder (a b : Goal) : Prop :=
  match a.EndDate, b.EndDate with
  | none, none => a.TargetPoints ≤ b.TargetPoints
  | none, some _ => True
  | some _, none => False
  | some x, some y => x < y ∨ (x = y ∧ a.TargetPoints ≤ b.TargetPoints)

instance : DecidableRel goalQueryOrder := fun a b => by
  unfold goalQueryOrder; cases a.EndDate <;> cases b.EndDate <;> infer_instance

/-- `RewardsRepository.GetGoalsByCircle` with a user: the active goals of the
circle that are circle-wide or belong to the user, in query order. -/
def GetGoalsByCircle (circleID : Int) (userID : Option Int) (c : Conn) :
    Except DBError (List Goal) × Conn :=
  query (fun db =>
    (db.goals.filter fun g =>
      decide (g.CircleID = circleID) && g.IsActive &&
        (match userID with
          | some u => decide (g.UserID = none ∨ g.UserID = some u)
          | none => decide (g.UserID = none))).insertionSort goalQueryOrder) c

/-- `RewardsRepository.GetGoalProgress`: the row of the pair, `nil` without error
when there is none. -/
def GetGoalProgress (goalID userID : Int) (c : Conn) : Except DBError (Option GoalProgress) × Conn :=
  query (fun db => findGoalProgress db goalID userID) c

/-- `RewardsRepository.UpsertGoalProgress`: `Save(progress)`. -/
def UpsertGoalProgress (progress : GoalProgress) (c : Conn) : Option DBError × Conn :=
  exec (saveGoalProgress progress) c

/-- Go's `int` addition: the sum modulo `2 ^ 64`, read as a signed value. -/
def wrapInt64 (x : Int) : Int := (x + 2 ^ 63) % 2 ^ 64 - 2 ^ 63

/-- The body of the loop of `UpdateGoalProgressForUser` for one goal; every
`continue` returns the connection as it stands. -/
def updateGoalProgressForGoal (now : Time) (userID pointsEarned : Int) (goal : Goal)
    (c : Conn) : Conn :=
  if goal.UserID ≠ none ∧ goal.UserID ≠ some userID then c
  else if goal.CompletedAt ≠ none then c
  else if (match goal.StartDate with
      | some startDate => decide (now < startDate)
      | none => false) then c
  else if (match goal.EndDate with
      | some endDate => decide (endDate < now)
      | none => false) then c
  else
    match GetGoalProgress goal.ID userID c with
    | (Except.error _, c1) => c1
    | (Except.ok progress, c1) =>
      let newCurrentPoints :=
        match progress with
        | some p => wrapInt64 (pointsEarned + p.CurrentPoints)
        | none => pointsEarned
      let newProgressPercent := progressPercent newCurrentPoints goal.TargetPoints
      let completedAt := if goal.TargetPoints ≤ newCurrentPoints then some now else none
      (UpsertGoalProgress
        { GoalID := goal.ID, UserID := userID, CurrentPoints := newCurrentPoints,
          Progress := newProgressPercent, CompletedAt := completedAt, UpdatedAt := now } c1).2

/-- `Service.UpdateGoalProgressForUser`: the bonus of a completed goal is only
logged, no statement awards it. -/
def UpdateGoalProgressForUser (now : Time) (userID circleID pointsEarned : Int) (c : Conn) :
    Option DBError × Conn :=
  match GetGoalsByCircle circleID (some userID) c with
  | (Except.error err, c1) => (some err, c1)
  | (Except.ok goals, c1) =>
    (none, goals.foldl (fun conn goal => updateGoalProgressForGoal now userID pointsEarned goal conn) c1)

/-- The loop `for _, reward := range rewards` of `GetAvailableRewards`, with the
slice `available` built so far. -/
def availableLoop (userPoints : Int) : List Reward → List Reward → List Reward
  | available, [] => available
  | available, reward :: rest =>
    if reward.PointsCost ≤ userPoints then
      match reward.MaxRedeems with
      | none => availableLoop userPoints (available ++ [reward]) rest
      | some maxRedeems =>
        if reward.TimesRedeemed < maxRedeems then
          availableLoop userPoints (available ++ [reward]) rest
        else availableLoop userPoints available rest
    else availableLoop userPoints available rest

/-- `Service.GetAvailableRewards`. -/
def GetAvailableRewards (circleID userPoints : Int) (c : Conn) :
    Except DBError (List Reward) × Conn :=
  match GetRewardsByCircle circleID c with
  | (Except.error err, c1) => (Except.error err, c1)
  | (Except.ok rewards, c1) => (Except.ok (availableLoop userPoints [] rewards), c1)

/-! ## `internal/rewards/repo/repository.go`: the batch pass -/

/-- `RewardsRepository.GetGoalByID` read off the tables: `First(&goal, goalID)`. -/
def findGoal (db : DB) (goalID : Int) : Option Goal :=
  db.goals.find? fun g => decide (g.ID = goalID)

/-- The goal query of `UpdateGoalProgress`: `circle_id = ? AND is_active = true`,
no `ORDER BY`. -/
def activeGoalsOf (db : DB) (circleID : Int) : List Goal :=
  db.goals.filter fun g => decide (g.CircleID = circleID) && g.IsActive

/-- The member query of `UpdateGoalProgress`: `Pluck("user_id")` over
`circle_id = ? AND is_active = true`. -/
def activeMemberIDs (db : DB) (circleID : Int) : List Int :=
  (db.userCircles.filter fun uc => decide (uc.CircleID = circleID) && uc.IsActive).map
    fun uc => uc.UserID

/-- The loop `for _, userID := range userIDs` of `UpdateGoalProgress`: the first
error ends it. -/
def updateGoalProgressForUsers (now : Time) (goal : Goal) :
    List Int → Conn → Option DBError × Conn
  | [], tx => (none, tx)
  | userID :: rest, tx =>
    match updateUserGoalProgress now goal userID tx with
    | (some err, tx1) => (some err, tx1)
    | (none, tx1) => updateGoalProgressForUsers now goal rest tx1

/-- The body of the loop `for _, goal := range goals` of `UpdateGoalProgress`:
the goal's own user, or every active member of the circle when the goal is
circle-wide.  The goal is the record loaded by the goal query; it is not read
again between two members. -/
def updateGoalProgressOfGoal (now : Time) (circleID : Int) (goal : Goal) (tx : Conn) :
    Option DBError × Conn :=
  match goal.UserID with
  | some userID => updateUserGoalProgress now goal userID tx
  | none =>
    match query (fun db => activeMemberIDs db circleID) tx with
    | (Except.error err, tx1) => (some err, tx1)
    | (Except.ok userIDs, tx1) => updateGoalProgressForUsers now goal userIDs tx1

/-- The loop `for _, goal := range goals` of `UpdateGoalProgress`. -/
def updateGoalProgressLoop (now : Time) (circleID : Int) :
    List Goal → Conn → Option DBError × Conn
  | [], tx => (none, tx)
  | goal :: rest, tx =>
    match updateGoalProgressOfGoal now circleID goal tx with
    | (some err, tx1) => (some err, tx1)
    | (none, tx1) => updateGoalProgressLoop now circleID rest tx1

/-- The function `UpdateGoalProgress` hands to `db.Transaction`: load the active
goals of the circle, then the loop. -/
def updateGoalProgressTx (now : Time) (circleID : Int) (tx : Conn) : Option DBError × Conn :=
  match query (fun db => activeGoalsOf db circleID) tx with
  | (Except.error err, tx1) => (some err, tx1)
  | (Except.ok goals, tx1) => updateGoalProgressLoop now circleID goals tx1

/-- `RewardsRepository.UpdateGoalProgress`: one transaction for the circle. -/
def UpdateGoalProgress (now : Time) (circleID : Int) (c : Conn) : Option DBError × Conn :=
  Transaction (updateGoalProgressTx now circleID) c

/-! ## `internal/rewards/scheduler.go` -/

/-- The circle ids the scheduler walks: `for circleID := 1; circleID <= 100;
circleID++`. -/
def scheduledCircleIDs : List Int := (List.range 100).map fun (i : Nat) => (i : Int) + 1

/-- `Scheduler.updateAllGoalProgress`: an error of `UpdateGoalProgress` is logged
and the loop goes on; the function returns `nil`. -/
def updateAllGoalProgress (now : Time) (c : Conn) : Option DBError × Conn :=
  (none, scheduledCircleIDs.foldl (fun conn circleID => (UpdateGoalProgress now circleID conn).2) c)

/-- The loop of `updateAllGoalProgress` over the given circle ids: the
connection it leaves. -/
def updateCircles (now : Time) (circleIDs : List Int) (c : Conn) : Conn :=
  circleIDs.foldl (fun conn circleID => (UpdateGoalProgress now circleID conn).2) c

/-- The circle ids `updateAllGoalProgress` walks before it reaches `circleID`. -/
def circlesBefore (circleID : Int) : List Int :=
  scheduledCircleIDs.takeWhile fun k => decide (k ≠ circleID)

/-! ## `internal/rewards/repo/repository.go`: the leaderboard -/

/-- `rModel.PointsLeaderboard`; the columns taken from `users` (username, display
name, image) are presentation only and left out. -/
structure PointsLeaderboard where
  UserID : Int
  Points : Int
  Rank : Int
  PointsThisWeek : Int
  PointsThisMonth : Int
  deriving DecidableEq

/-- One day, instants being counted in nanoseconds as `time.Time` does. -/
def day : Time := 86400000000000

/-- The sub-queries `week_points` and `month_points`: the sum of the grants
(`action = 0`) of a user in the circle with `created_at >= since`, `0` when there
is none (`COALESCE`). -/
def grantsSince (db : DB) (circleID userID : Int) (since : Time) : Int :=
  ((db.pointsHistories.filter fun h =>
      decide (h.Action = PointsHistoryAction.Add) && decide (h.CircleID = circleID) &&
        decide (h.UserID = userID) && decide (since ≤ h.CreatedAt)).map fun h => h.Points).sum

/-- The SQL engine behind `r.db`, as far as the raw query of `GetLeaderboard`
depends on it.  The query calls `DATE_SUB(NOW(), INTERVAL 7 DAY)`, which is MySQL
dialect: an engine without it rejects the statement.  The query orders by
`uc.points DESC` only, in the window of `ROW_NUMBER()` and in the outer `ORDER
BY`: the order of rows with equal points is the engine's, and it need not be the
same in the two places. -/
structure Engine where
  hasDateSub : Bool
  windowOrder : List UserCircle → List UserCircle
  resultOrder : List (UserCircle × Int) → List (UserCircle × Int)

/-- The engine orders as SQL requires: the order of the window and the order of
the result are rearrangements of their rows by non-increasing points. -/
def Engine.Conforms (engine : Engine) : Prop :=
  (∀ rows : List UserCircle, (engine.windowOrder rows).Perm rows ∧
    (engine.windowOrder rows).Sorted fun a b => b.Points ≤ a.Points) ∧
  (∀ rows : List (UserCircle × Int), (engine.resultOrder rows).Perm rows ∧
    (engine.resultOrder rows).Sorted fun a b => b.1.Points ≤ a.1.Points)

/-- `WHERE uc.circle_id = ? AND uc.is_active = true`: the membership rows of the
leaderboard, in table order. -/
def leaderboardMembers (db : DB) (circleID : Int) : List UserCircle :=
  db.userCircles.filter fun uc => decide (uc.CircleID = circleID) && uc.IsActive

/-- `ROW_NUMBER()`: the rows in the order of the window, numbered from `rank`. -/
def numberRows : Int → List UserCircle → List (UserCircle × Int)
  | _, [] => []
  | rank, uc :: rest => (uc, rank) :: numberRows (rank + 1) rest

/-- The selected columns of one numbered row. -/
def leaderboardEntry (db : DB) (now : Time) (circleID : Int) (row : UserCircle × Int) :
    PointsLeaderboard :=
  { UserID := row.1.UserID, Points := row.1.Points, Rank := row.2,
    PointsThisWeek := grantsSince db circleID row.1.UserID (now - 7 * day),
    PointsThisMonth := grantsSince db circleID row.1.UserID (now - 30 * day) }

/-- The rows the raw query of `GetLeaderboard` returns on an engine that accepts
it, for `limit >= 0`: the members are numbered in the order of the window, the
numbered rows are put in the order of the result, and `LIMIT` keeps the first
`limit` of them.  Every membership row is taken to have its row in `users` (the
foreign key), so the join drops none. -/
def leaderboardQuery (engine : Engine) (now : Time) (circleID limit : Int) (db : DB) :
    List PointsLeaderboard :=
  ((engine.resultOrder
      (numberRows 1 (engine.windowOrder (leaderboardMembers db circleID)))).take
    limit.toNat).map (leaderboardEntry db now circleID)

/-- `RewardsRepository.GetLeaderboard`: one statement; an engine without
`DATE_SUB` answers it with an error. -/
def GetLeaderboard (engine : Engine) (now : Time) (circleID limit : Int) (c : Conn) :
    Except DBError (List PointsLeaderboard) × Conn :=
  match query (leaderboardQuery engine now circleID limit) c with
  | (Except.error err, c1) => (Except.error err, c1)
  | (Except.ok leaderboard, c1) =>
    if engine.hasDateSub then (Except.ok leaderboard, c1)
    else (Except.error DBError.storage, c1)

/-! ## The leaderboard endpoints -/

/-- `strconv.Atoi`: an optional sign and decimal digits, within the range of a
64-bit `int`; `none` stands for a returned error. -/
def atoi (s : String) : Option Int :=
  let digits : List Char :=
    match s.toList with
    | '-' :: rest => rest
    | '+' :: rest => rest
    | all => all
  let negative : Bool :=
    match s.toList with
    | '-' :: _ => true
    | _ => false
  if digits.isEmpty || !digits.all Char.isDigit then none
  else
    let magnitude : Nat := digits.foldl (fun acc ch => 10 * acc + (ch.toNat - 48)) 0
    let value : Int := if negative then -(magnitude : Int) else (magnitude : Int)
    if -(2 : Int) ^ 63 ≤ value ∧ value < (2 : Int) ^ 63 then some value else none

/-- The limit of both leaderboard endpoints: `limitStr := c.DefaultQuery("limit",
"10")`, `limit, err := strconv.Atoi(limitStr)`, and
`if err != nil || limit <= 0 || limit > 50 { limit = 10 }`. -/
def leaderboardLimit (limitParam : Option String) : Int :=
  match atoi (limitParam.getD "10") with
  | none => 10
  | some limit => if limit ≤ 0 ∨ 50 < limit then 10 else limit

/-- What a leaderboard endpoint writes with `c.JSON`. -/
structure LeaderboardResponse where
  code : Nat
  error : String
  leaderboard : List PointsLeaderboard
  deriving DecidableEq

/-- `Handler.GetLeaderboard`. -/
def HandlerGetLeaderboard (engine : Engine) (now : Time) (currentUser : Option CurrentUser)
    (limitParam : Option String) (c : Conn) : LeaderboardResponse × Conn :=
  match currentUser with
  | none => ({ code := 500, error := "Error getting current user", leaderboard := [] }, c)
  | some currentUser =>
    match GetLeaderboard engine now currentUser.CircleID (leaderboardLimit limitParam) c with
    | (Except.error _, c1) =>
      ({ code := 500, error := "Failed to get leaderboard", leaderboard := [] }, c1)
    | (Except.ok leaderboard, c1) => ({ code := 200, error := "", leaderboard := leaderboard }, c1)

/-- `API.GetLeaderboard`.  `apiToken` is the header `secretkey`, `user` the
result of `userRepo.GetUserByToken` (`none` when it returns an error). -/
def APIGetLeaderboard (engine : Engine) (now : Time) (apiToken : String)
    (user : Option CurrentUser) (limitParam : Option String) (c : Conn) :
    LeaderboardResponse × Conn :=
  if apiToken = "" then ({ code := 401, error := "Unauthorized", leaderboard := [] }, c)
  else
    match user with
    | none => ({ code := 401, error := "Unauthorized", leaderboard := [] }, c)
    | some user =>
      match GetLeaderboard engine now user.CircleID (leaderboardLimit limitParam) c with
      | (Except.error _, c1) =>
        ({ code := 500, error := "Failed to get leaderboard", leaderboard := [] }, c1)
      | (Except.ok leaderboard, c1) =>
        ({ code := 200, error := "", leaderboard := leaderboard }, c1)

/-! ## The effect of a recomputation when no statement fails -/

/-- The tables after the bonus block of `updateUserGoalProgress` when neither of
its statements fails. -/
def goalBonusTables (now : Time) (goal : Goal) (userID : Int) (db : DB) : DB :=
  match goal.RewardPoints with
  | none => db
  | some rewardPoints =>
    if 0 < rewardPoints then
      insertPointsHistory
        { Action := PointsHistoryAction.Add, Points := rewardPoints, CreatedAt := now,
          CreatedBy := userID, UserID := userID, CircleID := goal.CircleID }
        (updateUserCirclePoints userID goal.CircleID (fun p => p + rewardPoints) db)
    else db

/-- The tables after `updateUserGoalProgress` when none of its statements
fails. -/
def updateUserGoalProgressTables (now : Time) (goal : Goal) (userID : Int) (db : DB) : DB :=
  if goal.TargetPoints ≤ goalWindowPoints goal userID db ∧ goal.CompletedAt = none then
    saveGoalProgress
      { GoalID := goal.ID, UserID := userID, CurrentPoints := goalWindowPoints goal userID db,
        Progress := progressPercent (goalWindowPoints goal userID db) goal.TargetPoints,
        CompletedAt := some now, UpdatedAt := now }
      (markGoalCompleted now goal.ID (goalBonusTables now goal userID db))
  else
    saveGoalProgress
      { GoalID := goal.ID, UserID := userID, CurrentPoints := goalWindowPoints goal userID db,
        Progress := progressPercent (goalWindowPoints goal userID db) goal.TargetPoints,
        CompletedAt := none, UpdatedAt := now }
      db

/-- The users `UpdateGoalProgress` recomputes a goal for: the goal's user, or the
active members of the circle when the goal is circle-wide. -/
def relevantUserIDs (db : DB) (circleID : Int) (goal : Goal) : List Int :=
  match goal.UserID with
  | some userID => [userID]
  | none => activeMemberIDs db circleID

/-- The tables after the member loop of `UpdateGoalProgress` when no statement
fails. -/
def recomputeUsersTables (now : Time) (goal : Goal) (userIDs : List Int) (db : DB) : DB :=
  userIDs.foldl (fun d userID => updateUserGoalProgressTables now goal userID d) db

/-- The tables after the body of the goal loop of `UpdateGoalProgress` when no
statement fails. -/
def recomputeGoalTables (now : Time) (circleID : Int) (goal : Goal) (db : DB) : DB :=
  recomputeUsersTables now goal (relevantUserIDs db circleID goal) db

/-- The tables after the goal loop of `UpdateGoalProgress` when no statement
fails. -/
def recomputeLoopTables (now : Time) (circleID : Int) (goals : List Goal) (db : DB) : DB :=
  goals.foldl (fun d goal => recomputeGoalTables now circleID goal d) db

/-- The tables after `UpdateGoalProgress` when no statement fails. -/
def recomputeCircleTables (now : Time) (circleID : Int) (db : DB) : DB :=
  recomputeLoopTables now circleID (activeGoalsOf db circleID) db

/-- The tables after `updateAllGoalProgress` over the given circle ids when no
statement fails. -/
def recomputeAllTables (now : Time) (circleIDs : List Int) (db : DB) : DB :=
  circleIDs.foldl (fun d circleID => recomputeCircleTables now circleID d) db

/-- The columns of a goal no recomputation writes. -/
def goalKey (goal : Goal) : Int × Int × Bool × Option Int :=
  (goal.ID, goal.CircleID, goal.IsActive, goal.UserID)

/-- The columns of a membership row no recomputation writes. -/
def memberKey (uc : UserCircle) : Int × Int × Bool := (uc.UserID, uc.CircleID, uc.IsActive)

/-- Two states of the tables hold the same goals and memberships, up to the
columns a recomputation writes. -/
def SameShape (db db' : DB) : Prop :=
  db'.goals.map goalKey = db.goals.map goalKey ∧
    db'.userCircles.map memberKey = db.userCircles.map memberKey

/-- The pair has a progress row written at the instant `now`. -/
def RecomputedAt (now : Time) (goalID userID : Int) (db : DB) : Prop :=
  ∃ row : GoalProgress, findGoalProgress db goalID userID = some row ∧ row.UpdatedAt = now

/-- The row the loop of `UpdateGoalProgressForUser` writes for a goal, given the
row it read. -/
def incrementalRow (now : Time) (userID pointsEarned : Int) (goal : Goal)
    (progress : Option GoalProgress) : GoalProgress :=
  { GoalID := goal.ID, UserID := userID,
    CurrentPoints :=
      match progress with
      | some p => wrapInt64 (pointsEarned + p.CurrentPoints)
      | none => pointsEarned,
    Progress :=
      progressPercent
        (match progress with
          | some p => wrapInt64 (pointsEarned + p.CurrentPoints)
          | none => pointsEarned) goal.TargetPoints,
    CompletedAt :=
      if goal.TargetPoints ≤
          (match progress with
            | some p => wrapInt64 (pointsEarned + p.CurrentPoints)
            | none => pointsEarned) then some now
      else none,
    UpdatedAt := now }

/-- The loop of `UpdateGoalProgressForUser` does not skip the goal: it is
circle-wide or the user's own, not completed, and `now` lies in its window. -/
def goalAppliesNow (now : Time) (userID : Int) (goal : Goal) : Prop :=
  (goal.UserID = none ∨ goal.UserID = some userID) ∧ goal.CompletedAt = none ∧
    (∀ startDate ∈ goal.StartDate, startDate ≤ now) ∧ (∀ endDate ∈ goal.EndDate, now ≤ endDate)

instance (now : Time) (userID : Int) (goal : Goal) : Decidable (goalAppliesNow now userID goal) := by
  unfold goalAppliesNow; infer_instance

/-- The tables after the body of the loop of `UpdateGoalProgressForUser` for one
goal when no statement fails. -/
def updateGoalProgressForGoalTables (now : Time) (userID pointsEarned : Int) (goal : Goal)
    (db : DB) : DB :=
  if goalAppliesNow now userID goal then
    saveGoalProgress
      (incrementalRow now userID pointsEarned goal (findGoalProgress db goal.ID userID)) db
  else db

/-- The tables after `AwardPoints` when neither of its statements fails. -/
def awardTables (now : Time) (userID circleID points createdBy : Int) (db : DB) : DB :=
  insertPointsHistory
    { Action := PointsHistoryAction.Add, Points := points, CreatedAt := now,
      CreatedBy := createdBy, UserID := userID, CircleID := circleID }
    (updateUserCirclePoints userID circleID (fun p => p + points) db)

/-- The instant lies in the window of the goal. -/
def windowHolds (goal : Goal) (t : Time) : Prop :=
  (∀ startDate ∈ goal.StartDate, startDate ≤ t) ∧ (∀ endDate ∈ goal.EndDate, t ≤ endDate)

instance (goal : Goal) (t : Time) : Decidable (windowHolds goal t) := by
  unfold windowHolds; infer_instance

/-- The `currentPoints` stored for a (goal, user) pair, 0 when there is no row. -/
def storedPoints (db : DB) (goalID userID : Int) : Int :=
  match findGoalProgress db goalID userID with
  | some row => row.CurrentPoints
  | none => 0

/-- One grant: the clock reading of `AwardPoints`, the clock reading of the
`UpdateGoalProgressForUser` that follows it, and the amount. -/
structure GrantCall where
  awardedAt : Time
  recomputedAt : Time
  points : Int
  deriving DecidableEq

/-- The grants alone: one `AwardPoints` each. -/
def awardOnly (userID circleID createdBy : Int) (grants : List GrantCall) (c : Conn) : Conn :=
  grants.foldl
    (fun conn grant => (AwardPoints grant.awardedAt userID circleID grant.points createdBy conn).2)
    c

/-- Each grant followed by the incremental recomputation for its amount. -/
def awardAndRecompute (userID circleID createdBy : Int) (grants : List GrantCall) (c : Conn) :
    Conn :=
  grants.foldl
    (fun conn grant =>
      (UpdateGoalProgressForUser grant.recomputedAt userID circleID grant.points
        (AwardPoints grant.awardedAt userID circleID grant.points createdBy conn).2).2)
    c

/-- No `int` addition of the incremental path overflows: every running total,
from the stored `currentPoints` on, is an `int64`. -/
def totalsFit (start : Int) (grants : List GrantCall) : Prop :=
  ∀ k : Nat, -2 ^ 63 ≤ start + ((grants.take k).map fun grant => grant.points).sum ∧
    start + ((grants.take k).map fun grant => grant.points).sum < 2 ^ 63

/-- A recomputation of the progress of one goal: the batch path for a user, or
the incremental path after a grant to a user. -/
inductive RecomputeCall where
  | batch (now : Time) (userID : Int)
  | incremental (now : Time) (userID pointsEarned : Int)

/-- Run one recomputation for the goal, as loaded from the goal table. -/
def RecomputeCall.run (goal : Goal) : RecomputeCall → Conn → Conn
  | RecomputeCall.batch now userID, c => (updateUserGoalProgress now goal userID c).2
  | RecomputeCall.incremental now userID pointsEarned, c =>
    (UpdateGoalProgressForUser now userID goal.CircleID pointsEarned c).2

/-- Run recomputations one after the other. -/
def runRecomputations (goal : Goal) (calls : List RecomputeCall) (c : Conn) : Conn :=
  calls.foldl (fun conn call => call.run goal conn) c

/-- Only the progress table differs between two states of the tables. -/
def OnlyProgressChanged (db db' : DB) : Prop :=
  db'.userCircles = db.userCircles ∧ db'.pointsHistories = db.pointsHistories ∧
    db'.goals = db.goals ∧ db'.rewards = db.rewards ∧ db'.redemptions = db.redemptions

/-! ## The spec's wording of `currentPoints` -/

/-- Section 3 of the spec: an event counts toward a goal for a user when it is a
Grant of that user in the goal's group whose time lies in the goal's window. -/
def countsTowardGoal (goal : Goal) (userID : Int) (h : PointsHistory) : Prop :=
  h.Action = PointsHistoryAction.Add ∧ h.UserID = userID ∧ h.CircleID = goal.CircleID ∧
    (∀ startDate ∈ goal.StartDate, startDate ≤ h.CreatedAt) ∧
    (∀ endDate ∈ goal.EndDate, h.CreatedAt ≤ endDate)

instance (goal : Goal) (userID : Int) (h : PointsHistory) :
    Decidable (countsTowardGoal goal userID h) := by
  unfold countsTowardGoal; infer_instance

/-- Section 3 of the spec: `currentPoints` is the sum of the amounts of the
events that count, read off the ledger event by event. -/
def specCurrentPoints (goal : Goal) (userID : Int) : List PointsHistory → Int
  | [] => 0
  | h :: rest =>
    if countsTowardGoal goal userID h then h.Points + specCurrentPoints goal userID rest
    else specCurrentPoints goal userID rest

/-! ## The spec's wording of an affordable reward -/

/-- Section 4.4 of the spec, the cap and balance preconditions of creation:
`timesRedeemed < maxRedeems` (if capped) and balance ≥ `pointsCost`. -/
def specCanRedeem (userPoints : Int) (reward : Reward) : Prop :=
  reward.PointsCost ≤ userPoints ∧
    (reward.MaxRedeems = none ∨ ∃ maxRedeems, reward.MaxRedeems = some maxRedeems ∧
      reward.TimesRedeemed < maxRedeems)

instance (userPoints : Int) (reward : Reward) : Decidable (specCanRedeem userPoints reward) := by
  unfold specCanRedeem
  cases reward.MaxRedeems with
  | none => exact decidable_of_iff (reward.PointsCost ≤ userPoints) (by simp)
  | some m =>
    exact decidable_of_iff (reward.PointsCost ≤ userPoints ∧ reward.TimesRedeemed < m) (by simp)

/-! ## Example states -/

/-- Example tables: one member of circle 1 with an empty ledger. -/
def exLedgerDB : DB :=
  { userCircles := [{ UserID := 1, CircleID := 1, Points := 0, IsActive := true }],
    pointsHistories := [], rewards := [], redemptions := [], goals := [], goalProgresses := [] }

/-- Example calls: a grant of 30 and a deduction of 50 for user 1 in circle 1. -/
def exLedgerCalls : List LedgerCall :=
  [LedgerCall.award 10 1 1 30 7, LedgerCall.deduct 11 1 1 50 1]

/-- Example reward: active, capped at two redemptions, cost 40. -/
def exMovieNight : Reward :=
  { ID := 1, Name := "Movie Night", PointsCost := 40, CircleID := 1, CreatedBy := 2,
    IsActive := true, MaxRedeems := some 2, TimesRedeemed := 0, CreatedAt := 0,
    UpdatedAt := 0 }

/-- Example reward: soft-deleted (`IsActive = false`), cost 30. -/
def exSkipChore : Reward :=
  { ID := 2, Name := "Skip a Chore", PointsCost := 30, CircleID := 1, CreatedBy := 2,
    IsActive := false, MaxRedeems := none, TimesRedeemed := 0, CreatedAt := 0,
    UpdatedAt := 0 }

/-- Example tables: user 1 of circle 1 holds 100 points, granted by one event;
the circle has the two example rewards. -/
def exRedeemDB : DB :=
  { userCircles := [{ UserID := 1, CircleID := 1, Points := 100, IsActive := true }],
    pointsHistories :=
      [{ Action := PointsHistoryAction.Add, Points := 100, CreatedAt := 1, CreatedBy := 1,
         UserID := 1, CircleID := 1 }],
    rewards := [exMovieNight, exSkipChore],
    redemptions := [], goals := [], goalProgresses := [] }

/-- Example redemption: user 1 redeems reward 1 for 40 points. -/
def exRedemption : RewardRedemption :=
  { ID := 0, RewardID := 1, UserID := 1, CircleID := 1, Points := 40,
    Status := RedemptionStatusPending, Notes := none, CreatedAt := 5, UpdatedAt := 5 }

/-- Example caller: user 1 of circle 1. -/
def exUser : CurrentUser := { ID := 1, CircleID := 1 }

/-- Example caller: user 2 of circle 1, who has no points. -/
def exPoorUser : CurrentUser := { ID := 2, CircleID := 1 }

/-- Example fault script: the two reads of `RedeemReward` and the five statements
of `CreateRedemption` succeed, the next statement (the first of the point
deduction) fails. -/
def exDeductionFault : List Bool := [false, false, false, false, false, false, false, true]

/-- Example tables: one redemption, already rejected. -/
def exStatusDB : DB :=
  { userCircles := [{ UserID := 1, CircleID := 1, Points := 60, IsActive := true }],
    pointsHistories := [], rewards := [],
    redemptions :=
      [{ ID := 7, RewardID := 1, UserID := 1, CircleID := 1, Points := 40,
         Status := RedemptionStatusRejected, Notes := none, CreatedAt := 5, UpdatedAt := 6 }],
    goals := [], goalProgresses := [] }

/-- Example goal: 100 points between the instants 10 and 20, with a bonus of 20,
for every member of circle 1. -/
def exGoal : Goal :=
  { ID := 1, Name := "Weekly Champion", TargetPoints := 100, CircleID := 1, UserID := none,
    CreatedBy := 2, IsActive := true, StartDate := some 10, EndDate := some 20,
    RewardPoints := some 20, CompletedAt := none, CreatedAt := 0, UpdatedAt := 0 }

/-- Example tables for the goal: user 1 was granted 50 and 60 inside the window
and 70 after it, spent 30, and user 2 was granted 40. -/
def exGoalDB : DB :=
  { userCircles :=
      [{ UserID := 1, CircleID := 1, Points := 150, IsActive := true },
       { UserID := 2, CircleID := 1, Points := 40, IsActive := true }],
    pointsHistories :=
      [{ Action := PointsHistoryAction.Add, Points := 50, CreatedAt := 12, CreatedBy := 1,
         UserID := 1, CircleID := 1 },
       { Action := PointsHistoryAction.Redeem, Points := 30, CreatedAt := 13, CreatedBy := 1,
         UserID := 1, CircleID := 1 },
       { Action := PointsHistoryAction.Add, Points := 40, CreatedAt := 14, CreatedBy := 2,
         UserID := 2, CircleID := 1 },
       { Action := PointsHistoryAction.Add, Points := 60, CreatedAt := 15, CreatedBy := 1,
         UserID := 1, CircleID := 1 },
       { Action := PointsHistoryAction.Add, Points := 70, CreatedAt := 25, CreatedBy := 1,
         UserID := 1, CircleID := 1 }],
    rewards := [], redemptions := [], goals := [exGoal], goalProgresses := [] }

/-- Example goal of the end-to-end scenario: 100 points, no window, a bonus of
20, for every member of circle 1. -/
def exScenarioGoal : Goal :=
  { ID := 1, Name := "Century", TargetPoints := 100, CircleID := 1, UserID := none,
    CreatedBy := 9, IsActive := true, StartDate := none, EndDate := none,
    RewardPoints := some 20, CompletedAt := none, CreatedAt := 0, UpdatedAt := 0 }

/-- Example tables of the scenario: users 1 and 2 are members of circle 1 with no
points, the ledger is empty. -/
def exScenarioDB : DB :=
  { userCircles :=
      [{ UserID := 1, CircleID := 1, Points := 0, IsActive := true },
       { UserID := 2, CircleID := 1, Points := 0, IsActive := true }],
    pointsHistories := [], rewards := [], redemptions := [], goals := [exScenarioGoal],
    goalProgresses := [] }

/-- Batch scenario: 50 points granted to user 1 at instant 1, batch pass at 2. -/
def exBatchFirst : Conn :=
  (UpdateGoalProgress 2 1 (AwardPoints 1 1 1 50 9 { db := exScenarioDB, faults := [] }).2).2

/-- Batch scenario: 60 more points at instant 3, batch pass at 4. -/
def exBatchSecond : Conn :=
  (UpdateGoalProgress 4 1 (AwardPoints 3 1 1 60 9 exBatchFirst).2).2

/-- Batch scenario: one more batch pass, at instant 5. -/
def exBatchThird : Conn := (UpdateGoalProgress 5 1 exBatchSecond).2

/-- Batch scenario: afterwards 120 points are granted to user 2 at instant 6 and
a batch pass runs at 7. -/
def exBatchMemberB : Conn :=
  (UpdateGoalProgress 7 1 (AwardPoints 6 2 1 120 9 exBatchThird).2).2

/-- Incremental scenario: 50 points granted to user 1 at instant 1, followed by
the incremental recomputation. -/
def exIncrFirst : Conn :=
  (UpdateGoalProgressForUser 1 1 1 50
    (AwardPoints 1 1 1 50 9 { db := exScenarioDB, faults := [] }).2).2

/-- Incremental scenario: 60 more points at instant 3. -/
def exIncrSecond : Conn :=
  (UpdateGoalProgressForUser 3 1 1 60 (AwardPoints 3 1 1 60 9 exIncrFirst).2).2

/-- Incremental scenario: 5 more points at instant 8. -/
def exIncrThird : Conn :=
  (UpdateGoalProgressForUser 8 1 1 5 (AwardPoints 8 1 1 5 9 exIncrSecond).2).2

/-- Example tables: circle 101 has an active goal of 100 points and a member who
was granted 150. -/
def exFarDB : DB :=
  { userCircles := [{ UserID := 1, CircleID := 101, Points := 150, IsActive := true }],
    pointsHistories :=
      [{ Action := PointsHistoryAction.Add, Points := 150, CreatedAt := 1, CreatedBy := 1,
         UserID := 1, CircleID := 101 }],
    rewards := [], redemptions := [],
    goals := [{ exScenarioGoal with ID := 5, CircleID := 101 }], goalProgresses := [] }

/-- Example tables for the leaderboard: the members of circle 1 joined in the
order 3, 2, 1, 4 and hold 30, 10, 30 and 5 points; user 5 is inactive and user 6
belongs to circle 2. -/
def exBoardDB : DB :=
  { userCircles :=
      [{ UserID := 3, CircleID := 1, Points := 30, IsActive := true },
       { UserID := 2, CircleID := 1, Points := 10, IsActive := true },
       { UserID := 5, CircleID := 1, Points := 90, IsActive := false },
       { UserID := 1, CircleID := 1, Points := 30, IsActive := true },
       { UserID := 6, CircleID := 2, Points := 70, IsActive := true },
       { UserID := 4, CircleID := 1, Points := 5, IsActive := true }],
    pointsHistories := [], rewards := [], redemptions := [], goals := [], goalProgresses := [] }

/-- Example goal: the scenario goal as the goal table holds it once its
completion has been recorded at instant 4. -/
def exCompletedGoal : Goal := { exScenarioGoal with CompletedAt := some 4, UpdatedAt := 4 }

/-- Example recomputations: two batch runs and one incremental run. -/
def exRecomputeCalls : List RecomputeCall :=
  [RecomputeCall.batch 5 1, RecomputeCall.incremental 6 1 10, RecomputeCall.batch 7 2]

/-- The grants of the scenario: 50 at instant 1 and 60 at instant 3, each
recomputed at the instant of the grant. -/
def exGrants : List GrantCall :=
  [{ awardedAt := 1, recomputedAt := 1, points := 50 },
   { awardedAt := 3, recomputedAt := 3, points := 60 }]

/-- Batch scenario with one pass: the two grants, then one batch pass at
instant 4. -/
def exBatchOnce : Conn :=
  (UpdateGoalProgress 4 1 (awardOnly 1 1 9 exGrants { db := exScenarioDB, faults := [] })).2

/-- Example goal of user 1 in circle 1: 100 points, no bonus. -/
def exOwnGoal : Goal :=
  { ID := 1, Name := "Own", TargetPoints := 100, CircleID := 1, UserID := some 1,
    CreatedBy := 9, IsActive := true, StartDate := none, EndDate := none,
    RewardPoints := none, CompletedAt := none, CreatedAt := 0, UpdatedAt := 0 }

/-- Example tables: circle 1 has the member 1 and three active goals of that
user (ids 1, 2, 3), circle 2 has the member 2 and one active goal of that user
(id 4); the ledger is empty. -/
def exTwoCirclesDB : DB :=
  { userCircles :=
      [{ UserID := 1, CircleID := 1, Points := 0, IsActive := true },
       { UserID := 2, CircleID := 2, Points := 0, IsActive := true }],
    pointsHistories := [], rewards := [], redemptions := [],
    goals :=
      [exOwnGoal, { exOwnGoal with ID := 2 }, { exOwnGoal with ID := 3 },
       { exOwnGoal with ID := 4, CircleID := 2, UserID := some 2 }],
    goalProgresses := [] }

/-- Example fault script: in the transaction of circle 1 the begin, the goal
query and the two statements of goal 1 succeed, the sum query of goal 2 fails;
every later statement succeeds. -/
def exGoalFault : List Bool := [false, false, false, false, true]

/-- Example rewards of circle 1, in table order: cost 40 capped at 2 and open,
cost 30 soft-deleted, cost 20 capped at 1 and used up, cost 10 without cap, cost
80 without cap; and one reward of circle 2. -/
def exShopDB : DB :=
  { userCircles := [{ UserID := 1, CircleID := 1, Points := 50, IsActive := true }],
    pointsHistories := [],
    rewards :=
      [exMovieNight, exSkipChore,
       { exMovieNight with ID := 3, Name := "Ice Cream", PointsCost := 20, MaxRedeems := some 1,
                           TimesRedeemed := 1 },
       { exMovieNight with ID := 4, Name := "Sticker", PointsCost := 10, MaxRedeems := none },
       { exMovieNight with ID := 5, Name := "Day Trip", PointsCost := 80, MaxRedeems := none },
       { exMovieNight with ID := 6, Name := "Elsewhere", PointsCost := 5, CircleID := 2 }],
    redemptions := [], goals := [], goalProgresses := [] }

/-- Example goal of user 1 in circle 1: 100 points, a bonus of 20, no window. -/
def exBonusGoal : Goal := { exOwnGoal with ID := 7, Name := "Bonus", RewardPoints := some 20 }

/-- Example tables: user 1 has Grant events of 120 points in circle 1 but no
membership row there (user 2 is the only member), and the goal `exBonusGoal`. -/
def exNoRowDB : DB :=
  { userCircles := [{ UserID := 2, CircleID := 1, Points := 0, IsActive := true }],
    pointsHistories :=
      [{ Action := PointsHistoryAction.Add, Points := 120, CreatedAt := 1, CreatedBy := 9,
         UserID := 1, CircleID := 1 }],
    rewards := [], redemptions := [], goals := [exBonusGoal], goalProgresses := [] }

/-- Example tables: the scenario with a second active goal in circle 1 (id 2,
120 points, no bonus). -/
def exTwoGoalsDB : DB :=
  { exScenarioDB with
    goals :=
      [exScenarioGoal,
       { exScenarioGoal with ID := 2, Name := "Next", TargetPoints := 120,
                             RewardPoints := none }] }

/-- Two goals, incremental path: the grants of the scenario, each followed by the
incremental recomputation. -/
def exTwoGoalsIncr : Conn :=
  awardAndRecompute 1 1 9 exGrants { db := exTwoGoalsDB, faults := [] }

/-- Two goals, batch path: the grants of the scenario, then one batch pass at
instant 4. -/
def exTwoGoalsBatch : Conn :=
  (UpdateGoalProgress 4 1 (awardOnly 1 1 9 exGrants { db := exTwoGoalsDB, faults := [] })).2

/-- Example engine: it has `DATE_SUB`, and in both places rows of equal points
keep the order in which it reads them (the order of the table). -/
def exTableOrderEngine : Engine :=
  { hasDateSub := true,
    windowOrder := fun rows => rows.insertionSort fun a b => b.Points ≤ a.Points,
    resultOrder := fun rows => rows.insertionSort fun a b => b.1.Points ≤ a.1.Points }

/-- Example engine: as `exTableOrderEngine`, but the outer `ORDER BY` returns rows
of equal points in the reverse of the order in which they were numbered. -/
def exReverseTieEngine : Engine :=
  { hasDateSub := true,
    windowOrder := fun rows => rows.insertionSort fun a b => b.Points ≤ a.Points,
    resultOrder := fun rows => rows.reverse.insertionSort fun a b => b.1.Points ≤ a.1.Points }

/-- Example engine without `DATE_SUB`. -/
def exPlainEngine : Engine :=
  { hasDateSub := false,
    windowOrder := fun rows => rows.insertionSort fun a b => b.Points ≤ a.Points,
    resultOrder := fun rows => rows.insertionSort fun a b => b.1.Points ≤ a.1.Points }


/-! # Properties -/

/-! ## Storage statements -/

theorem exec_ok {f : DB → DB} {c : Conn} (h : (exec f c).1 = none) :
    (exec f c).2.db = f c.db ∧ (exec f c).2.faults = c.faults.tail := by
  unfold exec at *
  rcases hf : c.faults with _ | ⟨b, rest⟩
  · simp
  · cases b <;> simp [hf] at h ⊢

theorem exec_db_cases (f : DB → DB) (c : Conn) :
    ((exec f c).1 = none ∧ (exec f c).2.db = f c.db) ∨
      ((exec f c).1 = some DBError.storage ∧ (exec f c).2.db = c.db) := by
  unfold exec
  rcases hf : c.faults with _ | ⟨b, rest⟩
  · simp
  · cases b <;> simp

theorem query_snd_db {α : Type} (f : DB → α) (c : Conn) : (query f c).2.db = c.db := by
  unfold query
  rcases hf : c.faults with _ | ⟨b, rest⟩
  · simp
  · cases b <;> simp

theorem query_fst_ok {α : Type} {f : DB → α} {c : Conn} {v : α}
    (h : (query f c).1 = Except.ok v) : v = f c.db := by
  unfold query at h
  rcases hf : c.faults with _ | ⟨b, rest⟩
  · simp [hf] at h; exact h.symm
  · cases b <;> simp [hf] at h
    exact h.symm

theorem query_nofault {α : Type} (f : DB → α) (db : DB) :
    query f { db := db, faults := [] } = (Except.ok (f db), { db := db, faults := [] }) := rfl

/-! ## The ledger service -/

/-- The balance is the points of the first row with the pair's key. -/
theorem balance_eq_find (db : DB) (u g : Int) :
    balance db u g =
      match db.userCircles.find? (fun uc => decide (uc.CircleID = g) && decide (uc.UserID = u)) with
      | some uc => uc.Points
      | none => 0 := by
  unfold balance circleUsersOf lookupPoints
  rw [List.find?_filter]
  simp only [Bool.decide_and, Bool.decide_eq_true]

theorem find_update (l : List UserCircle) (u g u' g' : Int) (expr : Int → Int) :
    (l.map fun uc => if uc.UserID = u ∧ uc.CircleID = g then
        ({ uc with Points := expr uc.Points } : UserCircle) else uc).find?
      (fun uc => decide (uc.CircleID = g') && decide (uc.UserID = u')) =
    (l.find? (fun uc => decide (uc.CircleID = g') && decide (uc.UserID = u'))).map
      fun uc => if uc.UserID = u ∧ uc.CircleID = g then
        ({ uc with Points := expr uc.Points } : UserCircle) else uc := by
  rw [List.find?_map]
  congr 2
  funext uc
  by_cases h : uc.UserID = u ∧ uc.CircleID = g <;> simp [h]

theorem balance_update_same (db : DB) (u g : Int) (expr : Int → Int)
    (h : hasBalanceRow db u g) :
    balance (updateUserCirclePoints u g expr db) u g = expr (balance db u g) := by
  obtain ⟨uc, hmem, hu, hg⟩ := h
  rw [balance_eq_find, balance_eq_find]
  unfold updateUserCirclePoints
  simp only [find_update]
  cases hfind : db.userCircles.find? (fun uc => decide (uc.CircleID = g) && decide (uc.UserID = u)) with
  | none =>
    rw [List.find?_eq_none] at hfind
    have := hfind uc hmem
    simp [hu, hg] at this
  | some r =>
    have hr := List.find?_some hfind
    simp only [Bool.and_eq_true, decide_eq_true_eq] at hr
    simp [hr.1, hr.2]

theorem balance_update_other (db : DB) (u g u' g' : Int) (expr : Int → Int)
    (h : ¬ (u' = u ∧ g' = g)) :
    balance (updateUserCirclePoints u g expr db) u' g' = balance db u' g' := by
  rw [balance_eq_find, balance_eq_find]
  unfold updateUserCirclePoints
  simp only [find_update]
  cases hfind : db.userCircles.find? (fun uc => decide (uc.CircleID = g') && decide (uc.UserID = u')) with
  | none => rfl
  | some r =>
    have hr := List.find?_some hfind
    simp only [Bool.and_eq_true, decide_eq_true_eq] at hr
    have : ¬ (r.UserID = u ∧ r.CircleID = g) := by
      rintro ⟨h1, h2⟩
      exact h ⟨hr.2 ▸ h1, hr.1 ▸ h2⟩
    simp [this]

theorem hasBalanceRow_update (db : DB) (u g u' g' : Int) (expr : Int → Int) :
    hasBalanceRow (updateUserCirclePoints u g expr db) u' g' ↔ hasBalanceRow db u' g' := by
  unfold hasBalanceRow updateUserCirclePoints
  simp only [List.mem_map]
  constructor
  · rintro ⟨uc, ⟨x, hx, rfl⟩, h1, h2⟩
    refine ⟨x, hx, ?_⟩
    split_ifs at h1 h2 <;> exact ⟨h1, h2⟩
  · rintro ⟨x, hx, h1, h2⟩
    refine ⟨_, ⟨x, hx, rfl⟩, ?_⟩
    split_ifs <;> exact ⟨h1, h2⟩

theorem actionTotal_append (a : PointsHistoryAction) (hs : List PointsHistory) (h : PointsHistory)
    (u g : Int) :
    actionTotal a (hs ++ [h]) u g =
      actionTotal a hs u g + (if h.Action = a ∧ h.UserID = u ∧ h.CircleID = g then h.Points else 0) := by
  unfold actionTotal
  by_cases hc : h.Action = a ∧ h.UserID = u ∧ h.CircleID = g
  · simp [List.filter_append, List.filter_cons, hc]
  · simp [List.filter_append, List.filter_cons, hc]

theorem balance_insertPointsHistory (h : PointsHistory) (db : DB) (u g : Int) :
    balance (insertPointsHistory h db) u g = balance db u g := rfl

theorem hasBalanceRow_insertPointsHistory (h : PointsHistory) (db : DB) (u g : Int) :
    hasBalanceRow (insertPointsHistory h db) u g ↔ hasBalanceRow db u g := Iff.rfl

/-- A successful `AwardPoints` is the balance update followed by the insert. -/
theorem AwardPoints_ok {now : Time} {u g p by_ : Int} {tx : Conn}
    (h : (AwardPoints now u g p by_ tx).1 = none) :
    (AwardPoints now u g p by_ tx).2.db =
      insertPointsHistory
        { Action := PointsHistoryAction.Add, Points := p, CreatedAt := now,
          CreatedBy := by_, UserID := u, CircleID := g }
        (updateUserCirclePoints u g (fun q => q + p) tx.db) := by
  unfold AwardPoints CreatePointsHistory at *
  rcases htx : tx with ⟨db, faults⟩
  rcases faults with _ | ⟨b1, _ | ⟨b2, rest⟩⟩ <;> try cases b1
  all_goals try cases b2
  all_goals simp_all [exec]

theorem DeductPoints_ok {now : Time} {u g p by_ : Int} {tx : Conn}
    (h : (DeductPoints now u g p by_ tx).1 = none) :
    (DeductPoints now u g p by_ tx).2.db =
      insertPointsHistory
        { Action := PointsHistoryAction.Redeem, Points := p, CreatedAt := now,
          CreatedBy := by_, UserID := u, CircleID := g }
        (updateUserCirclePoints u g (fun q => q - p) tx.db) := by
  unfold DeductPoints CreatePointsHistory at *
  rcases htx : tx with ⟨db, faults⟩
  rcases faults with _ | ⟨b1, _ | ⟨b2, rest⟩⟩ <;> try cases b1
  all_goals try cases b2
  all_goals simp_all [exec]

theorem AwardPoints_nofault (now : Time) (u g p by_ : Int) (db : DB) :
    (AwardPoints now u g p by_ { db := db, faults := [] }).1 = none := rfl

theorem DeductPoints_nofault (now : Time) (u g p by_ : Int) (db : DB) :
    (DeductPoints now u g p by_ { db := db, faults := [] }).1 = none := rfl

/-- One paired write (balance delta and event of the same amount) keeps the
invariant. -/
theorem LedgerInvariant_award (db : DB) (now : Time) (u g p by_ : Int)
    (hinv : LedgerInvariant db) (hrow : hasBalanceRow db u g) :
    LedgerInvariant (insertPointsHistory
      { Action := PointsHistoryAction.Add, Points := p, CreatedAt := now,
        CreatedBy := by_, UserID := u, CircleID := g }
      (updateUserCirclePoints u g (fun q => q + p) db)) := by
  intro u' g'
  rw [balance_insertPointsHistory]
  have hh : (insertPointsHistory
      { Action := PointsHistoryAction.Add, Points := p, CreatedAt := now,
        CreatedBy := by_, UserID := u, CircleID := g }
      (updateUserCirclePoints u g (fun q => q + p) db)).pointsHistories =
      db.pointsHistories ++ [PointsHistory.mk PointsHistoryAction.Add p now by_ u g] := rfl
  rw [hh, actionTotal_append, actionTotal_append]
  by_cases hc : u' = u ∧ g' = g
  · obtain ⟨rfl, rfl⟩ := hc
    rw [balance_update_same db _ _ _ hrow, hinv]
    simp
    ring
  · rw [balance_update_other db u g u' g' _ hc, hinv]
    have hc' : ¬ (u = u' ∧ g = g') := fun h => hc ⟨h.1.symm, h.2.symm⟩
    simp [hc']

theorem LedgerInvariant_deduct (db : DB) (now : Time) (u g p by_ : Int)
    (hinv : LedgerInvariant db) (hrow : hasBalanceRow db u g) :
    LedgerInvariant (insertPointsHistory
      { Action := PointsHistoryAction.Redeem, Points := p, CreatedAt := now,
        CreatedBy := by_, UserID := u, CircleID := g }
      (updateUserCirclePoints u g (fun q => q - p) db)) := by
  intro u' g'
  rw [balance_insertPointsHistory]
  have hh : (insertPointsHistory
      { Action := PointsHistoryAction.Redeem, Points := p, CreatedAt := now,
        CreatedBy := by_, UserID := u, CircleID := g }
      (updateUserCirclePoints u g (fun q => q - p) db)).pointsHistories =
      db.pointsHistories ++ [PointsHistory.mk PointsHistoryAction.Redeem p now by_ u g] := rfl
  rw [hh, actionTotal_append, actionTotal_append]
  by_cases hc : u' = u ∧ g' = g
  · obtain ⟨rfl, rfl⟩ := hc
    rw [balance_update_same db _ _ _ hrow, hinv]
    simp
    ring
  · rw [balance_update_other db u g u' g' _ hc, hinv]
    have hc' : ¬ (u = u' ∧ g = g') := fun h => hc ⟨h.1.symm, h.2.symm⟩
    simp [hc']

/-- A successful call keeps the invariant and the balance rows. -/
theorem LedgerCall.run_ok (call : LedgerCall) (c c1 : Conn)
    (hinv : LedgerInvariant c.db) (hrow : hasBalanceRow c.db call.userID call.circleID)
    (hrun : call.run c = (none, c1)) :
    LedgerInvariant c1.db ∧ ∀ u g, hasBalanceRow c1.db u g ↔ hasBalanceRow c.db u g := by
  cases call with
  | award now u g p by_ =>
    have hok : (AwardPoints now u g p by_ c).1 = none := by
      have := congrArg Prod.fst hrun; simpa [LedgerCall.run] using this
    have hdb := AwardPoints_ok hok
    have h2 : (AwardPoints now u g p by_ c).2 = c1 := by
      have := congrArg Prod.snd hrun; simpa [LedgerCall.run] using this
    rw [h2] at hdb
    rw [hdb]
    exact ⟨LedgerInvariant_award c.db now u g p by_ hinv hrow, fun u' g' => by
      rw [hasBalanceRow_insertPointsHistory, hasBalanceRow_update]⟩
  | deduct now u g p by_ =>
    have hok : (DeductPoints now u g p by_ c).1 = none := by
      have := congrArg Prod.fst hrun; simpa [LedgerCall.run] using this
    have hdb := DeductPoints_ok hok
    have h2 : (DeductPoints now u g p by_ c).2 = c1 := by
      have := congrArg Prod.snd hrun; simpa [LedgerCall.run] using this
    rw [h2] at hdb
    rw [hdb]
    exact ⟨LedgerInvariant_deduct c.db now u g p by_ hinv hrow, fun u' g' => by
      rw [hasBalanceRow_insertPointsHistory, hasBalanceRow_update]⟩

/-- Without storage faults every call returns `nil` and leaves the script empty. -/
theorem LedgerCall.run_nofault (call : LedgerCall) (db : DB) :
    ∃ db1, call.run { db := db, faults := [] } = (none, { db := db1, faults := [] }) := by
  cases call <;> exact ⟨_, rfl⟩

theorem runCalls_nofault (calls : List LedgerCall) (db : DB) :
    ∃ c1, runCalls calls { db := db, faults := [] } = some c1 := by
  induction calls generalizing db with
  | nil => exact ⟨_, rfl⟩
  | cons call rest ih =>
    obtain ⟨db1, h1⟩ := call.run_nofault db
    obtain ⟨c1, h2⟩ := ih db1
    exact ⟨c1, by simp [runCalls, h1, h2]⟩

theorem runCalls_invariant (calls : List LedgerCall) (c c1 : Conn)
    (hinv : LedgerInvariant c.db)
    (hrows : ∀ call ∈ calls, hasBalanceRow c.db call.userID call.circleID)
    (hrun : runCalls calls c = some c1) : LedgerInvariant c1.db := by
  induction calls generalizing c with
  | nil =>
    simp only [runCalls, Option.some.injEq] at hrun
    subst hrun; exact hinv
  | cons call rest ih =>
    simp only [runCalls] at hrun
    rcases hr : call.run c with ⟨_ | err, c2⟩
    · rw [hr] at hrun
      have hstep := call.run_ok c c2 hinv (hrows call (List.mem_cons_self _ _)) hr
      exact ih c2 hstep.1 (fun call' hmem => (hstep.2 _ _).2
        (hrows call' (List.mem_cons_of_mem _ hmem))) hrun
    · rw [hr] at hrun; simp at hrun

theorem exLedgerDB_invariant : LedgerInvariant exLedgerDB := by
  intro u g
  rw [balance_eq_find]
  simp only [exLedgerDB, actionTotal, List.filter_nil, List.map_nil, List.sum_nil, sub_zero,
    List.find?_cons, List.find?_nil]
  split <;> rename_i h
  · split at h
    · simp only [Option.some.injEq] at h; subst h; rfl
    · simp at h
  · rfl

/-- C1. Ledger invariant: from a state in which every balance equals grants minus
spends of its pair, any finite sequence of `AwardPoints` and `DeductPoints` calls
on pairs that have a balance row, all of which returned `nil`, ends in a state in
which every balance again equals grants minus spends; and without storage faults
every such sequence does run to its end. -/
theorem ledger_invariant_after_calls (calls : List LedgerCall) (c : Conn)
    (hinv : LedgerInvariant c.db)
    (hrows : ∀ call ∈ calls, hasBalanceRow c.db call.userID call.circleID) :
    (∃ c1, runCalls calls { db := c.db, faults := [] } = some c1) ∧
      ∀ c1, runCalls calls c = some c1 → LedgerInvariant c1.db :=
  ⟨runCalls_nofault calls c.db, fun c1 h => runCalls_invariant calls c c1 hinv hrows h⟩

/-- Witness of C1: a grant of 30 and a deduction of 50 on an empty ledger. -/
theorem ledger_invariant_after_calls_witness :
    LedgerInvariant exLedgerDB ∧
    (∀ call ∈ exLedgerCalls, hasBalanceRow exLedgerDB call.userID call.circleID) ∧
    ((∃ c1, runCalls exLedgerCalls { db := exLedgerDB, faults := [] } = some c1) ∧
      ∀ c1, runCalls exLedgerCalls { db := exLedgerDB, faults := [] } = some c1 →
        LedgerInvariant c1.db) :=
  ⟨exLedgerDB_invariant, by decide,
    ledger_invariant_after_calls exLedgerCalls { db := exLedgerDB, faults := [] }
      exLedgerDB_invariant (by decide)⟩

/-- C2. For a pair that has a balance row, a successful `AwardPoints` (resp.
`DeductPoints`) appends exactly one event of kind `Add` (resp. `Redeem`) carrying
the amount, the user, the circle and the actor, and changes the balance of the pair
by exactly `+points` (resp. `-points`); the balance of every other pair and every
earlier event are unchanged.  Without a storage fault both return `nil` whatever
the balance is: `DeductPoints` makes no check of the balance against the amount. -/
theorem award_deduct_effect (now : Time) (userID circleID points createdBy : Int) (tx : Conn)
    (hrow : hasBalanceRow tx.db userID circleID) :
    ((AwardPoints now userID circleID points createdBy tx).1 = none →
      (AwardPoints now userID circleID points createdBy tx).2.db.pointsHistories =
          tx.db.pointsHistories ++
            [PointsHistory.mk PointsHistoryAction.Add points now createdBy userID circleID] ∧
        balance (AwardPoints now userID circleID points createdBy tx).2.db userID circleID =
          balance tx.db userID circleID + points ∧
        ∀ u g : Int, ¬ (u = userID ∧ g = circleID) →
          balance (AwardPoints now userID circleID points createdBy tx).2.db u g =
            balance tx.db u g) ∧
    ((DeductPoints now userID circleID points createdBy tx).1 = none →
      (DeductPoints now userID circleID points createdBy tx).2.db.pointsHistories =
          tx.db.pointsHistories ++
            [PointsHistory.mk PointsHistoryAction.Redeem points now createdBy userID circleID] ∧
        balance (DeductPoints now userID circleID points createdBy tx).2.db userID circleID =
          balance tx.db userID circleID - points ∧
        ∀ u g : Int, ¬ (u = userID ∧ g = circleID) →
          balance (DeductPoints now userID circleID points createdBy tx).2.db u g =
            balance tx.db u g) ∧
    (AwardPoints now userID circleID points createdBy { db := tx.db, faults := [] }).1 = none ∧
    (DeductPoints now userID circleID points createdBy { db := tx.db, faults := [] }).1 = none := by
  refine ⟨fun hok => ?_, fun hok => ?_,
    AwardPoints_nofault now userID circleID points createdBy tx.db,
    DeductPoints_nofault now userID circleID points createdBy tx.db⟩
  · rw [AwardPoints_ok hok]
    refine ⟨rfl, ?_, fun u g hne => ?_⟩
    · rw [balance_insertPointsHistory, balance_update_same _ _ _ _ hrow]
    · rw [balance_insertPointsHistory, balance_update_other _ _ _ _ _ _ hne]
  · rw [DeductPoints_ok hok]
    refine ⟨rfl, ?_, fun u g hne => ?_⟩
    · rw [balance_insertPointsHistory, balance_update_same _ _ _ _ hrow]
    · rw [balance_insertPointsHistory, balance_update_other _ _ _ _ _ _ hne]

/-- Witness of C2: deducting 50 from a balance of 0 returns `nil` and leaves -50. -/
theorem award_deduct_effect_witness :
    hasBalanceRow exLedgerDB 1 1 ∧
      (DeductPoints 11 1 1 50 1 { db := exLedgerDB, faults := [] }).1 = none ∧
      balance (DeductPoints 11 1 1 50 1 { db := exLedgerDB, faults := [] }).2.db 1 1 = -50 :=
  have h := award_deduct_effect 11 1 1 50 1 { db := exLedgerDB, faults := [] } (by decide)
  ⟨by decide, h.2.2.2, (h.2.1 h.2.2.2).2.1⟩

/-! ## Creating a redemption -/

theorem exRedeemDB_invariant : LedgerInvariant exRedeemDB := by
  intro u g
  rw [balance_eq_find]
  by_cases hu : u = 1 <;> by_cases hg : g = 1 <;>
    simp [exRedeemDB, actionTotal, List.filter_cons, List.find?_cons, hu, hg,
      @eq_comm ℤ 1 u, @eq_comm ℤ 1 g]

/-- C3, the code at the failing input. On tables that satisfy the ledger invariant
(balance 100, one grant of 100) a successful `CreateRedemption` of 40 points
inserts the redemption, increments `TimesRedeemed` of the reward and appends one
`Redeem` event of 40, but leaves the balance at 100: the returned state breaks
the ledger invariant (100 is not 100 - 40). -/
theorem createRedemption_skips_balance :
    LedgerInvariant exRedeemDB ∧
    (CreateRedemption 5 1 exRedemption { db := exRedeemDB, faults := [] }).1 = none ∧
    (CreateRedemption 5 1 exRedemption { db := exRedeemDB, faults := [] }).2.db.redemptions =
      [{ exRedemption with ID := 1 }] ∧
    (CreateRedemption 5 1 exRedemption { db := exRedeemDB, faults := [] }).2.db.rewards.map
      (fun r => r.TimesRedeemed) = [1, 0] ∧
    (CreateRedemption 5 1 exRedemption { db := exRedeemDB, faults := [] }).2.db.pointsHistories =
      exRedeemDB.pointsHistories ++ [PointsHistory.mk PointsHistoryAction.Redeem 40 5 1 1 1] ∧
    balance (CreateRedemption 5 1 exRedemption { db := exRedeemDB, faults := [] }).2.db 1 1 = 100 ∧
    ¬ LedgerInvariant (CreateRedemption 5 1 exRedemption { db := exRedeemDB, faults := [] }).2.db := by
  refine ⟨exRedeemDB_invariant, by decide, by decide, by decide, by decide, by decide, ?_⟩
  intro h
  have h11 := h 1 1
  revert h11
  decide

/-- C4, the code at the failing input. When the point deduction that follows
`CreateRedemption` fails, `RedeemReward` answers 500 and the committed redemption
row, the increment of `TimesRedeemed` and the `Redeem` event remain, while the
balance is still 100. -/
theorem redeemReward_keeps_redemption_without_deduction :
    (RedeemReward 5 1 (some exUser) (some 1) { db := exRedeemDB, faults := exDeductionFault }).1 =
      { code := 500, error := "Failed to process redemption", res := none } ∧
    (RedeemReward 5 1 (some exUser) (some 1)
      { db := exRedeemDB, faults := exDeductionFault }).2.db.redemptions =
      [{ exRedemption with ID := 1 }] ∧
    (RedeemReward 5 1 (some exUser) (some 1)
      { db := exRedeemDB, faults := exDeductionFault }).2.db.rewards.map
      (fun r => r.TimesRedeemed) = [1, 0] ∧
    (RedeemReward 5 1 (some exUser) (some 1)
      { db := exRedeemDB, faults := exDeductionFault }).2.db.pointsHistories =
      exRedeemDB.pointsHistories ++ [PointsHistory.mk PointsHistoryAction.Redeem 40 5 1 1 1] ∧
    balance (RedeemReward 5 1 (some exUser) (some 1)
      { db := exRedeemDB, faults := exDeductionFault }).2.db 1 1 = 100 := by
  refine ⟨by decide, by decide, by decide, by decide, by decide⟩

/-- C5, the code at the failing input. A request for the soft-deleted reward 2
(`IsActive = false`) is answered with 200 and creates a pending redemption. -/
theorem redeemReward_accepts_inactive_reward :
    exRedeemDB.rewards.find? (fun r => r.ID = 2) = some exSkipChore ∧
    exSkipChore.IsActive = false ∧
    (RedeemReward 5 1 (some exUser) (some 2) { db := exRedeemDB, faults := [] }).1.code = 200 ∧
    (RedeemReward 5 1 (some exUser) (some 2) { db := exRedeemDB, faults := [] }).2.db.redemptions =
      [{ ID := 1, RewardID := 2, UserID := 1, CircleID := 1, Points := 30,
         Status := RedemptionStatusPending, Notes := none, CreatedAt := 5, UpdatedAt := 5 }] := by
  refine ⟨by decide, by decide, by decide, by decide⟩

theorem GetRewardByID_db (rewardID : Int) (c : Conn) : (GetRewardByID rewardID c).2.db = c.db := by
  unfold GetRewardByID
  split
  · rename_i err c1 heq
    exact (congrArg (fun p => p.2.db) heq).symm.trans (query_snd_db _ c)
  · rename_i c1 heq
    exact (congrArg (fun p => p.2.db) heq).symm.trans (query_snd_db _ c)
  · rename_i r c1 heq
    exact (congrArg (fun p => p.2.db) heq).symm.trans (query_snd_db _ c)

theorem GetRewardByID_ok {rewardID : Int} {c : Conn} {reward : Reward}
    (h : (GetRewardByID rewardID c).1 = Except.ok reward) :
    c.db.rewards.find? (fun r => decide (r.ID = rewardID)) = some reward := by
  unfold GetRewardByID at h
  split at h
  · simp at h
  · simp at h
  · rename_i r c1 heq
    simp only [Except.ok.injEq] at h
    subst h
    exact (query_fst_ok (congrArg Prod.fst heq)).symm

/-- C6. A `RedeemReward` attempt on a reward that is at its cap, or that costs
more than the caller's balance, is not answered with 200 and leaves every table
(rewards with their `TimesRedeemed`, balances, point events, redemptions) exactly
as it was; without a storage fault, and for a reward of the caller's circle, the
answer is 400. -/
theorem redeem_rejected_leaves_state (now : Time) (newID : Int) (currentUser : CurrentUser)
    (rewardID : Int) (c : Conn) (reward : Reward)
    (hreward : c.db.rewards.find? (fun r => decide (r.ID = rewardID)) = some reward)
    (hfail : capReached reward = true ∨
      balance c.db currentUser.ID currentUser.CircleID < reward.PointsCost) :
    (RedeemReward now newID (some currentUser) (some rewardID) c).2.db = c.db ∧
    (RedeemReward now newID (some currentUser) (some rewardID) c).1.code ≠ 200 ∧
    (RedeemReward now newID (some currentUser) (some rewardID) c).1.res = none ∧
    (reward.CircleID = currentUser.CircleID →
      (RedeemReward now newID (some currentUser) (some rewardID)
        { db := c.db, faults := [] }).1.code = 400) := by
  have key : ∀ c : Conn, c.db.rewards.find? (fun r => decide (r.ID = rewardID)) = some reward →
      (capReached reward = true ∨
        balance c.db currentUser.ID currentUser.CircleID < reward.PointsCost) →
      (RedeemReward now newID (some currentUser) (some rewardID) c).2.db = c.db ∧
      (RedeemReward now newID (some currentUser) (some rewardID) c).1.code ≠ 200 ∧
      (RedeemReward now newID (some currentUser) (some rewardID) c).1.res = none := by
    intro c hreward hfail
    unfold RedeemReward
    simp only
    have hdb1 := GetRewardByID_db rewardID c
    have hok1 := @GetRewardByID_ok rewardID c
    rcases hq : GetRewardByID rewardID c with ⟨res, c1⟩
    rw [hq] at hdb1 hok1
    simp only at hdb1
    rcases res with e | rw'
    · simp [hdb1]
    · have hrw : rw' = reward := by
        have := @hok1 rw' rfl
        rw [hreward] at this
        exact (Option.some.inj this).symm
      subst hrw
      simp only
      by_cases hcirc : rw'.CircleID = currentUser.CircleID
      · by_cases hcap : capReached rw' = true
        · simp [hcirc, hcap, hdb1]
        · have hbal : balance c.db currentUser.ID currentUser.CircleID < rw'.PointsCost := by
            rcases hfail with h | h
            · exact absurd h hcap
            · exact h
          have hdb2 := query_snd_db (fun db => circleUsersOf db currentUser.CircleID) c1
          have hok2 := @query_fst_ok _ (fun db => circleUsersOf db currentUser.CircleID) c1
          unfold GetCircleUsers
          rcases hq2 : query (fun db => circleUsersOf db currentUser.CircleID) c1 with ⟨res2, c2⟩
          rw [hq2] at hdb2 hok2
          simp only at hdb2
          rcases res2 with e | users
          · simp [hcirc, hcap, hdb2, hdb1]
          · have hu : users = circleUsersOf c1.db currentUser.CircleID := hok2 rfl
            have hlt : lookupPoints users currentUser.ID < rw'.PointsCost := by
              rw [hu, hdb1]; exact hbal
            simp [hcirc, hcap, hlt, hdb2, hdb1]
      · simp [hcirc, hdb1]
  refine ⟨(key c hreward hfail).1, (key c hreward hfail).2.1, (key c hreward hfail).2.2, ?_⟩
  intro hcirc
  unfold RedeemReward
  simp only [GetRewardByID, GetCircleUsers, query_nofault, hreward]
  by_cases hcap : capReached reward = true
  · simp [hcirc, hcap]
  · have hbal : balance c.db currentUser.ID currentUser.CircleID < reward.PointsCost := by
      rcases hfail with h | h
      · exact absurd h hcap
      · exact h
    have hlt : lookupPoints (circleUsersOf c.db currentUser.CircleID) currentUser.ID <
        reward.PointsCost := hbal
    simp [hcirc, hcap, hlt]

/-- Witness of C6: user 2 has no points, the reward costs 40. -/
theorem redeem_rejected_leaves_state_witness :
    exRedeemDB.rewards.find? (fun r => decide (r.ID = 1)) = some exMovieNight ∧
    balance exRedeemDB exPoorUser.ID exPoorUser.CircleID < exMovieNight.PointsCost ∧
    (RedeemReward 5 1 (some exPoorUser) (some 1) { db := exRedeemDB, faults := [] }).2.db =
      exRedeemDB ∧
    (RedeemReward 5 1 (some exPoorUser) (some 1) { db := exRedeemDB, faults := [] }).1.code = 400 :=
  have h := redeem_rejected_leaves_state 5 1 exPoorUser 1 { db := exRedeemDB, faults := [] }
    exMovieNight (by decide) (Or.inr (by decide))
  ⟨by decide, by decide, h.1, h.2.2.2 (by decide)⟩

/-! ## The status of a redemption -/

theorem forall₂_map_of_forall {α : Type} (R : α → α → Prop) (f : α → α) (l : List α)
    (h : ∀ a ∈ l, R a (f a)) : List.Forall₂ R l (l.map f) := by
  induction l with
  | nil => exact List.Forall₂.nil
  | cons a rest ih =>
    exact List.Forall₂.cons (h a (List.mem_cons_self _ _))
      (ih fun b hb => h b (List.mem_cons_of_mem _ hb))

theorem forall₂_same {α : Type} (R : α → α → Prop) (l : List α) (h : ∀ a ∈ l, R a a) :
    List.Forall₂ R l l := by
  simpa using forall₂_map_of_forall R id l h

/-- Counterexample to C7: an admin's request to approve a rejected redemption is
answered with 200 and the stored status becomes `Approved`. -/
theorem rejected_redemption_gets_approved :
    exStatusDB.redemptions.map (fun r => r.Status) = [RedemptionStatusRejected] ∧
    (HandlerUpdateRedemptionStatus 9 (some exUser) true (some 7)
      (some { Status := RedemptionStatusApproved, Notes := none })
      { db := exStatusDB, faults := [] }).1.code = 200 ∧
    (HandlerUpdateRedemptionStatus 9 (some exUser) true (some 7)
      (some { Status := RedemptionStatusApproved, Notes := none })
      { db := exStatusDB, faults := [] }).2.db.redemptions.map (fun r => r.Status) =
      [RedemptionStatusApproved] := by
  refine ⟨by decide, by decide, by decide⟩

/-- C7, amended. `UpdateRedemptionStatus` checks no transition: a successful call
stores the requested status, whatever it is, in every redemption with the given
id, whatever its current status, and leaves every other redemption as it was; the
handler forwards every status of a well-formed admin request except `0`, which
its `required` binding rejects with 400 before any write. -/
theorem update_status_unchecked (now : Time) (redemptionID : Int) (status : RedemptionStatus)
    (notes : Option String) (c : Conn)
    (hok : (UpdateRedemptionStatus now redemptionID status notes c).1 = none) :
    List.Forall₂
      (fun old new : RewardRedemption =>
        new.ID = old.ID ∧ (old.ID = redemptionID → new.Status = status) ∧
          (old.ID ≠ redemptionID → new = old))
      c.db.redemptions (UpdateRedemptionStatus now redemptionID status notes c).2.db.redemptions ∧
    (∀ (user : CurrentUser) (db : DB), status ≠ 0 →
      HandlerUpdateRedemptionStatus now (some user) true (some redemptionID)
          (some { Status := status, Notes := notes }) { db := db, faults := [] } =
        ({ code := 200, error := "", res := none },
          (UpdateRedemptionStatus now redemptionID status notes { db := db, faults := [] }).2)) ∧
    (∀ (user : CurrentUser) (c0 : Conn),
      HandlerUpdateRedemptionStatus now (some user) true (some redemptionID)
          (some { Status := 0, Notes := notes }) c0 =
        ({ code := 400, error := "Invalid request", res := none }, c0)) := by
  refine ⟨?_, ?_, ?_⟩
  · unfold UpdateRedemptionStatus at hok ⊢
    rw [(exec_ok hok).1]
    unfold setRedemptionStatus
    apply forall₂_map_of_forall
    intro r _
    by_cases h : r.ID = redemptionID <;> simp [h]
  · intro user db hs
    simp [HandlerUpdateRedemptionStatus, hs, UpdateRedemptionStatus, exec]
  · intro user c0
    simp [HandlerUpdateRedemptionStatus]

/-- Witness of C7 (amended): the status 7, outside the four, is stored in a rejected
redemption. -/
theorem update_status_unchecked_witness :
    (UpdateRedemptionStatus 9 7 7 none { db := exStatusDB, faults := [] }).1 = none ∧
    List.Forall₂
      (fun old new : RewardRedemption =>
        new.ID = old.ID ∧ (old.ID = 7 → new.Status = 7) ∧ (old.ID ≠ 7 → new = old))
      exStatusDB.redemptions
      (UpdateRedemptionStatus 9 7 7 none { db := exStatusDB, faults := [] }).2.db.redemptions :=
  ⟨by decide, (update_status_unchecked 9 7 7 none { db := exStatusDB, faults := [] }
    (by decide)).1⟩

/-- C8. `UpdateRedemptionStatus` is metadata-only: whatever the redemption id, the
status and the notes, and whether or not the statement succeeds, the balances,
the point events, the rewards (with their `TimesRedeemed`), the goals and the
goal progress are unchanged, no redemption is added or removed, every redemption
keeps its id, reward, user, circle, snapshotted points and creation time, and a
redemption with another id is unchanged altogether. -/
theorem update_status_metadata_only (now : Time) (redemptionID : Int)
    (status : RedemptionStatus) (notes : Option String) (c : Conn) :
    (UpdateRedemptionStatus now redemptionID status notes c).2.db.userCircles = c.db.userCircles ∧
    (UpdateRedemptionStatus now redemptionID status notes c).2.db.pointsHistories =
      c.db.pointsHistories ∧
    (UpdateRedemptionStatus now redemptionID status notes c).2.db.rewards = c.db.rewards ∧
    (UpdateRedemptionStatus now redemptionID status notes c).2.db.goals = c.db.goals ∧
    (UpdateRedemptionStatus now redemptionID status notes c).2.db.goalProgresses =
      c.db.goalProgresses ∧
    (∀ u g : Int,
      balance (UpdateRedemptionStatus now redemptionID status notes c).2.db u g =
        balance c.db u g) ∧
    List.Forall₂
      (fun old new : RewardRedemption =>
        new.ID = old.ID ∧ new.RewardID = old.RewardID ∧ new.UserID = old.UserID ∧
          new.CircleID = old.CircleID ∧ new.Points = old.Points ∧
          new.CreatedAt = old.CreatedAt ∧ (old.ID ≠ redemptionID → new = old))
      c.db.redemptions
      (UpdateRedemptionStatus now redemptionID status notes c).2.db.redemptions := by
  unfold UpdateRedemptionStatus
  rcases exec_db_cases (setRedemptionStatus now redemptionID status notes) c with ⟨_, h⟩ | ⟨_, h⟩
  · rw [h]
    refine ⟨rfl, rfl, rfl, rfl, rfl, fun _ _ => rfl, ?_⟩
    unfold setRedemptionStatus
    apply forall₂_map_of_forall
    intro r _
    by_cases hr : r.ID = redemptionID <;> simp [hr]
  · rw [h]
    refine ⟨rfl, rfl, rfl, rfl, rfl, fun _ _ => rfl, ?_⟩
    exact forall₂_same _ _ fun r _ => ⟨rfl, rfl, rfl, rfl, rfl, rfl, fun _ => rfl⟩

/-! ## Batch goal progress -/

theorem inGoalWindow_iff (goal : Goal) (userID : Int) (h : PointsHistory) :
    inGoalWindow goal userID h = true ↔ countsTowardGoal goal userID h := by
  unfold inGoalWindow countsTowardGoal
  cases goal.StartDate <;> cases goal.EndDate <;> simp <;> tauto

/-- The sum the history query computes is the spec's `currentPoints`. -/
theorem goalWindowPoints_eq_spec (goal : Goal) (userID : Int) (db : DB) :
    goalWindowPoints goal userID db = specCurrentPoints goal userID db.pointsHistories := by
  unfold goalWindowPoints
  induction db.pointsHistories with
  | nil => rfl
  | cons h rest ih =>
    by_cases hc : countsTowardGoal goal userID h
    · have hb : inGoalWindow goal userID h = true := (inGoalWindow_iff goal userID h).2 hc
      simp [List.filter_cons, hb, specCurrentPoints, hc, ih]
    · have hb : ¬ inGoalWindow goal userID h = true := fun hb =>
        hc ((inGoalWindow_iff goal userID h).1 hb)
      simp [List.filter_cons, hb, specCurrentPoints, hc, ih]

theorem goalWindowPoints_skip (goal : Goal) (userID : Int) (db : DB)
    (pre post : List PointsHistory) (h : PointsHistory)
    (hh : h.Action = PointsHistoryAction.Redeem ∨ h.UserID ≠ userID ∨
      h.CircleID ≠ goal.CircleID) :
    goalWindowPoints goal userID { db with pointsHistories := pre ++ h :: post } =
      goalWindowPoints goal userID { db with pointsHistories := pre ++ post } := by
  have hb : inGoalWindow goal userID h = false := by
    rw [Bool.eq_false_iff]
    intro hw
    have hc := (inGoalWindow_iff goal userID h).1 hw
    rcases hh with h1 | h1 | h1
    · rw [hc.1] at h1; cases h1
    · exact h1 hc.2.1
    · exact h1 hc.2.2.1
  unfold goalWindowPoints
  simp [List.filter_append, List.filter_cons, hb]

theorem specCurrentPoints_zero (goal : Goal) (userID : Int) (hs : List PointsHistory)
    (h : ∀ e ∈ hs, ¬ countsTowardGoal goal userID e) : specCurrentPoints goal userID hs = 0 := by
  induction hs with
  | nil => rfl
  | cons e rest ih =>
    have he := h e (List.mem_cons_self _ _)
    simp only [specCurrentPoints, if_neg he]
    exact ih fun e' he' => h e' (List.mem_cons_of_mem _ he')

theorem find_replaced (p : GoalProgress) (l : List GoalProgress)
    (hany : ∃ x ∈ l, x.GoalID = p.GoalID ∧ x.UserID = p.UserID) :
    (l.map fun r => if r.GoalID = p.GoalID ∧ r.UserID = p.UserID then p else r).find?
      (fun r => decide (r.GoalID = p.GoalID) && decide (r.UserID = p.UserID)) = some p := by
  induction l with
  | nil => simp at hany
  | cons r rest ih =>
    by_cases hr : r.GoalID = p.GoalID ∧ r.UserID = p.UserID
    · simp [List.find?_cons, hr]
    · have hrest : ∃ x ∈ rest, x.GoalID = p.GoalID ∧ x.UserID = p.UserID := by
        obtain ⟨x, hx, hk⟩ := hany
        rcases List.mem_cons.1 hx with rfl | hx
        · exact absurd hk hr
        · exact ⟨x, hx, hk⟩
      have hd : (decide (r.GoalID = p.GoalID) && decide (r.UserID = p.UserID)) = false := by
        simpa using hr
      simp only [List.map_cons, if_neg hr, List.find?_cons, hd]
      exact ih hrest

theorem findGoalProgress_save (p : GoalProgress) (db : DB) :
    findGoalProgress (saveGoalProgress p db) p.GoalID p.UserID = some p := by
  unfold findGoalProgress saveGoalProgress
  split
  · rename_i hany
    refine find_replaced p db.goalProgresses ?_
    obtain ⟨x, hx, hk⟩ := List.any_eq_true.1 hany
    exact ⟨x, hx, by simpa using hk⟩
  · rename_i hany
    simp only
    rw [List.find?_append]
    have : db.goalProgresses.find?
        (fun r => decide (r.GoalID = p.GoalID) && decide (r.UserID = p.UserID)) = none := by
      rw [List.find?_eq_none]
      intro r hr hk
      exact hany (List.any_eq_true.2 ⟨r, hr, hk⟩)
    rw [this]
    simp

theorem mem_saveGoalProgress {p r : GoalProgress} {db : DB}
    (h : r ∈ (saveGoalProgress p db).goalProgresses) : r ∈ db.goalProgresses ∨ r = p := by
  unfold saveGoalProgress at h
  split at h
  · simp only [List.mem_map] at h
    obtain ⟨x, hx, rfl⟩ := h
    split_ifs
    · exact Or.inr rfl
    · exact Or.inl hx
  · simp only [List.mem_append, List.mem_singleton] at h
    exact h

theorem mem_exec_saveGoalProgress {p r : GoalProgress} {c : Conn}
    (h : r ∈ (exec (saveGoalProgress p) c).2.db.goalProgresses) :
    r ∈ c.db.goalProgresses ∨ r = p := by
  rcases exec_db_cases (saveGoalProgress p) c with ⟨_, hdb⟩ | ⟨_, hdb⟩
  · rw [hdb] at h
    exact mem_saveGoalProgress h
  · rw [hdb] at h
    exact Or.inl h

/-- A successful batch recomputation ends with the upsert of the row built from
the window sum read at the start. -/
theorem updateUserGoalProgress_ok {now : Time} {goal : Goal} {userID : Int} {tx : Conn}
    (hok : (updateUserGoalProgress now goal userID tx).1 = none) :
    ∃ (db1 : DB) (completedAt : Option Time),
      (updateUserGoalProgress now goal userID tx).2.db =
        saveGoalProgress
          { GoalID := goal.ID, UserID := userID,
            CurrentPoints := goalWindowPoints goal userID tx.db,
            Progress := progressPercent (goalWindowPoints goal userID tx.db) goal.TargetPoints,
            CompletedAt := completedAt, UpdatedAt := now } db1 := by
  unfold updateUserGoalProgress at hok ⊢
  rcases hq : query (goalWindowPoints goal userID) tx with ⟨_ | currentPoints, tx1⟩
  · simp [hq] at hok
  · have hcur : currentPoints = goalWindowPoints goal userID tx.db :=
      query_fst_ok (congrArg Prod.fst hq)
    subst hcur
    simp only [hq] at hok ⊢
    by_cases hcond : goal.TargetPoints ≤ goalWindowPoints goal userID tx.db ∧
        goal.CompletedAt = none
    · simp only [if_pos hcond] at hok ⊢
      rcases hb : awardGoalBonus now goal userID tx1 with ⟨_ | _, tx2⟩
      · simp only [hb] at hok ⊢
        rcases hm : exec (markGoalCompleted now goal.ID) tx2 with ⟨_ | _, tx3⟩
        · simp only [hm] at hok ⊢
          exact ⟨tx3.db, some now, (exec_ok hok).1⟩
        · simp [hm] at hok
      · simp [hb] at hok
    · simp only [if_neg hcond] at hok ⊢
      exact ⟨tx1.db, none, (exec_ok hok).1⟩

theorem updateUserGoalProgress_nofault (now : Time) (goal : Goal) (userID : Int) (db : DB) :
    (updateUserGoalProgress now goal userID { db := db, faults := [] }).1 = none := by
  unfold updateUserGoalProgress
  rw [query_nofault]
  simp only
  split
  · unfold awardGoalBonus
    cases goal.RewardPoints with
    | none => rfl
    | some rp =>
      by_cases h : 0 < rp
      · simp [h, exec]
      · simp [h, exec]
  · rfl

/-- C10. The `currentPoints` that a successful `updateUserGoalProgress` stores in
the progress row of (goal, user) is the sum of the amounts of exactly the events
that are Grants of that user in the goal's circle with `createdAt >= startDate`
(when set) and `createdAt <= endDate` (when set); without a storage fault the
recomputation succeeds; a Spend event, or an event of another user or circle,
anywhere in the ledger does not change the sum; and the sum is 0 when no event
qualifies. -/
theorem batch_current_points_is_window_sum (now : Time) (goal : Goal) (userID : Int)
    (tx : Conn) :
    (updateUserGoalProgress now goal userID { db := tx.db, faults := [] }).1 = none ∧
    ((updateUserGoalProgress now goal userID tx).1 = none →
      ∃ row, findGoalProgress (updateUserGoalProgress now goal userID tx).2.db goal.ID userID =
          some row ∧
        row.CurrentPoints = specCurrentPoints goal userID tx.db.pointsHistories) ∧
    (∀ (pre post : List PointsHistory) (h : PointsHistory),
      (h.Action = PointsHistoryAction.Redeem ∨ h.UserID ≠ userID ∨
        h.CircleID ≠ goal.CircleID) →
      goalWindowPoints goal userID { tx.db with pointsHistories := pre ++ h :: post } =
        goalWindowPoints goal userID { tx.db with pointsHistories := pre ++ post }) ∧
    ((∀ h ∈ tx.db.pointsHistories, ¬ countsTowardGoal goal userID h) →
      goalWindowPoints goal userID tx.db = 0) := by
  refine ⟨updateUserGoalProgress_nofault now goal userID tx.db, fun hok => ?_,
    fun pre post h hh => goalWindowPoints_skip goal userID tx.db pre post h hh, fun hnone => ?_⟩
  · obtain ⟨db1, completedAt, hdb⟩ := updateUserGoalProgress_ok hok
    refine ⟨GoalProgress.mk goal.ID userID (goalWindowPoints goal userID tx.db)
      (progressPercent (goalWindowPoints goal userID tx.db) goal.TargetPoints) completedAt now,
      ?_, ?_⟩
    · rw [hdb]
      exact findGoalProgress_save _ db1
    · exact goalWindowPoints_eq_spec goal userID tx.db
  · rw [goalWindowPoints_eq_spec]
    exact specCurrentPoints_zero goal userID _ hnone

/-- Witness of C10: of the five example events only the grants of 50 and 60 count
for user 1, and the stored `currentPoints` is 110. -/
theorem batch_current_points_is_window_sum_witness :
    ∃ row, findGoalProgress
        (updateUserGoalProgress 30 exGoal 1 { db := exGoalDB, faults := [] }).2.db 1 1 =
          some row ∧ row.CurrentPoints = 110 :=
  have h := batch_current_points_is_window_sum 30 exGoal 1 { db := exGoalDB, faults := [] }
  (h.2.1 h.1).imp fun _ hrow => ⟨hrow.1, hrow.2.trans (by decide)⟩

/-! ## Rounding to the nearest integer -/

theorem floor_le_roundHalfEven (x : ℚ) : ⌊x⌋ ≤ roundHalfEven x := by
  unfold roundHalfEven
  split_ifs <;> omega

theorem roundHalfEven_le_floor_succ (x : ℚ) : roundHalfEven x ≤ ⌊x⌋ + 1 := by
  unfold roundHalfEven
  split_ifs <;> omega

theorem roundHalfEven_intCast (n : ℤ) : roundHalfEven (n : ℚ) = n := by
  unfold roundHalfEven
  simp

theorem roundHalfEven_mono {x y : ℚ} (h : x ≤ y) : roundHalfEven x ≤ roundHalfEven y := by
  have hfl : ⌊x⌋ ≤ ⌊y⌋ := Int.floor_mono h
  rcases lt_or_eq_of_le hfl with hlt | heq
  · calc roundHalfEven x ≤ ⌊x⌋ + 1 := roundHalfEven_le_floor_succ x
      _ ≤ ⌊y⌋ := hlt
      _ ≤ roundHalfEven y := floor_le_roundHalfEven y
  · unfold roundHalfEven
    rw [heq]
    have hxy : x - (⌊y⌋ : ℚ) ≤ y - (⌊y⌋ : ℚ) := by linarith
    split_ifs <;> first | omega | (exfalso; linarith)

theorem le_roundHalfEven_of_le {n : ℤ} {x : ℚ} (h : (n : ℚ) ≤ x) : n ≤ roundHalfEven x := by
  have := roundHalfEven_mono h
  rwa [roundHalfEven_intCast] at this

theorem roundHalfEven_le_of_le {n : ℤ} {x : ℚ} (h : x ≤ (n : ℚ)) : roundHalfEven x ≤ n := by
  have := roundHalfEven_mono h
  rwa [roundHalfEven_intCast] at this

theorem roundHalfEven_eq_of_near {z : ℚ} {n : ℤ} (h1 : (n : ℚ) - 1 / 2 < z)
    (h2 : z < (n : ℚ) + 1 / 2) : roundHalfEven z = n := by
  unfold roundHalfEven
  rcases le_or_lt (n : ℚ) z with hle | hlt
  · have hfl : ⌊z⌋ = n := by
      rw [Int.floor_eq_iff]; constructor <;> linarith
    rw [hfl, if_pos (by linarith)]
  · have hfl : ⌊z⌋ = n - 1 := by
      rw [Int.floor_eq_iff]; push_cast; constructor <;> linarith
    rw [hfl]
    push_cast
    rw [if_neg (by linarith), if_pos (by linarith)]
    ring

/-! ## Rounding to `float64` -/

theorem two_zpow_pos (k : ℤ) : (0 : ℚ) < (2 : ℚ) ^ k := by positivity

theorem log_bounds {x : ℚ} (hx : 0 < x) :
    (2 : ℚ) ^ Int.log 2 x ≤ x ∧ x < (2 : ℚ) ^ (Int.log 2 x + 1) := by
  have h1 := Int.zpow_log_le_self (b := 2) (r := x) (by norm_num) hx
  have h2 := Int.lt_zpow_succ_log_self (b := 2) (by norm_num) x
  simp only [Nat.cast_ofNat] at h1 h2
  exact ⟨h1, h2⟩

theorem log_eq_of_bounds {x : ℚ} {e : ℤ} (h1 : (2 : ℚ) ^ e ≤ x) (h2 : x < (2 : ℚ) ^ (e + 1)) :
    Int.log 2 x = e := by
  have hx : 0 < x := lt_of_lt_of_le (two_zpow_pos e) h1
  have a : e ≤ Int.log 2 x := by
    rw [← Int.zpow_le_iff_le_log (b := 2) (by norm_num) hx]
    simpa using h1
  have b : Int.log 2 x < e + 1 := by
    rw [← Int.lt_zpow_iff_log_lt (b := 2) (by norm_num) hx]
    simpa using h2
  omega

/-- For positive `x` the rounded value stays in the binade of `x`, closed at
the top. -/
theorem roundF64_binade {x : ℚ} (hx : 0 < x) :
    (2 : ℚ) ^ Int.log 2 x ≤ roundF64 x ∧ roundF64 x ≤ (2 : ℚ) ^ (Int.log 2 x + 1) := by
  obtain ⟨h1, h2⟩ := log_bounds hx
  unfold roundF64
  rw [if_neg (ne_of_gt hx), abs_of_pos hx]
  set e := Int.log 2 x with he
  have hs : (0 : ℚ) < (2 : ℚ) ^ (e - 52) := two_zpow_pos _
  have e1 : (2 : ℚ) ^ e = ((2 ^ 52 : ℤ) : ℚ) * (2 : ℚ) ^ (e - 52) := by
    rw [show e = 52 + (e - 52) by ring, zpow_add₀ (by norm_num : (2 : ℚ) ≠ 0)]
    norm_num
  have e2 : (2 : ℚ) ^ (e + 1) = ((2 ^ 53 : ℤ) : ℚ) * (2 : ℚ) ^ (e - 52) := by
    rw [show e + 1 = 53 + (e - 52) by ring, zpow_add₀ (by norm_num : (2 : ℚ) ≠ 0)]
    norm_num
  constructor
  · rw [e1]
    apply mul_le_mul_of_nonneg_right _ hs.le
    have : ((2 ^ 52 : ℤ) : ℚ) ≤ x / (2 : ℚ) ^ (e - 52) := by
      rw [le_div_iff₀ hs, ← e1]; exact h1
    exact_mod_cast le_roundHalfEven_of_le this
  · rw [e2]
    apply mul_le_mul_of_nonneg_right _ hs.le
    have : x / (2 : ℚ) ^ (e - 52) ≤ ((2 ^ 53 : ℤ) : ℚ) := by
      rw [div_le_iff₀ hs, ← e2]; exact h2.le
    exact_mod_cast roundHalfEven_le_of_le this

theorem roundF64_zero : roundF64 0 = 0 := by
  unfold roundF64; simp

theorem roundF64_pos {x : ℚ} (hx : 0 < x) : 0 < roundF64 x :=
  lt_of_lt_of_le (two_zpow_pos _) (roundF64_binade hx).1

/-- Rounding is monotone on the non-negative reals. -/
theorem roundF64_mono {x y : ℚ} (hx : 0 ≤ x) (h : x ≤ y) : roundF64 x ≤ roundF64 y := by
  rcases eq_or_lt_of_le hx with h0 | hpos
  · rw [← h0, roundF64_zero]
    rcases eq_or_lt_of_le (hx.trans h) with hy0 | hypos
    · rw [← hy0, roundF64_zero]
    · exact (roundF64_pos hypos).le
  · have hy : 0 < y := lt_of_lt_of_le hpos h
    have hlog : Int.log 2 x ≤ Int.log 2 y := Int.log_mono_right hpos h
    rcases lt_or_eq_of_le hlog with hlt | heq
    · calc roundF64 x ≤ (2 : ℚ) ^ (Int.log 2 x + 1) := (roundF64_binade hpos).2
        _ ≤ (2 : ℚ) ^ Int.log 2 y := zpow_le_zpow_right₀ (by norm_num) (by omega)
        _ ≤ roundF64 y := (roundF64_binade hy).1
    · unfold roundF64
      rw [if_neg (ne_of_gt hpos), if_neg (ne_of_gt hy), abs_of_pos hpos, abs_of_pos hy, heq]
      have hs : (0 : ℚ) < (2 : ℚ) ^ (Int.log 2 y - 52) := two_zpow_pos _
      apply mul_le_mul_of_nonneg_right _ hs.le
      have : x / (2 : ℚ) ^ (Int.log 2 y - 52) ≤ y / (2 : ℚ) ^ (Int.log 2 y - 52) :=
        div_le_div_of_nonneg_right h hs.le
      exact_mod_cast roundHalfEven_mono this

/-- A value whose significand is an integer is not changed by rounding. -/
theorem roundF64_exact {x : ℚ} {e : ℤ} (n : ℤ) (h1 : (2 : ℚ) ^ e ≤ x)
    (h2 : x < (2 : ℚ) ^ (e + 1)) (hn : x / (2 : ℚ) ^ (e - 52) = (n : ℚ)) : roundF64 x = x := by
  have hx : 0 < x := lt_of_lt_of_le (two_zpow_pos e) h1
  unfold roundF64
  rw [if_neg (ne_of_gt hx), abs_of_pos hx, log_eq_of_bounds h1 h2, hn, roundHalfEven_intCast,
    ← hn, div_mul_cancel₀ _ (ne_of_gt (two_zpow_pos _))]

/-- Evaluation of the rounding at a value whose binade and nearest significand
are known. -/
theorem roundF64_eval {x : ℚ} {e : ℤ} (n : ℤ) (h1 : (2 : ℚ) ^ e ≤ x)
    (h2 : x < (2 : ℚ) ^ (e + 1)) (hn1 : (n : ℚ) - 1 / 2 < x / (2 : ℚ) ^ (e - 52))
    (hn2 : x / (2 : ℚ) ^ (e - 52) < (n : ℚ) + 1 / 2) :
    roundF64 x = (n : ℚ) * (2 : ℚ) ^ (e - 52) := by
  have hx : 0 < x := lt_of_lt_of_le (two_zpow_pos e) h1
  unfold roundF64
  rw [if_neg (ne_of_gt hx), abs_of_pos hx, log_eq_of_bounds h1 h2,
    roundHalfEven_eq_of_near hn1 hn2]

theorem roundF64_one : roundF64 1 = 1 :=
  roundF64_exact (e := 0) (2 ^ 52) (by norm_num) (by norm_num) (by norm_num)

theorem roundF64_three : roundF64 3 = 3 :=
  roundF64_exact (e := 1) (3 * 2 ^ 51) (by norm_num) (by norm_num) (by norm_num)

theorem roundF64_seven : roundF64 7 = 7 :=
  roundF64_exact (e := 2) (7 * 2 ^ 50) (by norm_num) (by norm_num) (by norm_num)

theorem roundF64_hundred : roundF64 100 = 100 :=
  roundF64_exact (e := 6) (100 * 2 ^ 46) (by norm_num) (by norm_num) (by norm_num)

/-! ## The progress percentage -/

theorem progressPercent_one_three :
    progressPercent 1 3 = F64.fin (2345624805922133 / 70368744177664) := by
  have hq : roundF64 (1 / 3) = 6004799503160661 / 18014398509481984 := by
    rw [roundF64_eval (e := -2) 6004799503160661 (by norm_num) (by norm_num) (by norm_num)
      (by norm_num)]
    norm_num
  have hr : roundF64 (150119987579016525 / 4503599627370496) =
      2345624805922133 / 70368744177664 := by
    rw [roundF64_eval (e := 5) 4691249611844266 (by norm_num) (by norm_num) (by norm_num)
      (by norm_num)]
    norm_num
  simp only [progressPercent, F64.ofInt, F64.div, F64.mul, F64.gt, Int.cast_one, Int.cast_ofNat,
    roundF64_one, roundF64_three, hq]
  norm_num [hr]

theorem progressPercent_seven_hundred :
    progressPercent 7 100 = F64.fin (7881299347898369 / 1125899906842624) := by
  have hq : roundF64 (7 / 100) = 1261007895663739 / 18014398509481984 := by
    rw [roundF64_eval (e := -4) 5044031582654956 (by norm_num) (by norm_num) (by norm_num)
      (by norm_num)]
    norm_num
  have hr : roundF64 (31525197391593475 / 4503599627370496) =
      7881299347898369 / 1125899906842624 := by
    rw [roundF64_eval (e := 2) 7881299347898369 (by norm_num) (by norm_num) (by norm_num)
      (by norm_num)]
    norm_num
  simp only [progressPercent, F64.ofInt, F64.div, F64.mul, F64.gt, Int.cast_ofNat,
    roundF64_seven, roundF64_hundred, hq]
  norm_num [hr]

/-- Counterexample to C9: for 7 points of 100 the exact percentage is 7, the
stored `float64` is 7881299347898369 / 2^50 (7.000000000000001); for 1 point of 3
the exact percentage 100/3 is no `float64`, the stored value is
2345624805922133 / 2^46. -/
theorem progress_is_not_the_exact_quotient :
    progressPercent 7 100 ≠ F64.fin (min 100 (100 * 7 / 100)) ∧
    progressPercent 1 3 ≠ F64.fin (min 100 (100 * 1 / 3)) := by
  rw [progressPercent_seven_hundred, progressPercent_one_three]
  constructor <;> intro h <;> rw [F64.fin.injEq] at h <;> norm_num at h

/-- The clamp of the progress formula. -/
theorem progressPercent_clamp (currentPoints targetPoints : Int) (htarget : 0 < targetPoints)
    (hcurrent : 0 ≤ currentPoints) :
    ∃ q : ℚ, progressPercent currentPoints targetPoints = F64.fin q ∧ 0 ≤ q ∧ q ≤ 100 ∧
      (targetPoints ≤ currentPoints → q = 100) := by
  have hb : 0 < roundF64 (targetPoints : ℚ) := roundF64_pos (by exact_mod_cast htarget)
  have ha : 0 ≤ roundF64 (currentPoints : ℚ) := by
    have := roundF64_mono (le_refl (0 : ℚ)) (show (0 : ℚ) ≤ currentPoints by exact_mod_cast hcurrent)
    rwa [roundF64_zero] at this
  have hquot : 0 ≤ roundF64 (currentPoints : ℚ) / roundF64 (targetPoints : ℚ) :=
    div_nonneg ha hb.le
  have hq : 0 ≤ roundF64 (roundF64 (currentPoints : ℚ) / roundF64 (targetPoints : ℚ)) := by
    have := roundF64_mono (le_refl (0 : ℚ)) hquot
    rwa [roundF64_zero] at this
  have hr : 0 ≤ roundF64
      (roundF64 (roundF64 (currentPoints : ℚ) / roundF64 (targetPoints : ℚ)) * 100) := by
    have := roundF64_mono (le_refl (0 : ℚ)) (mul_nonneg hq (by norm_num : (0 : ℚ) ≤ 100))
    rwa [roundF64_zero] at this
  have hfull : targetPoints ≤ currentPoints → 100 ≤ roundF64
      (roundF64 (roundF64 (currentPoints : ℚ) / roundF64 (targetPoints : ℚ)) * 100) := by
    intro hle
    have h1 : roundF64 (targetPoints : ℚ) ≤ roundF64 (currentPoints : ℚ) :=
      roundF64_mono (by exact_mod_cast htarget.le) (by exact_mod_cast hle)
    have h2 : (1 : ℚ) ≤ roundF64 (currentPoints : ℚ) / roundF64 (targetPoints : ℚ) := by
      rw [le_div_iff₀ hb]; simpa using h1
    have h3 : (1 : ℚ) ≤ roundF64 (roundF64 (currentPoints : ℚ) / roundF64 (targetPoints : ℚ)) := by
      have := roundF64_mono (by norm_num : (0 : ℚ) ≤ 1) h2
      rwa [roundF64_one] at this
    have h4 : (100 : ℚ) ≤
        roundF64 (roundF64 (currentPoints : ℚ) / roundF64 (targetPoints : ℚ)) * 100 := by
      linarith
    have := roundF64_mono (by norm_num : (0 : ℚ) ≤ 100) h4
    rwa [roundF64_hundred] at this
  simp only [progressPercent, F64.ofInt, F64.div, F64.mul, F64.gt, if_neg (ne_of_gt hb)]
  by_cases hgt : (100 : ℚ) < roundF64
      (roundF64 (roundF64 (currentPoints : ℚ) / roundF64 (targetPoints : ℚ)) * 100)
  · refine ⟨100, ?_, by norm_num, le_refl _, fun _ => rfl⟩
    simp [hgt]
  · refine ⟨_, ?_, hr, not_lt.1 hgt, fun hle => le_antisymm (not_lt.1 hgt) (hfull hle)⟩
    simp [hgt]

/-- Every row that one turn of the loop of `UpdateGoalProgressForUser` leaves in
the progress table was there before, or is the row just written for the goal,
with the progress formula applied to its `CurrentPoints`. -/
theorem updateGoalProgressForGoal_rows (now : Time) (userID pointsEarned : Int) (goal : Goal)
    (c : Conn) (row : GoalProgress)
    (hrow : row ∈ (updateGoalProgressForGoal now userID pointsEarned goal c).db.goalProgresses) :
    row ∈ c.db.goalProgresses ∨
      (row.GoalID = goal.ID ∧ row.UserID = userID ∧
        row.Progress = progressPercent row.CurrentPoints goal.TargetPoints) := by
  unfold updateGoalProgressForGoal at hrow
  split_ifs at hrow
  · exact Or.inl hrow
  · exact Or.inl hrow
  · exact Or.inl hrow
  · exact Or.inl hrow
  · unfold GetGoalProgress UpsertGoalProgress at hrow
    have hdb := query_snd_db (fun db => findGoalProgress db goal.ID userID) c
    rcases hq : query (fun db => findGoalProgress db goal.ID userID) c with ⟨_ | progress, c1⟩
    · rw [hq] at hrow hdb
      simp only at hrow hdb
      rw [hdb] at hrow
      exact Or.inl hrow
    · rw [hq] at hrow hdb
      simp only at hrow hdb
      rcases mem_exec_saveGoalProgress hrow with hmem | heq
      · rw [hdb] at hmem; exact Or.inl hmem
      · subst heq; exact Or.inr ⟨rfl, rfl, rfl⟩

theorem foldl_rows (S : GoalProgress → Prop) (step : Goal → Conn → Conn) (goals : List Goal)
    (hstep : ∀ goal ∈ goals, ∀ conn : Conn, (∀ row ∈ conn.db.goalProgresses, S row) →
      ∀ row ∈ (step goal conn).db.goalProgresses, S row)
    (conn : Conn) (hconn : ∀ row ∈ conn.db.goalProgresses, S row) :
    ∀ row ∈ (goals.foldl (fun conn goal => step goal conn) conn).db.goalProgresses, S row := by
  induction goals generalizing conn with
  | nil => exact hconn
  | cons goal rest ih =>
    rw [List.foldl_cons]
    exact ih (fun g hg => hstep g (List.mem_cons_of_mem _ hg)) _
      (hstep goal (List.mem_cons_self _ _) conn hconn)

/-- The rows `UpdateGoalProgressForUser` leaves in the progress table. -/
theorem UpdateGoalProgressForUser_rows (now : Time) (userID circleID pointsEarned : Int)
    (c : Conn) (row : GoalProgress)
    (hrow : row ∈
      (UpdateGoalProgressForUser now userID circleID pointsEarned c).2.db.goalProgresses) :
    row ∈ c.db.goalProgresses ∨
      ∃ goal ∈ c.db.goals, row.GoalID = goal.ID ∧ row.UserID = userID ∧
        row.Progress = progressPercent row.CurrentPoints goal.TargetPoints := by
  unfold UpdateGoalProgressForUser GetGoalsByCircle at hrow
  split at hrow
  · rename_i err c1 hq
    have hdb := (congrArg (fun p => p.2.db) hq).symm.trans (query_snd_db _ c)
    simp only at hrow hdb
    rw [hdb] at hrow
    exact Or.inl hrow
  · rename_i goals c1 hq
    have hdb : c1.db = c.db := (congrArg (fun p => p.2.db) hq).symm.trans (query_snd_db _ c)
    have hgoals := query_fst_ok (congrArg Prod.fst hq)
    simp only at hrow
    have hsub : ∀ g ∈ goals, g ∈ c.db.goals := by
      intro g hg
      rw [hgoals] at hg
      have := (List.perm_insertionSort goalQueryOrder _).subset hg
      exact List.mem_of_mem_filter this
    refine foldl_rows
      (fun row => row ∈ c.db.goalProgresses ∨
        ∃ goal ∈ c.db.goals, row.GoalID = goal.ID ∧ row.UserID = userID ∧
          row.Progress = progressPercent row.CurrentPoints goal.TargetPoints)
      (fun goal conn => updateGoalProgressForGoal now userID pointsEarned goal conn) goals
      ?_ c1 ?_ row hrow
    · intro goal hg conn hconn r hr
      rcases updateGoalProgressForGoal_rows now userID pointsEarned goal conn r hr with h | h
      · exact hconn r h
      · exact Or.inr ⟨goal, hsub goal hg, h⟩
    · intro r hr
      rw [hdb] at hr
      exact Or.inl hr

/-- C9, amended. The progress percentage is a `float64`: both the batch path
(`updateUserGoalProgress`) and the incremental path (`UpdateGoalProgressForUser`)
store `float64(currentPoints) / float64(targetPoints) * 100`, replaced by 100
when greater, in the row whose `currentPoints` they store; for `targetPoints > 0`
and `currentPoints >= 0` this value is finite, lies in [0, 100] and is exactly
100 whenever `currentPoints >= targetPoints`, however large `currentPoints` is. -/
theorem progress_percent_clamped (now : Time) (goal : Goal) (userID : Int) (tx : Conn)
    (circleID pointsEarned : Int) (c : Conn) :
    (∀ currentPoints targetPoints : Int, 0 < targetPoints → 0 ≤ currentPoints →
      ∃ q : ℚ, progressPercent currentPoints targetPoints = F64.fin q ∧ 0 ≤ q ∧ q ≤ 100 ∧
        (targetPoints ≤ currentPoints → q = 100)) ∧
    ((updateUserGoalProgress now goal userID tx).1 = none →
      ∃ row, findGoalProgress (updateUserGoalProgress now goal userID tx).2.db goal.ID userID =
          some row ∧
        row.Progress = progressPercent row.CurrentPoints goal.TargetPoints) ∧
    (∀ row ∈ (UpdateGoalProgressForUser now userID circleID pointsEarned c).2.db.goalProgresses,
      row ∈ c.db.goalProgresses ∨
        ∃ g ∈ c.db.goals, row.GoalID = g.ID ∧ row.UserID = userID ∧
          row.Progress = progressPercent row.CurrentPoints g.TargetPoints) := by
  refine ⟨progressPercent_clamp, fun hok => ?_,
    UpdateGoalProgressForUser_rows now userID circleID pointsEarned c⟩
  obtain ⟨db1, completedAt, hdb⟩ := updateUserGoalProgress_ok hok
  refine ⟨GoalProgress.mk goal.ID userID (goalWindowPoints goal userID tx.db)
    (progressPercent (goalWindowPoints goal userID tx.db) goal.TargetPoints) completedAt now,
    ?_, rfl⟩
  rw [hdb]
  exact findGoalProgress_save _ db1

/-- Witness of C9 (amended): 110 points of 100 are stored as exactly 100 percent. -/
theorem progress_percent_clamped_witness :
    (0 : Int) < 100 ∧ (0 : Int) ≤ 110 ∧ progressPercent 110 100 = F64.fin 100 :=
  have h := (progress_percent_clamped 30 exGoal 1 { db := exGoalDB, faults := [] } 1 60
    { db := exGoalDB, faults := [] }).1 110 100 (by decide) (by decide)
  ⟨by decide, by decide, by
    obtain ⟨q, hq, _, _, hfull⟩ := h
    rw [hq, hfull (by decide)]⟩

/-! ## The batch completion transition -/

theorem awardGoalBonus_ok {now : Time} {goal : Goal} {userID : Int} {tx : Conn}
    (h : (awardGoalBonus now goal userID tx).1 = none) :
    (awardGoalBonus now goal userID tx).2.db = goalBonusTables now goal userID tx.db := by
  unfold awardGoalBonus goalBonusTables at *
  cases hr : goal.RewardPoints with
  | none => simp
  | some r =>
    simp only [hr] at h ⊢
    by_cases hpos : 0 < r
    · simp only [if_pos hpos] at h ⊢
      rcases he : exec (updateUserCirclePoints userID goal.CircleID (fun p => p + r)) tx with
        ⟨_ | _, tx1⟩
      · simp only [he] at h ⊢
        have h1 := (exec_ok (congrArg Prod.fst he)).1
        rw [he] at h1
        simp only at h1
        rw [(exec_ok h).1, h1]
      · simp [he] at h
    · simp only [if_neg hpos]

theorem awardGoalBonus_nofault (now : Time) (goal : Goal) (userID : Int) (db : DB) :
    awardGoalBonus now goal userID { db := db, faults := [] } =
      (none, { db := goalBonusTables now goal userID db, faults := [] }) := by
  unfold awardGoalBonus goalBonusTables
  cases goal.RewardPoints with
  | none => rfl
  | some r =>
    by_cases hpos : 0 < r
    · simp [hpos, exec]
    · simp [hpos]

/-- A successful batch recomputation leaves the tables of the fault-free run. -/
theorem updateUserGoalProgress_ok_tables {now : Time} {goal : Goal} {userID : Int} {tx : Conn}
    (hok : (updateUserGoalProgress now goal userID tx).1 = none) :
    (updateUserGoalProgress now goal userID tx).2.db =
      updateUserGoalProgressTables now goal userID tx.db := by
  unfold updateUserGoalProgress updateUserGoalProgressTables at *
  rcases hq : query (goalWindowPoints goal userID) tx with ⟨_ | currentPoints, tx1⟩
  · simp [hq] at hok
  · have hcur : currentPoints = goalWindowPoints goal userID tx.db :=
      query_fst_ok (congrArg Prod.fst hq)
    have hdb1 : tx1.db = tx.db := by
      have := query_snd_db (goalWindowPoints goal userID) tx
      rw [hq] at this
      exact this
    subst hcur
    simp only [hq] at hok ⊢
    by_cases hcond : goal.TargetPoints ≤ goalWindowPoints goal userID tx.db ∧
        goal.CompletedAt = none
    · simp only [if_pos hcond] at hok ⊢
      rcases hb : awardGoalBonus now goal userID tx1 with ⟨_ | _, tx2⟩
      · simp only [hb] at hok ⊢
        have hdb2 : tx2.db = goalBonusTables now goal userID tx.db := by
          have := awardGoalBonus_ok (congrArg Prod.fst hb)
          rw [hb, hdb1] at this
          exact this
        rcases hm : exec (markGoalCompleted now goal.ID) tx2 with ⟨_ | _, tx3⟩
        · simp only [hm] at hok ⊢
          have hdb3 : tx3.db = markGoalCompleted now goal.ID tx2.db := by
            have := (exec_ok (congrArg Prod.fst hm)).1
            rw [hm] at this
            exact this
          rw [(exec_ok hok).1, hdb3, hdb2]
        · simp [hm] at hok
      · simp [hb] at hok
    · simp only [if_neg hcond] at hok ⊢
      rw [(exec_ok hok).1, hdb1]

theorem updateUserGoalProgress_nofault_tables (now : Time) (goal : Goal) (userID : Int)
    (db : DB) :
    updateUserGoalProgress now goal userID { db := db, faults := [] } =
      (none, { db := updateUserGoalProgressTables now goal userID db, faults := [] }) := by
  unfold updateUserGoalProgress updateUserGoalProgressTables
  rw [query_nofault]
  simp only
  by_cases hcond : goal.TargetPoints ≤ goalWindowPoints goal userID db ∧ goal.CompletedAt = none
  · simp only [if_pos hcond, awardGoalBonus_nofault]
    rfl
  · simp only [if_neg hcond]
    rfl

theorem saveGoalProgress_userCircles (p : GoalProgress) (db : DB) :
    (saveGoalProgress p db).userCircles = db.userCircles := by
  unfold saveGoalProgress; split <;> rfl

theorem saveGoalProgress_pointsHistories (p : GoalProgress) (db : DB) :
    (saveGoalProgress p db).pointsHistories = db.pointsHistories := by
  unfold saveGoalProgress; split <;> rfl

theorem saveGoalProgress_goals (p : GoalProgress) (db : DB) :
    (saveGoalProgress p db).goals = db.goals := by
  unfold saveGoalProgress; split <;> rfl

theorem saveGoalProgress_rewards (p : GoalProgress) (db : DB) :
    (saveGoalProgress p db).rewards = db.rewards := by
  unfold saveGoalProgress; split <;> rfl

theorem saveGoalProgress_redemptions (p : GoalProgress) (db : DB) :
    (saveGoalProgress p db).redemptions = db.redemptions := by
  unfold saveGoalProgress; split <;> rfl

theorem balance_congr {db db' : DB} (h : db'.userCircles = db.userCircles) (u g : Int) :
    balance db' u g = balance db u g := by
  unfold balance circleUsersOf
  rw [h]

theorem goalBonusTables_goals (now : Time) (goal : Goal) (userID : Int) (db : DB) :
    (goalBonusTables now goal userID db).goals = db.goals := by
  unfold goalBonusTables
  cases goal.RewardPoints with
  | none => rfl
  | some r => by_cases h : 0 < r <;> simp [h, insertPointsHistory, updateUserCirclePoints]

theorem goalBonusTables_goalProgresses (now : Time) (goal : Goal) (userID : Int) (db : DB) :
    (goalBonusTables now goal userID db).goalProgresses = db.goalProgresses := by
  unfold goalBonusTables
  cases goal.RewardPoints with
  | none => rfl
  | some r => by_cases h : 0 < r <;> simp [h, insertPointsHistory, updateUserCirclePoints]

theorem goalBonusTables_pos {now : Time} {goal : Goal} {userID : Int} {r : Int} (db : DB)
    (hr : goal.RewardPoints = some r) (hpos : 0 < r) :
    goalBonusTables now goal userID db =
      insertPointsHistory (PointsHistory.mk PointsHistoryAction.Add r now userID userID goal.CircleID)
        (updateUserCirclePoints userID goal.CircleID (fun p => p + r) db) := by
  unfold goalBonusTables
  simp [hr, hpos]

theorem goalBonusTables_none {now : Time} {goal : Goal} {userID : Int} (db : DB)
    (hr : goal.RewardPoints = none ∨ ∃ r, goal.RewardPoints = some r ∧ r ≤ 0) :
    goalBonusTables now goal userID db = db := by
  unfold goalBonusTables
  rcases hr with h | ⟨r, h, hle⟩
  · simp [h]
  · simp [h, not_lt.2 hle]

/-- The batch completion transition for a user who has a balance row in the
goal's circle.  A successful `updateUserGoalProgress` for a
goal whose `completedAt` is null: when the window sum reaches `targetPoints`, the
goal's `completedAt` (every goal row with that id) and the `completedAt` of the
progress row of (goal, user) are set to `now`; if `rewardPoints` is set and
positive, exactly one Grant event of `rewardPoints` for that user and circle is
appended and the balance of the user (who has a balance row) in the goal's circle
grows by exactly `rewardPoints`, every other balance being unchanged; if
`rewardPoints` is null or not positive, events and balances are unchanged.  When
the window sum is below `targetPoints`, events, balances and goals are unchanged
and the progress row's `completedAt` is null.  Without a storage fault the call
succeeds. -/
theorem batch_completion_transition (now : Time) (goal : Goal) (userID : Int) (tx : Conn)
    (hnull : goal.CompletedAt = none)
    (hok : (updateUserGoalProgress now goal userID tx).1 = none) :
    (goal.TargetPoints ≤ goalWindowPoints goal userID tx.db →
      List.Forall₂
        (fun old new : Goal =>
          new.ID = old.ID ∧ (old.ID = goal.ID → new.CompletedAt = some now) ∧
            (old.ID ≠ goal.ID → new = old))
        tx.db.goals (updateUserGoalProgress now goal userID tx).2.db.goals ∧
      (∃ row, findGoalProgress (updateUserGoalProgress now goal userID tx).2.db goal.ID userID =
          some row ∧ row.CompletedAt = some now ∧
        row.CurrentPoints = goalWindowPoints goal userID tx.db) ∧
      (∀ r : Int, goal.RewardPoints = some r → 0 < r →
        (updateUserGoalProgress now goal userID tx).2.db.pointsHistories =
          tx.db.pointsHistories ++
            [PointsHistory.mk PointsHistoryAction.Add r now userID userID goal.CircleID] ∧
        (hasBalanceRow tx.db userID goal.CircleID →
          balance (updateUserGoalProgress now goal userID tx).2.db userID goal.CircleID =
            balance tx.db userID goal.CircleID + r) ∧
        (∀ u g : Int, ¬ (u = userID ∧ g = goal.CircleID) →
          balance (updateUserGoalProgress now goal userID tx).2.db u g = balance tx.db u g)) ∧
      ((goal.RewardPoints = none ∨ ∃ r, goal.RewardPoints = some r ∧ r ≤ 0) →
        (updateUserGoalProgress now goal userID tx).2.db.pointsHistories =
          tx.db.pointsHistories ∧
        (updateUserGoalProgress now goal userID tx).2.db.userCircles = tx.db.userCircles)) ∧
    (goalWindowPoints goal userID tx.db < goal.TargetPoints →
      (updateUserGoalProgress now goal userID tx).2.db.pointsHistories = tx.db.pointsHistories ∧
      (updateUserGoalProgress now goal userID tx).2.db.userCircles = tx.db.userCircles ∧
      (updateUserGoalProgress now goal userID tx).2.db.goals = tx.db.goals ∧
      ∃ row, findGoalProgress (updateUserGoalProgress now goal userID tx).2.db goal.ID userID =
          some row ∧ row.CompletedAt = none) ∧
    (updateUserGoalProgress now goal userID { db := tx.db, faults := [] }).1 = none := by
  rw [updateUserGoalProgress_ok_tables hok]
  refine ⟨fun hreach => ?_, fun hbelow => ?_, updateUserGoalProgress_nofault now goal userID tx.db⟩
  · have hcond : goal.TargetPoints ≤ goalWindowPoints goal userID tx.db ∧
        goal.CompletedAt = none := ⟨hreach, hnull⟩
    unfold updateUserGoalProgressTables
    rw [if_pos hcond]
    refine ⟨?_, ⟨_, findGoalProgress_save _ _, rfl, rfl⟩, fun r hr hpos => ?_, fun hr => ?_⟩
    · rw [saveGoalProgress_goals]
      unfold markGoalCompleted
      simp only [goalBonusTables_goals]
      apply forall₂_map_of_forall
      intro g _
      by_cases hg : g.ID = goal.ID <;> simp [hg]
    · rw [saveGoalProgress_pointsHistories]
      refine ⟨?_, fun hrow => ?_, fun u g hne => ?_⟩
      · rw [goalBonusTables_pos tx.db hr hpos]; rfl
      · rw [balance_congr (saveGoalProgress_userCircles _ _), goalBonusTables_pos tx.db hr hpos]
        exact (@balance_congr
          (updateUserCirclePoints userID goal.CircleID (fun p => p + r) tx.db) _ rfl _ _).trans
          (balance_update_same tx.db userID goal.CircleID _ hrow)
      · rw [balance_congr (saveGoalProgress_userCircles _ _), goalBonusTables_pos tx.db hr hpos]
        exact (@balance_congr
          (updateUserCirclePoints userID goal.CircleID (fun p => p + r) tx.db) _ rfl _ _).trans
          (balance_update_other tx.db userID goal.CircleID u g _ hne)
    · rw [saveGoalProgress_pointsHistories, saveGoalProgress_userCircles,
        goalBonusTables_none tx.db hr]
      exact ⟨rfl, rfl⟩
  · have hcond : ¬ (goal.TargetPoints ≤ goalWindowPoints goal userID tx.db ∧
        goal.CompletedAt = none) := fun h => absurd h.1 (not_le.2 hbelow)
    unfold updateUserGoalProgressTables
    rw [if_neg hcond]
    exact ⟨saveGoalProgress_pointsHistories _ _, saveGoalProgress_userCircles _ _,
      saveGoalProgress_goals _ _, _, findGoalProgress_save _ _, rfl⟩

/-- Example of the transition: user 1 holds 150 points and has 110 in the window
of the example goal; the batch recomputation at instant 30 records the completion
and the bonus of 20 brings the balance to 170. -/
theorem batch_completion_transition_witness :
    (∃ row, findGoalProgress
        (updateUserGoalProgress 30 exGoal 1 { db := exGoalDB, faults := [] }).2.db 1 1 =
          some row ∧ row.CompletedAt = some 30 ∧ row.CurrentPoints = 110) ∧
    balance (updateUserGoalProgress 30 exGoal 1 { db := exGoalDB, faults := [] }).2.db 1 1 =
      170 :=
  have h := (batch_completion_transition 30 exGoal 1 { db := exGoalDB, faults := [] } rfl
    (by decide)).1 (by decide)
  ⟨h.2.1, ((h.2.2.1 20 rfl (by decide)).2.1 (by decide))⟩

/-- C11. The batch completion transition does not always raise the balance.  The
goal of user 1 (target 100, bonus 20, `completedAt` null) lies in circle 1, where
user 1 has Grant events of 120 points but no membership row.  The pass over the
circle returns `nil`, sets the goal's and the row's `completedAt` and appends the
bonus Grant event of 20 for user 1, but no balance grows: the `UPDATE` of
`user_circles` matches no row and the table is left as it was. -/
theorem bonus_event_without_balance :
    exBonusGoal.UserID = some 1 ∧ exBonusGoal.TargetPoints = 100 ∧
    exBonusGoal.RewardPoints = some 20 ∧ exBonusGoal.CompletedAt = none ∧
    goalWindowPoints exBonusGoal 1 exNoRowDB = 120 ∧
    ¬ hasBalanceRow exNoRowDB 1 1 ∧
    (UpdateGoalProgress 30 1 { db := exNoRowDB, faults := [] }).1 = none ∧
    (updateUserGoalProgress 30 exBonusGoal 1 { db := exNoRowDB, faults := [] }).1 = none ∧
    (UpdateGoalProgress 30 1 { db := exNoRowDB, faults := [] }).2.db =
      (updateUserGoalProgress 30 exBonusGoal 1 { db := exNoRowDB, faults := [] }).2.db ∧
    ((UpdateGoalProgress 30 1 { db := exNoRowDB, faults := [] }).2.db.goals.map
      fun g => g.CompletedAt) = [some 30] ∧
    ((findGoalProgress (UpdateGoalProgress 30 1 { db := exNoRowDB, faults := [] }).2.db 7 1).map
      fun r => (r.CurrentPoints, r.CompletedAt)) = some (120, some 30) ∧
    (UpdateGoalProgress 30 1 { db := exNoRowDB, faults := [] }).2.db.pointsHistories =
      exNoRowDB.pointsHistories ++
        [{ Action := PointsHistoryAction.Add, Points := 20, CreatedAt := 30, CreatedBy := 1,
           UserID := 1, CircleID := 1 }] ∧
    (UpdateGoalProgress 30 1 { db := exNoRowDB, faults := [] }).2.db.userCircles =
      exNoRowDB.userCircles ∧
    balance exNoRowDB 1 1 = 0 ∧
    balance (UpdateGoalProgress 30 1 { db := exNoRowDB, faults := [] }).2.db 1 1 = 0 := by
  refine ⟨rfl, rfl, rfl, rfl, by decide, by decide, by decide, by decide, rfl, by decide,
    by decide, by decide, by decide, by decide, by decide⟩

/-! ## Recomputation of a completed goal -/

theorem onlyProgressChanged_refl (db : DB) : OnlyProgressChanged db db :=
  ⟨rfl, rfl, rfl, rfl, rfl⟩

theorem onlyProgressChanged_trans {a b c : DB} (h1 : OnlyProgressChanged a b)
    (h2 : OnlyProgressChanged b c) : OnlyProgressChanged a c :=
  ⟨h2.1.trans h1.1, h2.2.1.trans h1.2.1, h2.2.2.1.trans h1.2.2.1, h2.2.2.2.1.trans h1.2.2.2.1,
    h2.2.2.2.2.trans h1.2.2.2.2⟩

theorem onlyProgressChanged_of_eq {a b : DB} (h : b = a) : OnlyProgressChanged a b := by
  subst h; exact onlyProgressChanged_refl _

theorem onlyProgressChanged_save (p : GoalProgress) (db : DB) :
    OnlyProgressChanged db (saveGoalProgress p db) := by
  unfold OnlyProgressChanged saveGoalProgress
  split <;> exact ⟨rfl, rfl, rfl, rfl, rfl⟩

theorem onlyProgressChanged_exec_save (p : GoalProgress) (c : Conn) :
    OnlyProgressChanged c.db (exec (saveGoalProgress p) c).2.db := by
  rcases exec_db_cases (saveGoalProgress p) c with ⟨_, h⟩ | ⟨_, h⟩
  · rw [h]; exact onlyProgressChanged_save p c.db
  · rw [h]; exact onlyProgressChanged_refl _

/-- Whatever the storage faults, the batch recomputation of a goal that is
already completed touches the progress table only. -/
theorem updateUserGoalProgress_completed (now : Time) (goal : Goal) (userID : Int) (tx : Conn)
    (hdone : goal.CompletedAt ≠ none) :
    OnlyProgressChanged tx.db (updateUserGoalProgress now goal userID tx).2.db := by
  unfold updateUserGoalProgress
  have hdb := query_snd_db (goalWindowPoints goal userID) tx
  rcases hq : query (goalWindowPoints goal userID) tx with ⟨_ | currentPoints, tx1⟩
  · rw [hq] at hdb
    exact onlyProgressChanged_of_eq hdb
  · rw [hq] at hdb
    simp only at hdb ⊢
    have hcond : ¬ (goal.TargetPoints ≤ currentPoints ∧ goal.CompletedAt = none) :=
      fun h => hdone h.2
    rw [if_neg hcond, ← hdb]
    exact onlyProgressChanged_exec_save _ tx1

theorem updateGoalProgressForGoal_frame (now : Time) (userID pointsEarned : Int) (goal : Goal)
    (c : Conn) :
    OnlyProgressChanged c.db (updateGoalProgressForGoal now userID pointsEarned goal c).db := by
  unfold updateGoalProgressForGoal
  split_ifs
  · exact onlyProgressChanged_refl _
  · exact onlyProgressChanged_refl _
  · exact onlyProgressChanged_refl _
  · exact onlyProgressChanged_refl _
  · unfold GetGoalProgress UpsertGoalProgress
    have hdb := query_snd_db (fun db => findGoalProgress db goal.ID userID) c
    rcases hq : query (fun db => findGoalProgress db goal.ID userID) c with ⟨_ | progress, c1⟩
    · rw [hq] at hdb
      exact onlyProgressChanged_of_eq hdb
    · rw [hq] at hdb
      simp only at hdb ⊢
      rw [← hdb]
      exact onlyProgressChanged_exec_save _ c1

theorem foldl_frame (step : Goal → Conn → Conn)
    (hstep : ∀ goal conn, OnlyProgressChanged conn.db (step goal conn).db) (goals : List Goal)
    (conn : Conn) :
    OnlyProgressChanged conn.db (goals.foldl (fun conn goal => step goal conn) conn).db := by
  induction goals generalizing conn with
  | nil => exact onlyProgressChanged_refl _
  | cons goal rest ih =>
    rw [List.foldl_cons]
    exact onlyProgressChanged_trans (hstep goal conn) (ih _)

/-- Whatever the storage faults, the incremental path touches the progress table
only: it has no statement on balances, point events or goals. -/
theorem UpdateGoalProgressForUser_frame (now : Time) (userID circleID pointsEarned : Int)
    (c : Conn) :
    OnlyProgressChanged c.db (UpdateGoalProgressForUser now userID circleID pointsEarned c).2.db := by
  unfold UpdateGoalProgressForUser GetGoalsByCircle
  split
  · rename_i err c1 hq
    exact onlyProgressChanged_of_eq
      ((congrArg (fun p => p.2.db) hq).symm.trans (query_snd_db _ c))
  · rename_i goals c1 hq
    have hdb : c1.db = c.db := (congrArg (fun p => p.2.db) hq).symm.trans (query_snd_db _ c)
    simp only
    rw [← hdb]
    exact foldl_frame (fun goal conn => updateGoalProgressForGoal now userID pointsEarned goal conn)
      (fun goal conn => updateGoalProgressForGoal_frame now userID pointsEarned goal conn)
      goals c1

/-- The tables a transaction leaves are those at its start, or those its body
left after returning `nil` on a connection with the tables at the start. -/
theorem Transaction_db_cases (fc : Conn → Option DBError × Conn) (c : Conn) :
    (Transaction fc c).2.db = c.db ∨
      ∃ tx : Conn, tx.db = c.db ∧ (fc tx).1 = none ∧ (Transaction fc c).2.db = (fc tx).2.db := by
  unfold Transaction
  rcases hf : c.faults with _ | ⟨b, rest⟩
  · simp only [List.tail_nil]
    rcases hfc : fc { db := c.db, faults := [] } with ⟨_ | e, c1⟩
    · simp only
      rcases hf1 : c1.faults with _ | ⟨b1, rest1⟩
      · exact Or.inr ⟨{ db := c.db, faults := [] }, rfl, by rw [hfc], by rw [hfc]⟩
      · cases b1
        · exact Or.inr ⟨{ db := c.db, faults := [] }, rfl, by rw [hfc], by rw [hfc]⟩
        · exact Or.inl rfl
    · exact Or.inl rfl
  · cases b
    · simp only [List.tail_cons]
      rcases hfc : fc { db := c.db, faults := rest } with ⟨_ | e, c1⟩
      · simp only
        rcases hf1 : c1.faults with _ | ⟨b1, rest1⟩
        · exact Or.inr ⟨{ db := c.db, faults := rest }, rfl, by rw [hfc], by rw [hfc]⟩
        · cases b1
          · exact Or.inr ⟨{ db := c.db, faults := rest }, rfl, by rw [hfc], by rw [hfc]⟩
          · exact Or.inl rfl
      · exact Or.inl rfl
    · exact Or.inl rfl

/-! ### The loops of the batch pass keep every reflexive and transitive relation
that each single recomputation keeps -/

theorem updateGoalProgressForUsers_rel (R : DB → DB → Prop) (hrefl : ∀ db, R db db)
    (htrans : ∀ a b c, R a b → R b c → R a c) (now : Time) (goal : Goal)
    (hstep : ∀ (u : Int) (tx : Conn), R tx.db (updateUserGoalProgress now goal u tx).2.db)
    (users : List Int) (tx : Conn) :
    R tx.db (updateGoalProgressForUsers now goal users tx).2.db := by
  induction users generalizing tx with
  | nil => exact hrefl _
  | cons u rest ih =>
    unfold updateGoalProgressForUsers
    have h1 := hstep u tx
    rcases hq : updateUserGoalProgress now goal u tx with ⟨_ | e, tx1⟩
    · rw [hq] at h1
      exact htrans _ _ _ h1 (ih tx1)
    · rw [hq] at h1
      exact h1

theorem updateGoalProgressOfGoal_rel (R : DB → DB → Prop) (hrefl : ∀ db, R db db)
    (htrans : ∀ a b c, R a b → R b c → R a c) (now : Time) (circleID : Int) (goal : Goal)
    (hstep : ∀ (u : Int) (tx : Conn), R tx.db (updateUserGoalProgress now goal u tx).2.db)
    (tx : Conn) : R tx.db (updateGoalProgressOfGoal now circleID goal tx).2.db := by
  unfold updateGoalProgressOfGoal
  cases goal.UserID with
  | some u => exact hstep u tx
  | none =>
    simp only
    have hdb := query_snd_db (fun db => activeMemberIDs db circleID) tx
    rcases hq : query (fun db => activeMemberIDs db circleID) tx with ⟨_ | users, tx1⟩
    · rw [hq] at hdb
      simp only at hdb ⊢
      rw [hdb]
      exact hrefl _
    · rw [hq] at hdb
      simp only at hdb ⊢
      rw [← hdb]
      exact updateGoalProgressForUsers_rel R hrefl htrans now goal hstep users tx1

theorem updateGoalProgressLoop_rel (R : DB → DB → Prop) (hrefl : ∀ db, R db db)
    (htrans : ∀ a b c, R a b → R b c → R a c) (now : Time) (circleID : Int)
    (goals : List Goal)
    (hstep : ∀ goal ∈ goals, ∀ (u : Int) (tx : Conn),
      R tx.db (updateUserGoalProgress now goal u tx).2.db)
    (tx : Conn) : R tx.db (updateGoalProgressLoop now circleID goals tx).2.db := by
  induction goals generalizing tx with
  | nil => exact hrefl _
  | cons goal rest ih =>
    unfold updateGoalProgressLoop
    have h1 := updateGoalProgressOfGoal_rel R hrefl htrans now circleID goal
      (hstep goal (List.mem_cons_self _ _)) tx
    rcases hq : updateGoalProgressOfGoal now circleID goal tx with ⟨_ | e, tx1⟩
    · rw [hq] at h1
      exact htrans _ _ _ h1 (ih (fun g hg => hstep g (List.mem_cons_of_mem _ hg)) tx1)
    · rw [hq] at h1
      exact h1

theorem UpdateGoalProgress_rel (R : DB → DB → Prop) (hrefl : ∀ db, R db db)
    (htrans : ∀ a b c, R a b → R b c → R a c) (now : Time) (circleID : Int) (c : Conn)
    (hstep : ∀ goal ∈ activeGoalsOf c.db circleID, ∀ (u : Int) (tx : Conn),
      R tx.db (updateUserGoalProgress now goal u tx).2.db) :
    R c.db (UpdateGoalProgress now circleID c).2.db := by
  unfold UpdateGoalProgress
  rcases Transaction_db_cases (updateGoalProgressTx now circleID) c with h | ⟨tx, htx, _, h⟩
  · rw [h]; exact hrefl _
  · rw [h]
    unfold updateGoalProgressTx
    have hdb := query_snd_db (fun db => activeGoalsOf db circleID) tx
    rcases hq : query (fun db => activeGoalsOf db circleID) tx with ⟨_ | goals, tx1⟩
    · rw [hq] at hdb
      simp only at hdb ⊢
      rw [hdb, htx]
      exact hrefl _
    · have hgoals : goals = activeGoalsOf c.db circleID := by
        rw [← htx]; exact query_fst_ok (congrArg Prod.fst hq)
      rw [hq] at hdb
      simp only at hdb ⊢
      rw [← htx, ← hdb]
      exact updateGoalProgressLoop_rel R hrefl htrans now circleID goals
        (fun g hg => hstep g (hgoals ▸ hg)) tx1

theorem runRecomputations_frame (goal : Goal) (hdone : goal.CompletedAt ≠ none)
    (calls : List RecomputeCall) (c : Conn) :
    OnlyProgressChanged c.db (runRecomputations goal calls c).db := by
  unfold runRecomputations
  induction calls generalizing c with
  | nil => exact onlyProgressChanged_refl _
  | cons call rest ih =>
    rw [List.foldl_cons]
    refine onlyProgressChanged_trans ?_ (ih _)
    cases call with
    | batch now userID => exact updateUserGoalProgress_completed now goal userID c hdone
    | incremental now userID pointsEarned =>
      exact UpdateGoalProgressForUser_frame now userID goal.CircleID pointsEarned c

/-- C12. Idempotent completion, bonus part. For a goal whose `completedAt` is
non-null, any number of recomputations for that goal (batch
`updateUserGoalProgress` for any user, incremental `UpdateGoalProgressForUser`
after any grant), whatever the storage faults, leave every balance row, the
point-event log and the goal table as they were: no bonus is awarded again.  The
same holds for a whole batch pass `UpdateGoalProgress` over a circle all of whose
active goals are completed. -/
theorem completed_goal_never_rewarded (goal : Goal) (hdone : goal.CompletedAt ≠ none)
    (calls : List RecomputeCall) (c : Conn) :
    ((runRecomputations goal calls c).db.userCircles = c.db.userCircles ∧
      (runRecomputations goal calls c).db.pointsHistories = c.db.pointsHistories ∧
      (runRecomputations goal calls c).db.goals = c.db.goals ∧
      ∀ u g : Int, balance (runRecomputations goal calls c).db u g = balance c.db u g) ∧
    ∀ (now : Time) (circleID : Int),
      (∀ g ∈ activeGoalsOf c.db circleID, g.CompletedAt ≠ none) →
      (UpdateGoalProgress now circleID c).2.db.userCircles = c.db.userCircles ∧
      (UpdateGoalProgress now circleID c).2.db.pointsHistories = c.db.pointsHistories ∧
      (UpdateGoalProgress now circleID c).2.db.goals = c.db.goals := by
  have h := runRecomputations_frame goal hdone calls c
  refine ⟨⟨h.1, h.2.1, h.2.2.1, fun u g => balance_congr h.1 u g⟩, fun now circleID hall => ?_⟩
  have h2 := UpdateGoalProgress_rel OnlyProgressChanged onlyProgressChanged_refl
    (fun _ _ _ h1 h2 => onlyProgressChanged_trans h1 h2) now circleID c
    (fun g hg u tx => updateUserGoalProgress_completed now g u tx (hall g hg))
  exact ⟨h2.1, h2.2.1, h2.2.2.1⟩

/-- Witness of C12: after the completion of the scenario goal (balance 130, three
events), two batch runs and an incremental run leave the balance at 130 and the
log at three events. -/
theorem completed_goal_never_rewarded_witness :
    exCompletedGoal ∈ exBatchSecond.db.goals ∧ exCompletedGoal.CompletedAt ≠ none ∧
    balance (runRecomputations exCompletedGoal exRecomputeCalls exBatchSecond).db 1 1 = 130 ∧
    (runRecomputations exCompletedGoal exRecomputeCalls exBatchSecond).db.pointsHistories.length =
      3 :=
  have h := (completed_goal_never_rewarded exCompletedGoal (by decide) exRecomputeCalls
    exBatchSecond).1
  ⟨by decide, by decide, (h.2.2.2 1 1).trans (by decide),
    (congrArg List.length h.2.1).trans (by decide)⟩

/-! ## The recorded completion time -/

/-- C13. Idempotent completion, `completedAt` part: the code departs from it on
both paths.  Batch: after the pass at instant 4 recorded the completion of the
scenario goal for user 1 (row and goal `completedAt = 4`), the next pass, at
instant 5, writes the row again with `completedAt` null.  Incremental: the run at
instant 3 records the completion in the row (`completedAt = 3`) and the run after
the next grant, at instant 8, overwrites it with 8. -/
theorem completed_at_not_kept :
    ((findGoalProgress exBatchSecond.db 1 1).map fun r => r.CompletedAt) = some (some 4) ∧
    (exBatchSecond.db.goals.map fun g => g.CompletedAt) = [some 4] ∧
    exBatchThird = (UpdateGoalProgress 5 1 exBatchSecond).2 ∧
    ((findGoalProgress exBatchThird.db 1 1).map fun r => r.CompletedAt) = some none ∧
    (exBatchThird.db.goals.map fun g => g.CompletedAt) = [some 4] ∧
    ((findGoalProgress exIncrSecond.db 1 1).map fun r => r.CompletedAt) = some (some 3) ∧
    exIncrThird =
      (UpdateGoalProgressForUser 8 1 1 5 (AwardPoints 8 1 1 5 9 exIncrSecond).2).2 ∧
    ((findGoalProgress exIncrThird.db 1 1).map fun r => r.CompletedAt) = some (some 8) := by
  refine ⟨by decide, by decide, rfl, by decide, by decide, by decide, rfl, by decide⟩

/-! ## The incremental completion -/

theorem updateGoalProgressForGoal_nofault (now : Time) (userID pointsEarned : Int) (goal : Goal)
    (db : DB) :
    updateGoalProgressForGoal now userID pointsEarned goal { db := db, faults := [] } =
      { db := updateGoalProgressForGoalTables now userID pointsEarned goal db, faults := [] } := by
  rcases goal with ⟨id, name, tp, cid, uid, cb, ia, sd, ed, rp, ca, cra, ua⟩
  unfold updateGoalProgressForGoal updateGoalProgressForGoalTables goalAppliesNow
  simp only
  by_cases h1 : uid ≠ none ∧ uid ≠ some userID
  · have : ¬ (uid = none ∨ uid = some userID) := by tauto
    simp [h1, this]
  · have h1' : uid = none ∨ uid = some userID := by tauto
    rw [if_neg h1]
    by_cases h2 : ca ≠ none
    · simp [h2]
    · have h2' : ca = none := not_not.1 h2
      rw [if_neg h2]
      cases sd with
      | none =>
        cases ed with
        | none =>
          simp [h1', h2', GetGoalProgress, query_nofault, UpsertGoalProgress, exec, incrementalRow]
        | some e =>
          by_cases hle : e < now
          · have : ¬ now ≤ e := not_le.2 hle
            simp [h1', h2', hle, this]
          · have : now ≤ e := not_lt.1 hle
            simp [h1', h2', hle, this, GetGoalProgress, query_nofault, UpsertGoalProgress, exec,
              incrementalRow]
      | some s =>
        by_cases hls : now < s
        · have : ¬ s ≤ now := not_le.2 hls
          simp [h1', h2', hls, this]
        · have hs' : s ≤ now := not_lt.1 hls
          cases ed with
          | none =>
            simp [h1', h2', hls, hs', GetGoalProgress, query_nofault, UpsertGoalProgress, exec,
              incrementalRow]
          | some e =>
            by_cases hle : e < now
            · have : ¬ now ≤ e := not_le.2 hle
              simp [h1', h2', hls, hs', hle, this]
            · have : now ≤ e := not_lt.1 hle
              simp [h1', h2', hls, hs', hle, this, GetGoalProgress, query_nofault,
                UpsertGoalProgress, exec, incrementalRow]

theorem find_map_replace_other (p : GoalProgress) (l : List GoalProgress) (gid uid : Int)
    (h : ¬ (p.GoalID = gid ∧ p.UserID = uid)) :
    (l.map fun r => if r.GoalID = p.GoalID ∧ r.UserID = p.UserID then p else r).find?
        (fun r => decide (r.GoalID = gid) && decide (r.UserID = uid)) =
      l.find? (fun r => decide (r.GoalID = gid) && decide (r.UserID = uid)) := by
  induction l with
  | nil => rfl
  | cons r rest ih =>
    rw [List.map_cons, List.find?_cons, List.find?_cons, ih]
    by_cases hr : r.GoalID = p.GoalID ∧ r.UserID = p.UserID
    · have hp : (decide (p.GoalID = gid) && decide (p.UserID = uid)) = false := by
        simpa using h
      have hr2 : (decide (r.GoalID = gid) && decide (r.UserID = uid)) = false := by
        rw [hr.1, hr.2]; exact hp
      rw [if_pos hr, hp, hr2]
    · rw [if_neg hr]

/-- Saving a row leaves the row of every other pair as it is. -/
theorem findGoalProgress_save_other (p : GoalProgress) (db : DB) (gid uid : Int)
    (h : ¬ (p.GoalID = gid ∧ p.UserID = uid)) :
    findGoalProgress (saveGoalProgress p db) gid uid = findGoalProgress db gid uid := by
  unfold findGoalProgress saveGoalProgress
  split
  · exact find_map_replace_other p db.goalProgresses gid uid h
  · have hp : (decide (p.GoalID = gid) && decide (p.UserID = uid)) = false := by
      simpa using h
    simp only [List.find?_append, List.find?_cons, hp, List.find?_nil, Option.or_none]

theorem updateGoalProgressForGoalTables_other (now : Time) (userID pointsEarned : Int)
    (goal : Goal) (db : DB) (gid uid : Int) (h : goal.ID ≠ gid) :
    findGoalProgress (updateGoalProgressForGoalTables now userID pointsEarned goal db) gid uid =
      findGoalProgress db gid uid := by
  unfold updateGoalProgressForGoalTables
  split
  · exact findGoalProgress_save_other _ db gid uid (fun hk => h hk.1)
  · rfl

theorem updateGoalProgressForGoalTables_same (now : Time) (userID pointsEarned : Int)
    (goal : Goal) (db : DB) (happ : goalAppliesNow now userID goal) :
    findGoalProgress (updateGoalProgressForGoalTables now userID pointsEarned goal db)
        goal.ID userID =
      some (incrementalRow now userID pointsEarned goal (findGoalProgress db goal.ID userID)) := by
  unfold updateGoalProgressForGoalTables
  rw [if_pos happ]
  exact findGoalProgress_save
    (incrementalRow now userID pointsEarned goal (findGoalProgress db goal.ID userID)) db

theorem foldl_incremental_nofault (now : Time) (userID pointsEarned : Int) (goals : List Goal)
    (db : DB) :
    goals.foldl (fun conn goal => updateGoalProgressForGoal now userID pointsEarned goal conn)
        { db := db, faults := [] } =
      { db := goals.foldl
          (fun d goal => updateGoalProgressForGoalTables now userID pointsEarned goal d) db,
        faults := [] } := by
  induction goals generalizing db with
  | nil => rfl
  | cons goal rest ih =>
    rw [List.foldl_cons, List.foldl_cons, updateGoalProgressForGoal_nofault, ih]

theorem foldl_incremental_other (now : Time) (userID pointsEarned : Int) (gid uid : Int)
    (goals : List Goal) (hgoals : ∀ goal ∈ goals, goal.ID ≠ gid) (db : DB) :
    findGoalProgress
        (goals.foldl
          (fun d goal => updateGoalProgressForGoalTables now userID pointsEarned goal d) db)
        gid uid =
      findGoalProgress db gid uid := by
  induction goals generalizing db with
  | nil => rfl
  | cons goal rest ih =>
    rw [List.foldl_cons, ih (fun g hg => hgoals g (List.mem_cons_of_mem _ hg)),
      updateGoalProgressForGoalTables_other _ _ _ _ _ _ _ (hgoals goal (List.mem_cons_self _ _))]

theorem foldl_incremental_once (now : Time) (userID pointsEarned : Int) (goal : Goal)
    (happ : goalAppliesNow now userID goal) (goals : List Goal)
    (hgoals : goals.filter (fun g => decide (g.ID = goal.ID)) = [goal]) (db : DB) :
    findGoalProgress
        (goals.foldl
          (fun d g => updateGoalProgressForGoalTables now userID pointsEarned g d) db)
        goal.ID userID =
      some (incrementalRow now userID pointsEarned goal (findGoalProgress db goal.ID userID)) := by
  induction goals generalizing db with
  | nil => simp at hgoals
  | cons g rest ih =>
    rw [List.foldl_cons]
    by_cases hg : g.ID = goal.ID
    · rw [List.filter_cons, if_pos (by simpa using hg)] at hgoals
      have hgg : g = goal := (List.cons.inj hgoals).1
      have hrest : rest.filter (fun g => decide (g.ID = goal.ID)) = [] := (List.cons.inj hgoals).2
      subst hgg
      rw [foldl_incremental_other now userID pointsEarned g.ID userID rest
        (fun x hx hid => by
          have : x ∈ rest.filter (fun g' => decide (g'.ID = g.ID)) :=
            List.mem_filter.2 ⟨hx, by simpa using hid⟩
          rw [hrest] at this
          simp at this)]
      exact updateGoalProgressForGoalTables_same now userID pointsEarned g db happ
    · rw [List.filter_cons, if_neg (by simpa using hg)] at hgoals
      rw [ih hgoals, updateGoalProgressForGoalTables_other _ _ _ _ _ _ _ hg]

/-- The goals `GetGoalsByCircle` returns for a user hold a goal of the circle
that applies to the user exactly as often as the goal table does. -/
theorem goalsByCircle_filter (db : DB) (circleID userID : Int) (goal : Goal)
    (hcircle : goal.CircleID = circleID) (hactive : goal.IsActive = true)
    (huser : goal.UserID = none ∨ goal.UserID = some userID)
    (huniq : db.goals.filter (fun g => decide (g.ID = goal.ID)) = [goal]) :
    ((db.goals.filter fun g =>
        decide (g.CircleID = circleID) && g.IsActive &&
          decide (g.UserID = none ∨ g.UserID = some userID)).insertionSort goalQueryOrder).filter
      (fun g => decide (g.ID = goal.ID)) = [goal] := by
  apply List.perm_singleton.1
  refine ((List.perm_insertionSort goalQueryOrder _).filter _).trans ?_
  rw [List.filter_filter]
  have : (db.goals.filter fun a => decide (a.ID = goal.ID) &&
      (decide (a.CircleID = circleID) && a.IsActive &&
        decide (a.UserID = none ∨ a.UserID = some userID))) =
      (db.goals.filter (fun g => decide (g.ID = goal.ID))).filter fun g =>
        decide (g.CircleID = circleID) && g.IsActive &&
          decide (g.UserID = none ∨ g.UserID = some userID) := by
    rw [List.filter_filter]
    congr 1
    funext a
    exact Bool.and_comm _ _
  rw [this, huniq]
  simp [hcircle, hactive, huser]

theorem UpdateGoalProgressForUser_nofault_row (now : Time) (userID circleID pointsEarned : Int)
    (db : DB) (goal : Goal) (hcircle : goal.CircleID = circleID) (hactive : goal.IsActive = true)
    (happ : goalAppliesNow now userID goal)
    (huniq : db.goals.filter (fun g => decide (g.ID = goal.ID)) = [goal]) :
    (UpdateGoalProgressForUser now userID circleID pointsEarned { db := db, faults := [] }).1 =
        none ∧
      (UpdateGoalProgressForUser now userID circleID pointsEarned
        { db := db, faults := [] }).2.faults = [] ∧
      findGoalProgress
          (UpdateGoalProgressForUser now userID circleID pointsEarned
            { db := db, faults := [] }).2.db goal.ID userID =
        some (incrementalRow now userID pointsEarned goal (findGoalProgress db goal.ID userID)) := by
  unfold UpdateGoalProgressForUser GetGoalsByCircle
  rw [query_nofault]
  simp only
  rw [foldl_incremental_nofault]
  refine ⟨trivial, rfl, ?_⟩
  exact foldl_incremental_once now userID pointsEarned goal happ _
    (goalsByCircle_filter db circleID userID goal hcircle hactive happ.1 huniq) db

/-- Counterexample to C14: in the incremental scenario the second run brings
`currentPoints` to 110 (target 100, bonus 20) for the goal whose `completedAt` is
null; afterwards the row's `completedAt` is set, but the goal's `completedAt` is
still null, the balance is 110 and the log holds the two awards only. -/
theorem incremental_completion_awards_nothing :
    exIncrSecond =
      (UpdateGoalProgressForUser 3 1 1 60 (AwardPoints 3 1 1 60 9 exIncrFirst).2).2 ∧
    ((findGoalProgress exIncrFirst.db 1 1).map fun r => (r.CurrentPoints, r.CompletedAt)) =
      some (50, none) ∧
    ((findGoalProgress exIncrSecond.db 1 1).map fun r => (r.CurrentPoints, r.CompletedAt)) =
      some (110, some 3) ∧
    (exIncrSecond.db.goals.map fun g => (g.TargetPoints, g.RewardPoints, g.CompletedAt)) =
      [(100, some 20, none)] ∧
    balance (AwardPoints 3 1 1 60 9 exIncrFirst).2.db 1 1 = 110 ∧
    balance exIncrSecond.db 1 1 = 110 ∧
    (exIncrSecond.db.pointsHistories.map fun h => h.Points) = [50, 60] := by
  refine ⟨rfl, by decide, by decide, by decide, by decide, by decide, by decide⟩

/-- C14, amended. `UpdateGoalProgressForUser` records a completion in the progress
row only.  Whatever the storage faults, the call leaves every balance row and the
point-event log as they were: it awards no bonus.  When no statement fails, for an
active goal of the circle that is the only one with its id, is the user's own or
circle-wide, has a null `completedAt` and whose window holds `now`, the call
returns `nil` and writes the row with `currentPoints` = stored `currentPoints` +
the amount just granted (the amount alone when there was no row), whose
`completedAt` is `now` when that reaches `targetPoints` and null otherwise. -/
theorem incremental_completion_row_only (now : Time) (userID circleID pointsEarned : Int)
    (db : DB) (goal : Goal) (hcircle : goal.CircleID = circleID) (hactive : goal.IsActive = true)
    (happ : goalAppliesNow now userID goal)
    (huniq : db.goals.filter (fun g => decide (g.ID = goal.ID)) = [goal]) :
    (∀ c : Conn,
      (UpdateGoalProgressForUser now userID circleID pointsEarned c).2.db.userCircles =
          c.db.userCircles ∧
        (UpdateGoalProgressForUser now userID circleID pointsEarned c).2.db.pointsHistories =
          c.db.pointsHistories ∧
        ∀ u g : Int,
          balance (UpdateGoalProgressForUser now userID circleID pointsEarned c).2.db u g =
            balance c.db u g) ∧
    (UpdateGoalProgressForUser now userID circleID pointsEarned { db := db, faults := [] }).1 =
      none ∧
    ∃ row : GoalProgress,
      findGoalProgress
          (UpdateGoalProgressForUser now userID circleID pointsEarned
            { db := db, faults := [] }).2.db goal.ID userID = some row ∧
        row.CurrentPoints =
          (match findGoalProgress db goal.ID userID with
            | some stored => wrapInt64 (pointsEarned + stored.CurrentPoints)
            | none => pointsEarned) ∧
        row.Progress = progressPercent row.CurrentPoints goal.TargetPoints ∧
        (goal.TargetPoints ≤ row.CurrentPoints → row.CompletedAt = some now) ∧
        (row.CurrentPoints < goal.TargetPoints → row.CompletedAt = none) := by
  refine ⟨fun c => ?_, ?_, ?_⟩
  · have h := UpdateGoalProgressForUser_frame now userID circleID pointsEarned c
    exact ⟨h.1, h.2.1, fun u g => balance_congr h.1 u g⟩
  · exact (UpdateGoalProgressForUser_nofault_row now userID circleID pointsEarned db goal hcircle
      hactive happ huniq).1
  · refine ⟨_, (UpdateGoalProgressForUser_nofault_row now userID circleID pointsEarned db goal
      hcircle hactive happ huniq).2.2, rfl, rfl, ?_, ?_⟩
    · intro h
      unfold incrementalRow at h ⊢
      simp only at h ⊢
      rw [if_pos h]
    · intro h
      unfold incrementalRow at h ⊢
      simp only at h ⊢
      rw [if_neg (not_le.2 h)]

/-- Witness of C14: the second run of the incremental scenario (stored 50, 60
just granted, target 100). -/
theorem incremental_completion_row_only_witness :
    goalAppliesNow 3 1 exScenarioGoal ∧
    (UpdateGoalProgressForUser 3 1 1 60
      { db := (AwardPoints 3 1 1 60 9 exIncrFirst).2.db, faults := [] }).1 = none ∧
    ∃ row : GoalProgress,
      findGoalProgress
          (UpdateGoalProgressForUser 3 1 1 60
            { db := (AwardPoints 3 1 1 60 9 exIncrFirst).2.db, faults := [] }).2.db
          exScenarioGoal.ID 1 = some row ∧
        row.CurrentPoints = 110 ∧ row.CompletedAt = some 3 :=
  have h := incremental_completion_row_only 3 1 1 60 (AwardPoints 3 1 1 60 9 exIncrFirst).2.db
    exScenarioGoal rfl rfl (by decide) (by decide)
  ⟨by decide, h.2.1,
    h.2.2.elim fun row hrow =>
      ⟨row, hrow.1, hrow.2.1.trans (by decide),
        hrow.2.2.2.1 (by rw [hrow.2.1]; decide)⟩⟩

/-! ## The end-to-end scenario -/

/-- Counterexample to C15: in the batch scenario the recomputation that follows
the completion changes `currentPoints` from 110 to 130; in the incremental
scenario the balance after the two awards and recomputations is 110 and the log
holds no bonus event. -/
theorem scenario_not_as_stated :
    exBatchThird = (UpdateGoalProgress 5 1 exBatchSecond).2 ∧
    ((findGoalProgress exBatchSecond.db 1 1).map fun r => r.CurrentPoints) = some 110 ∧
    ((findGoalProgress exBatchThird.db 1 1).map fun r => r.CurrentPoints) = some 130 ∧
    balance exIncrSecond.db 1 1 = 110 ∧
    (exIncrSecond.db.pointsHistories.map fun h => h.Points) = [50, 60] := by
  refine ⟨rfl, by decide, by decide, by decide, by decide⟩

/-- C15, amended. The scenario (balance 0, goal without window, target 100, bonus
20, Award(50) then Award(60), a recomputation after each).  With the batch
recomputation: after the second one the row has `currentPoints = 110`,
`progress = 100` and `completedAt` set, the goal's `completedAt` is set, the
balance is 130 and the log holds the two awards and one bonus event of 20; one
more recomputation leaves the balance, the log and the goal's `completedAt` as
they are and counts the bonus event in `currentPoints`, which becomes 130, with
`progress = 100`.  With the incremental recomputation: after the second one the
row has `currentPoints = 110`, `progress = 100` and `completedAt` set, and the
balance is 110, the log holding the two awards only. -/
theorem scenario_as_computed :
    balance exScenarioDB 1 1 = 0 ∧
    ((findGoalProgress exBatchSecond.db 1 1).map fun r => (r.CurrentPoints, r.CompletedAt)) =
      some (110, some 4) ∧
    ((findGoalProgress exBatchSecond.db 1 1).map fun r => r.Progress) = some (F64.fin 100) ∧
    (exBatchSecond.db.goals.map fun g => g.CompletedAt) = [some 4] ∧
    balance exBatchSecond.db 1 1 = 130 ∧
    (exBatchSecond.db.pointsHistories.map fun h => (h.Action, h.UserID, h.Points)) =
      [(PointsHistoryAction.Add, 1, 50), (PointsHistoryAction.Add, 1, 60),
       (PointsHistoryAction.Add, 1, 20)] ∧
    balance exBatchThird.db 1 1 = 130 ∧
    exBatchThird.db.pointsHistories = exBatchSecond.db.pointsHistories ∧
    exBatchThird.db.goals = exBatchSecond.db.goals ∧
    ((findGoalProgress exBatchThird.db 1 1).map fun r => r.CurrentPoints) = some 130 ∧
    ((findGoalProgress exBatchThird.db 1 1).map fun r => r.Progress) = some (F64.fin 100) ∧
    ((findGoalProgress exIncrSecond.db 1 1).map fun r => (r.CurrentPoints, r.CompletedAt)) =
      some (110, some 3) ∧
    ((findGoalProgress exIncrSecond.db 1 1).map fun r => r.Progress) = some (F64.fin 100) ∧
    balance exIncrSecond.db 1 1 = 110 ∧
    (exIncrSecond.db.pointsHistories.map fun h => (h.Action, h.UserID, h.Points)) =
      [(PointsHistoryAction.Add, 1, 50), (PointsHistoryAction.Add, 1, 60)] := by
  have hfull : ∀ cur : Int, 100 ≤ cur → progressPercent cur 100 = F64.fin 100 := by
    intro cur hcur
    obtain ⟨q, hq, _, _, h100⟩ := progressPercent_clamp cur 100 (by norm_num) (by omega)
    rw [hq, h100 hcur]
  have h110 := hfull 110 (by norm_num)
  have h130 := hfull 130 (by norm_num)
  have e1 : ((findGoalProgress exBatchSecond.db 1 1).map fun r => r.Progress) =
      some (progressPercent 110 100) := rfl
  have e2 : ((findGoalProgress exBatchThird.db 1 1).map fun r => r.Progress) =
      some (progressPercent 130 100) := rfl
  have e3 : ((findGoalProgress exIncrSecond.db 1 1).map fun r => r.Progress) =
      some (progressPercent 110 100) := rfl
  refine ⟨by decide, by decide, e1.trans (by rw [h110]), by decide, by decide, by decide,
    by decide, by decide, by decide, by decide, e2.trans (by rw [h130]), by decide,
    e3.trans (by rw [h110]), by decide, by decide⟩

/-! ## The two paths on the same grants -/

theorem AwardPoints_nofault_conn (now : Time) (u g p by_ : Int) (db : DB) :
    (AwardPoints now u g p by_ { db := db, faults := [] }).2 =
      { db := awardTables now u g p by_ db, faults := [] } := rfl

theorem wrapInt64_of_fit (x : Int) (h1 : -2 ^ 63 ≤ x) (h2 : x < 2 ^ 63) : wrapInt64 x = x := by
  unfold wrapInt64
  norm_num at h1 h2 ⊢
  omega

/-- A grant inside the window adds its amount to the window sum. -/
theorem goalWindowPoints_award (goal : Goal) (userID : Int) (t : Time) (p by_ : Int) (db : DB)
    (hwin : windowHolds goal t) :
    goalWindowPoints goal userID (awardTables t userID goal.CircleID p by_ db) =
      goalWindowPoints goal userID db + p := by
  have hb : inGoalWindow goal userID
      { Action := PointsHistoryAction.Add, Points := p, CreatedAt := t, CreatedBy := by_,
        UserID := userID, CircleID := goal.CircleID } = true :=
    (inGoalWindow_iff goal userID _).2 ⟨rfl, rfl, rfl, hwin.1, hwin.2⟩
  unfold goalWindowPoints awardTables insertPointsHistory updateUserCirclePoints
  simp only [List.filter_append, List.filter_cons, hb, if_true, List.filter_nil, List.map_append,
    List.map_cons, List.map_nil, List.sum_append, List.sum_cons, List.sum_nil, add_zero]

theorem storedPoints_of_find {db : DB} {gid uid : Int} {row : GoalProgress}
    (h : findGoalProgress db gid uid = some row) : storedPoints db gid uid = row.CurrentPoints := by
  unfold storedPoints
  rw [h]

/-- The row the incremental path writes, when the addition does not overflow. -/
theorem incrementalRow_points (now : Time) (userID p : Int) (goal : Goal) (db : DB)
    (h1 : -2 ^ 63 ≤ storedPoints db goal.ID userID + p)
    (h2 : storedPoints db goal.ID userID + p < 2 ^ 63) :
    (incrementalRow now userID p goal (findGoalProgress db goal.ID userID)).CurrentPoints =
      storedPoints db goal.ID userID + p := by
  unfold incrementalRow storedPoints at *
  cases hf : findGoalProgress db goal.ID userID with
  | none => simp
  | some r =>
    rw [hf] at h1 h2
    simp only at h1 h2 ⊢
    rw [wrapInt64_of_fit _ (by rw [add_comm]; exact h1) (by rw [add_comm]; exact h2), add_comm]

theorem totalsFit_head {start : Int} {grant : GrantCall} {rest : List GrantCall}
    (h : totalsFit start (grant :: rest)) :
    -2 ^ 63 ≤ start + grant.points ∧ start + grant.points < 2 ^ 63 := by
  have := h 1
  simpa using this

theorem totalsFit_tail {start : Int} {grant : GrantCall} {rest : List GrantCall}
    (h : totalsFit start (grant :: rest)) : totalsFit (start + grant.points) rest := by
  intro k
  have := h (k + 1)
  simp only [List.take_succ_cons, List.map_cons, List.sum_cons] at this
  rw [add_assoc]
  exact this

/-- One grant followed by the incremental recomputation, next to the grant
alone: the ledgers stay equal and the stored `currentPoints` follows the window
sum. -/
theorem awardAndRecompute_step (goal : Goal) (userID by_ : Int) (grant : GrantCall)
    (dbI dbL : DB) (hactive : goal.IsActive = true)
    (happ : goalAppliesNow grant.recomputedAt userID goal)
    (hwin : windowHolds goal grant.awardedAt)
    (huniq : dbI.goals.filter (fun g => decide (g.ID = goal.ID)) = [goal])
    (hcircles : dbI.userCircles = dbL.userCircles)
    (hevents : dbI.pointsHistories = dbL.pointsHistories)
    (hstart : storedPoints dbI goal.ID userID = goalWindowPoints goal userID dbL)
    (h1 : -2 ^ 63 ≤ goalWindowPoints goal userID dbL + grant.points)
    (h2 : goalWindowPoints goal userID dbL + grant.points < 2 ^ 63) :
    ∃ dbI' : DB,
      (UpdateGoalProgressForUser grant.recomputedAt userID goal.CircleID grant.points
          (AwardPoints grant.awardedAt userID goal.CircleID grant.points by_
            { db := dbI, faults := [] }).2).2 = { db := dbI', faults := [] } ∧
        dbI'.goals = dbI.goals ∧
        dbI'.userCircles =
          (awardTables grant.awardedAt userID goal.CircleID grant.points by_ dbL).userCircles ∧
        dbI'.pointsHistories =
          (awardTables grant.awardedAt userID goal.CircleID grant.points by_ dbL).pointsHistories ∧
        storedPoints dbI' goal.ID userID =
          goalWindowPoints goal userID
            (awardTables grant.awardedAt userID goal.CircleID grant.points by_ dbL) ∧
        ∃ row : GoalProgress, findGoalProgress dbI' goal.ID userID = some row ∧
          row.Progress = progressPercent row.CurrentPoints goal.TargetPoints ∧
          (goal.TargetPoints ≤ row.CurrentPoints → row.CompletedAt = some grant.recomputedAt) ∧
          (row.CurrentPoints < goal.TargetPoints → row.CompletedAt = none) := by
  rw [AwardPoints_nofault_conn]
  have huniq1 : (awardTables grant.awardedAt userID goal.CircleID grant.points by_ dbI).goals.filter
      (fun g => decide (g.ID = goal.ID)) = [goal] := huniq
  obtain ⟨_, hfaults, hrow⟩ := UpdateGoalProgressForUser_nofault_row grant.recomputedAt userID
    goal.CircleID grant.points
    (awardTables grant.awardedAt userID goal.CircleID grant.points by_ dbI) goal rfl hactive happ
    huniq1
  have hframe := UpdateGoalProgressForUser_frame grant.recomputedAt userID goal.CircleID
    grant.points
    { db := awardTables grant.awardedAt userID goal.CircleID grant.points by_ dbI, faults := [] }
  rcases hX : (UpdateGoalProgressForUser grant.recomputedAt userID goal.CircleID grant.points
    { db := awardTables grant.awardedAt userID goal.CircleID grant.points by_ dbI,
      faults := [] }).2 with ⟨dbI', faults'⟩
  rw [hX] at hfaults hrow hframe
  simp only at hfaults hrow hframe
  subst hfaults
  have hfind : findGoalProgress
      (awardTables grant.awardedAt userID goal.CircleID grant.points by_ dbI) goal.ID userID =
      findGoalProgress dbI goal.ID userID := rfl
  have hstored : storedPoints
      (awardTables grant.awardedAt userID goal.CircleID grant.points by_ dbI) goal.ID userID =
      storedPoints dbI goal.ID userID := rfl
  have hpts := incrementalRow_points grant.recomputedAt userID grant.points goal
    (awardTables grant.awardedAt userID goal.CircleID grant.points by_ dbI)
    (by rw [hstored, hstart]; exact h1) (by rw [hstored, hstart]; exact h2)
  refine ⟨dbI', rfl, hframe.2.2.1, ?_, ?_, ?_, _, hrow, rfl, ?_, ?_⟩
  · rw [hframe.1]
    unfold awardTables insertPointsHistory updateUserCirclePoints
    simp only [hcircles]
  · rw [hframe.2.1]
    unfold awardTables insertPointsHistory updateUserCirclePoints
    simp only [hevents]
  · rw [storedPoints_of_find hrow, hpts, hstored, hstart, goalWindowPoints_award _ _ _ _ _ _ hwin]
  · intro h
    unfold incrementalRow at h ⊢
    simp only at h ⊢
    rw [if_pos h]
  · intro h
    unfold incrementalRow at h ⊢
    simp only at h ⊢
    rw [if_neg (not_le.2 h)]

/-- The grants with the incremental recomputation after each, next to the grants
alone. -/
theorem awardAndRecompute_ledger (goal : Goal) (userID by_ : Int) (hactive : goal.IsActive = true)
    (grants : List GrantCall)
    (hgrants : ∀ grant ∈ grants,
      goalAppliesNow grant.recomputedAt userID goal ∧ windowHolds goal grant.awardedAt)
    (dbI dbL : DB)
    (huniq : dbI.goals.filter (fun g => decide (g.ID = goal.ID)) = [goal])
    (hcircles : dbI.userCircles = dbL.userCircles)
    (hevents : dbI.pointsHistories = dbL.pointsHistories)
    (hstart : storedPoints dbI goal.ID userID = goalWindowPoints goal userID dbL)
    (hfit : totalsFit (goalWindowPoints goal userID dbL) grants) :
    ∃ dbI' dbL' : DB,
      awardAndRecompute userID goal.CircleID by_ grants { db := dbI, faults := [] } =
          { db := dbI', faults := [] } ∧
        awardOnly userID goal.CircleID by_ grants { db := dbL, faults := [] } =
          { db := dbL', faults := [] } ∧
        dbI'.userCircles = dbL'.userCircles ∧ dbI'.pointsHistories = dbL'.pointsHistories ∧
        storedPoints dbI' goal.ID userID = goalWindowPoints goal userID dbL' ∧
        goalWindowPoints goal userID dbL' =
          goalWindowPoints goal userID dbL + (grants.map fun grant => grant.points).sum ∧
        (grants ≠ [] →
          ∃ row : GoalProgress, findGoalProgress dbI' goal.ID userID = some row ∧
            row.Progress = progressPercent row.CurrentPoints goal.TargetPoints ∧
            (goal.TargetPoints ≤ row.CurrentPoints → row.CompletedAt ≠ none) ∧
            (row.CurrentPoints < goal.TargetPoints → row.CompletedAt = none)) := by
  induction grants generalizing dbI dbL with
  | nil =>
    exact ⟨dbI, dbL, rfl, rfl, hcircles, hevents, hstart, by simp, fun h => absurd rfl h⟩
  | cons grant rest ih =>
    have hg := hgrants grant (List.mem_cons_self _ _)
    have hf := totalsFit_head hfit
    obtain ⟨dbI1, hstep, hgoals, hc1, he1, hs1, row1, hrow1, hprog1, hdone1, hnot1⟩ :=
      awardAndRecompute_step goal userID by_ grant dbI dbL hactive hg.1 hg.2 huniq hcircles
        hevents hstart hf.1 hf.2
    have hsum1 := goalWindowPoints_award goal userID grant.awardedAt grant.points by_ dbL hg.2
    have hfit1 : totalsFit
        (goalWindowPoints goal userID
          (awardTables grant.awardedAt userID goal.CircleID grant.points by_ dbL)) rest := by
      rw [hsum1]; exact totalsFit_tail hfit
    obtain ⟨dbI', dbL', hI, hL, hc, he, hs, hsum, hrow⟩ :=
      ih (fun g hgm => hgrants g (List.mem_cons_of_mem _ hgm)) dbI1
        (awardTables grant.awardedAt userID goal.CircleID grant.points by_ dbL)
        (by rw [hgoals]; exact huniq) hc1 he1 hs1 hfit1
    refine ⟨dbI', dbL', ?_, ?_, hc, he, hs, ?_, fun _ => ?_⟩
    · unfold awardAndRecompute at hI ⊢
      rw [List.foldl_cons, hstep]
      exact hI
    · unfold awardOnly at hL ⊢
      rw [List.foldl_cons, AwardPoints_nofault_conn]
      exact hL
    · rw [hsum, hsum1, List.map_cons, List.sum_cons, add_assoc]
    · by_cases hrest : rest = []
      · subst hrest
        have hII : dbI' = dbI1 := by
          have := hI
          unfold awardAndRecompute at this
          rw [List.foldl_nil] at this
          exact (congrArg Conn.db this).symm
        rw [hII]
        exact ⟨row1, hrow1, hprog1, fun h => by rw [hdone1 h]; exact Option.some_ne_none _,
          hnot1⟩
      · exact hrow hrest

theorem awardOnly_hasBalanceRow (userID circleID by_ : Int) (grants : List GrantCall) (db : DB)
    (u g : Int) :
    hasBalanceRow (awardOnly userID circleID by_ grants { db := db, faults := [] }).db u g ↔
      hasBalanceRow db u g := by
  unfold awardOnly
  induction grants generalizing db with
  | nil => exact Iff.rfl
  | cons grant rest ih =>
    rw [List.foldl_cons, AwardPoints_nofault_conn, ih]
    unfold awardTables
    rw [hasBalanceRow_insertPointsHistory, hasBalanceRow_update]

/-- The row the batch recomputation writes when no statement fails. -/
theorem updateUserGoalProgressTables_row (now : Time) (goal : Goal) (userID : Int) (db : DB) :
    findGoalProgress (updateUserGoalProgressTables now goal userID db) goal.ID userID =
      some
        { GoalID := goal.ID, UserID := userID,
          CurrentPoints := goalWindowPoints goal userID db,
          Progress := progressPercent (goalWindowPoints goal userID db) goal.TargetPoints,
          CompletedAt :=
            if goal.TargetPoints ≤ goalWindowPoints goal userID db ∧ goal.CompletedAt = none
            then some now else none,
          UpdatedAt := now } := by
  unfold updateUserGoalProgressTables
  split
  · exact findGoalProgress_save _ _
  · exact findGoalProgress_save _ _

theorem updateUserGoalProgressTables_userCircles (now : Time) (goal : Goal) (userID : Int)
    (db : DB) :
    (updateUserGoalProgressTables now goal userID db).userCircles =
      if goal.TargetPoints ≤ goalWindowPoints goal userID db ∧ goal.CompletedAt = none then
        (goalBonusTables now goal userID db).userCircles
      else db.userCircles := by
  unfold updateUserGoalProgressTables
  split
  · rw [saveGoalProgress_userCircles]; rfl
  · rw [saveGoalProgress_userCircles]

theorem updateUserGoalProgressTables_balance (now : Time) (goal : Goal) (userID : Int)
    (db : DB) (u g : Int) :
    balance (updateUserGoalProgressTables now goal userID db) u g =
      if goal.TargetPoints ≤ goalWindowPoints goal userID db ∧ goal.CompletedAt = none then
        balance (goalBonusTables now goal userID db) u g
      else balance db u g := by
  have h := updateUserGoalProgressTables_userCircles now goal userID db
  split
  · rename_i hcond
    rw [if_pos hcond] at h
    exact balance_congr h u g
  · rename_i hcond
    rw [if_neg hcond] at h
    exact balance_congr h u g

theorem goalBonusTables_balance_same (now : Time) (goal : Goal) (userID r : Int) (db : DB)
    (hr : goal.RewardPoints = some r) (hpos : 0 < r)
    (hrow : hasBalanceRow db userID goal.CircleID) :
    balance (goalBonusTables now goal userID db) userID goal.CircleID =
      balance db userID goal.CircleID + r := by
  rw [goalBonusTables_pos db hr hpos, balance_insertPointsHistory,
    balance_update_same db userID goal.CircleID _ hrow]

theorem goalBonusTables_balance_other (now : Time) (goal : Goal) (userID : Int) (db : DB)
    (u g : Int) (h : ¬ (u = userID ∧ g = goal.CircleID)) :
    balance (goalBonusTables now goal userID db) u g = balance db u g := by
  unfold goalBonusTables
  cases goal.RewardPoints with
  | none => rfl
  | some r =>
    by_cases hpos : 0 < r
    · simp only [hpos, if_true]
      rw [balance_insertPointsHistory, balance_update_other db userID goal.CircleID u g _ h]
    · simp only [hpos, if_false]

/-! ## A circle-wide goal and its second member -/

/-- C17. A circle-wide goal does not apply independently to every member: once the
batch pass at instant 4 has recorded the completion of the scenario goal by
user 1, user 2 is granted 120 points (target 100) and the pass at instant 7
computes `currentPoints = 120` for user 2 but leaves the row's `completedAt` null
and awards no bonus: the balance of user 2 is 120 and the only bonus event of the
log is that of user 1. -/
theorem second_member_never_completes :
    ((findGoalProgress exBatchThird.db 1 1).map fun r => r.CurrentPoints) = some 130 ∧
    (exBatchThird.db.goals.map fun g => (g.UserID, g.CompletedAt)) = [(none, some 4)] ∧
    exBatchMemberB = (UpdateGoalProgress 7 1 (AwardPoints 6 2 1 120 9 exBatchThird).2).2 ∧
    ((findGoalProgress exBatchMemberB.db 1 2).map fun r => (r.CurrentPoints, r.CompletedAt)) =
      some (120, none) ∧
    exScenarioGoal.TargetPoints = 100 ∧ exScenarioGoal.RewardPoints = some 20 ∧
    balance exBatchMemberB.db 2 1 = 120 ∧
    (exBatchMemberB.db.pointsHistories.map fun h => (h.UserID, h.Points)) =
      [(1, 50), (1, 60), (1, 20), (2, 120)] := by
  refine ⟨by decide, by decide, rfl, by decide, by decide, by decide, by decide, by decide⟩

/-! ## The leaderboard -/

theorem numberRows_fst (rank : Int) (rows : List UserCircle) :
    (numberRows rank rows).map Prod.fst = rows := by
  induction rows generalizing rank with
  | nil => rfl
  | cons uc rest ih => simp [numberRows, ih]

theorem numberRows_length (rank : Int) (rows : List UserCircle) :
    (numberRows rank rows).length = rows.length := by
  induction rows generalizing rank with
  | nil => rfl
  | cons uc rest ih => simp [numberRows, ih]

theorem numberRows_rank_at (rank : Int) (rows : List UserCircle) (i : Nat) (p : UserCircle × Int)
    (h : (numberRows rank rows)[i]? = some p) : p.2 = rank + (i : Int) := by
  induction rows generalizing rank i with
  | nil => simp [numberRows] at h
  | cons uc rest ih =>
    cases i with
    | zero =>
      simp only [numberRows, List.getElem?_cons_zero, Option.some.injEq] at h
      subst h
      simp
    | succ k =>
      simp only [numberRows, List.getElem?_cons_succ] at h
      rw [ih (rank + 1) k h]
      push_cast
      ring

theorem mem_numberRows {rank : Int} {rows : List UserCircle} {p : UserCircle × Int}
    (h : p ∈ numberRows rank rows) :
    p.1 ∈ rows ∧ rank ≤ p.2 ∧ p.2 < rank + (rows.length : Int) := by
  induction rows generalizing rank with
  | nil => simp [numberRows] at h
  | cons uc rest ih =>
    simp only [numberRows, List.mem_cons] at h
    rcases h with h | h
    · subst h
      simp only [List.mem_cons, true_or, le_refl, List.length_cons, true_and]
      push_cast
      omega
    · obtain ⟨h1, h2, h3⟩ := ih h
      refine ⟨List.mem_cons_of_mem _ h1, by omega, ?_⟩
      simp only [List.length_cons]
      push_cast
      omega

/-- Along the numbering of a window ordered by points, ranks grow and points do
not. -/
theorem numberRows_pairwise (rank : Int) (rows : List UserCircle)
    (hrows : rows.Sorted fun a b => b.Points ≤ a.Points) :
    (numberRows rank rows).Pairwise fun a b => a.2 < b.2 ∧ b.1.Points ≤ a.1.Points := by
  induction rows generalizing rank with
  | nil => exact List.Pairwise.nil
  | cons uc rest ih =>
    have hcons := List.pairwise_cons.1 hrows
    simp only [numberRows]
    refine List.Pairwise.cons (fun p hp => ?_) (ih (rank + 1) hcons.2)
    obtain ⟨h1, h2, _⟩ := mem_numberRows hp
    exact ⟨by simp only; omega, hcons.1 p.1 h1⟩

/-- Two numbered rows: the one with more points has the smaller rank. -/
theorem numberRows_rank_of_points (rank : Int) (rows : List UserCircle)
    (hrows : rows.Sorted fun a b => b.Points ≤ a.Points) (p q : UserCircle × Int)
    (hp : p ∈ numberRows rank rows) (hq : q ∈ numberRows rank rows)
    (hlt : q.1.Points < p.1.Points) : p.2 < q.2 := by
  have hpw : (numberRows rank rows).Pairwise fun a b : UserCircle × Int =>
      (b.1.Points < a.1.Points → a.2 < b.2) ∧ (a.1.Points < b.1.Points → b.2 < a.2) :=
    (numberRows_pairwise rank rows hrows).imp fun {a b} h =>
      ⟨fun _ => h.1, fun hab => absurd h.2 (not_le.2 hab)⟩
  have hsymm : Symmetric fun a b : UserCircle × Int =>
      (b.1.Points < a.1.Points → a.2 < b.2) ∧ (a.1.Points < b.1.Points → b.2 < a.2) :=
    fun _ _ h => ⟨h.2, h.1⟩
  have hall := List.Pairwise.forall_of_forall hsymm
    (fun a _ => ⟨fun h => absurd h (lt_irrefl _), fun h => absurd h (lt_irrefl _)⟩) hpw hp hq
  exact hall.1 hlt

theorem numberRows_ranks_nodup (rank : Int) (rows : List UserCircle) :
    ((numberRows rank rows).map Prod.snd).Nodup := by
  induction rows generalizing rank with
  | nil => exact List.nodup_nil
  | cons uc rest ih =>
    simp only [numberRows, List.map_cons, List.nodup_cons]
    refine ⟨fun hmem => ?_, ih (rank + 1)⟩
    obtain ⟨p, hp, hp2⟩ := List.mem_map.1 hmem
    have := (mem_numberRows hp).2.1
    omega

/-- Two rearrangements of the same rows that agree on a column whose values are
pairwise distinct are the same list. -/
theorem perm_eq_of_map_eq {α β : Type} (f : α → β) :
    ∀ (l1 l2 : List α), l1.Perm l2 → (l2.map f).Nodup → l1.map f = l2.map f → l1 = l2
  | [], l2, hperm, _, _ => (List.Perm.nil_eq hperm)
  | a :: t, [], hperm, _, _ => absurd hperm.symm (List.not_perm_nil_cons _ _)
  | a :: t, b :: s, hperm, hnodup, hmap => by
    simp only [List.map_cons, List.cons.injEq] at hmap
    have ha : a ∈ b :: s := hperm.subset (List.mem_cons_self _ _)
    have hab : a = b :=
      List.inj_on_of_nodup_map hnodup ha (List.mem_cons_self _ _) hmap.1
    subst hab
    rw [perm_eq_of_map_eq f t s (List.Perm.cons_inv hperm) (List.nodup_cons.1 hnodup).2 hmap.2]

theorem sorted_ints_insertionSort (l : List Int) :
    (l.insertionSort fun a b => b ≤ a).Sorted fun a b => b ≤ a := by
  haveI : IsTotal Int (fun a b => b ≤ a) := ⟨fun a b => le_total _ _⟩
  haveI : IsTrans Int (fun a b => b ≤ a) := ⟨fun a b c hab hbc => le_trans hbc hab⟩
  exact List.sorted_insertionSort _ _

/-- A list of integers in non-increasing order is the sorted arrangement of any
rearrangement of it. -/
theorem eq_insertionSort_of_perm {l m : List Int} (hperm : l.Perm m)
    (hsorted : l.Sorted fun a b => b ≤ a) : l = m.insertionSort fun a b => b ≤ a := by
  haveI : IsAntisymm Int (fun a b => b ≤ a) := ⟨fun a b hab hba => le_antisymm hba hab⟩
  exact List.eq_of_perm_of_sorted (hperm.trans (List.perm_insertionSort _ _).symm) hsorted
    (sorted_ints_insertionSort m)

theorem exTableOrderEngine_conforms : exTableOrderEngine.Conforms := by
  haveI : IsTotal UserCircle (fun a b => b.Points ≤ a.Points) := ⟨fun a b => le_total _ _⟩
  haveI : IsTrans UserCircle (fun a b => b.Points ≤ a.Points) :=
    ⟨fun a b c hab hbc => le_trans hbc hab⟩
  haveI : IsTotal (UserCircle × Int) (fun a b => b.1.Points ≤ a.1.Points) :=
    ⟨fun a b => le_total _ _⟩
  haveI : IsTrans (UserCircle × Int) (fun a b => b.1.Points ≤ a.1.Points) :=
    ⟨fun a b c hab hbc => le_trans hbc hab⟩
  exact ⟨fun rows => ⟨List.perm_insertionSort _ _, List.sorted_insertionSort _ _⟩,
    fun rows => ⟨List.perm_insertionSort _ _, List.sorted_insertionSort _ _⟩⟩

theorem exReverseTieEngine_conforms : exReverseTieEngine.Conforms := by
  haveI : IsTotal UserCircle (fun a b => b.Points ≤ a.Points) := ⟨fun a b => le_total _ _⟩
  haveI : IsTrans UserCircle (fun a b => b.Points ≤ a.Points) :=
    ⟨fun a b c hab hbc => le_trans hbc hab⟩
  haveI : IsTotal (UserCircle × Int) (fun a b => b.1.Points ≤ a.1.Points) :=
    ⟨fun a b => le_total _ _⟩
  haveI : IsTrans (UserCircle × Int) (fun a b => b.1.Points ≤ a.1.Points) :=
    ⟨fun a b c hab hbc => le_trans hbc hab⟩
  exact ⟨fun rows => ⟨List.perm_insertionSort _ _, List.sorted_insertionSort _ _⟩,
    fun rows => ⟨(List.perm_insertionSort _ _).trans (List.reverse_perm rows),
      List.sorted_insertionSort _ _⟩⟩

/-- A successful `GetLeaderboard` ran on an engine with `DATE_SUB` and returned
the rows of the query. -/
theorem GetLeaderboard_ok {engine : Engine} {now : Time} {circleID limit : Int} {c : Conn}
    {entries : List PointsLeaderboard}
    (hok : (GetLeaderboard engine now circleID limit c).1 = Except.ok entries) :
    engine.hasDateSub = true ∧ entries = leaderboardQuery engine now circleID limit c.db := by
  unfold GetLeaderboard at hok
  rcases hq : query (leaderboardQuery engine now circleID limit) c with ⟨err | rows, c1⟩
  · rw [hq] at hok; simp at hok
  · have hrows : rows = leaderboardQuery engine now circleID limit c.db :=
      query_fst_ok (congrArg Prod.fst hq)
    rw [hq] at hok
    simp only at hok
    by_cases he : engine.hasDateSub = true
    · rw [if_pos he] at hok
      simp only [Except.ok.injEq] at hok
      exact ⟨he, by rw [← hok, hrows]⟩
    · rw [if_neg he] at hok
      simp at hok

/-- Four entries with the points 30, 30, 10, 5, pairwise distinct ranks from 1 to
4 and ranks that follow the points: the ranks are 1, 2, 3, 4 or 2, 1, 3, 4. -/
theorem ranks_of_thirty_ten (entries : List PointsLeaderboard)
    (hpts : entries.map (fun e => e.Points) = [30, 30, 10, 5])
    (hnodup : (entries.map fun e => e.Rank).Nodup)
    (hbounds : ∀ e ∈ entries, 1 ≤ e.Rank ∧ e.Rank ≤ 4)
    (horder : ∀ a ∈ entries, ∀ b ∈ entries, b.Points < a.Points → a.Rank < b.Rank) :
    entries.map (fun e => e.Rank) = [1, 2, 3, 4] ∨
      entries.map (fun e => e.Rank) = [2, 1, 3, 4] := by
  rcases entries with _ | ⟨e1, _ | ⟨e2, _ | ⟨e3, _ | ⟨e4, _ | ⟨e5, rest⟩⟩⟩⟩⟩ <;>
    simp only [List.map_cons, List.map_nil, List.cons.injEq, and_true, reduceCtorEq,
      and_false] at hpts
  obtain ⟨h1, h2, h3, h4⟩ := hpts
  have b1 := hbounds e1 (by simp)
  have b2 := hbounds e2 (by simp)
  have b3 := hbounds e3 (by simp)
  have b4 := hbounds e4 (by simp)
  have o13 := horder e1 (by simp) e3 (by simp) (by rw [h1, h3]; norm_num)
  have o23 := horder e2 (by simp) e3 (by simp) (by rw [h2, h3]; norm_num)
  have o34 := horder e3 (by simp) e4 (by simp) (by rw [h3, h4]; norm_num)
  have n12 : e1.Rank ≠ e2.Rank := by
    simp only [List.map_cons, List.map_nil, List.nodup_cons, List.mem_cons] at hnodup
    exact fun h => hnodup.1 (Or.inl h)
  simp only [List.map_cons, List.map_nil, List.cons.injEq, and_true]
  omega

set_option maxRecDepth 10000 in
/-- Counterexample to C18.  The members of circle 1 hold 30, 10, 30 and 5 points,
users 3 and 1 the 30 points, user 3 stored first.  On an engine that orders as
SQL requires and keeps rows of equal points in table order, the leaderboard
lists user 3 before user 1: not the ascending order of their ids.  On an engine
that orders as SQL requires and returns rows of equal points in the reverse of
the order in which it numbered them, the first entry has rank 2 and the second
rank 1: the rank is not the position.  On an engine without `DATE_SUB` the call
returns an error. -/
theorem leaderboard_ties_left_to_engine :
    exTableOrderEngine.Conforms ∧ exReverseTieEngine.Conforms ∧
    ((leaderboardMembers exBoardDB 1).map fun uc => (uc.UserID, uc.Points)) =
      [(3, 30), (2, 10), (1, 30), (4, 5)] ∧
    (GetLeaderboard exTableOrderEngine 100 1 10 { db := exBoardDB, faults := [] }).1 =
      Except.ok
        [{ UserID := 3, Points := 30, Rank := 1, PointsThisWeek := 0, PointsThisMonth := 0 },
         { UserID := 1, Points := 30, Rank := 2, PointsThisWeek := 0, PointsThisMonth := 0 },
         { UserID := 2, Points := 10, Rank := 3, PointsThisWeek := 0, PointsThisMonth := 0 },
         { UserID := 4, Points := 5, Rank := 4, PointsThisWeek := 0, PointsThisMonth := 0 }] ∧
    (GetLeaderboard exReverseTieEngine 100 1 10 { db := exBoardDB, faults := [] }).1 =
      Except.ok
        [{ UserID := 1, Points := 30, Rank := 2, PointsThisWeek := 0, PointsThisMonth := 0 },
         { UserID := 3, Points := 30, Rank := 1, PointsThisWeek := 0, PointsThisMonth := 0 },
         { UserID := 2, Points := 10, Rank := 3, PointsThisWeek := 0, PointsThisMonth := 0 },
         { UserID := 4, Points := 5, Rank := 4, PointsThisWeek := 0, PointsThisMonth := 0 }] ∧
    (GetLeaderboard exPlainEngine 100 1 10 { db := exBoardDB, faults := [] }).1 =
      Except.error DBError.storage :=
  ⟨exTableOrderEngine_conforms, exReverseTieEngine_conforms, by decide, rfl, rfl, rfl⟩

/-- C18, amended. On every engine that orders as SQL requires, for every circle
and limit >= 0, a successful `GetLeaderboard` (the engine has `DATE_SUB`) returns
at most `limit` entries (all active members when there are no more than `limit`),
each the user id and points of an active member of the circle, no member twice;
the points are non-increasing along the list and are the first `limit` of the
members' points in non-increasing order.  The ranks are pairwise distinct numbers
from 1 to the number of active members, and of two entries the one with more
points has the smaller rank; when the points of the active members are pairwise
distinct, the entry at position `i` (counted from 1) has rank `i`.  The order and
the ranks of members with equal points are not fixed by any key of the query.
When the points of the active members are 30, 10, 30 and 5, the entries hold 30,
30, 10, 5 with the ranks 1, 2, 3, 4 or 2, 1, 3, 4.  The call succeeds again on
the same tables when no statement fails. -/
theorem leaderboard_sorted_and_ranked (engine : Engine) (hconf : engine.Conforms) (now : Time)
    (circleID limit : Int) (c : Conn) (entries : List PointsLeaderboard) (hlimit : 0 ≤ limit)
    (hok : (GetLeaderboard engine now circleID limit c).1 = Except.ok entries) :
    engine.hasDateSub = true ∧
    ((entries.length : Int) ≤ limit) ∧
    entries.length = min limit.toNat (leaderboardMembers c.db circleID).length ∧
    List.Subperm (entries.map fun e => (e.UserID, e.Points))
      ((leaderboardMembers c.db circleID).map fun uc => (uc.UserID, uc.Points)) ∧
    (entries.map fun e => e.Points).Sorted (fun a b => b ≤ a) ∧
    (entries.map fun e => e.Points) =
      (((leaderboardMembers c.db circleID).map fun uc => uc.Points).insertionSort
        fun a b => b ≤ a).take limit.toNat ∧
    (entries.map fun e => e.Rank).Nodup ∧
    (∀ e ∈ entries, 1 ≤ e.Rank ∧ e.Rank ≤ ((leaderboardMembers c.db circleID).length : Int)) ∧
    (∀ a ∈ entries, ∀ b ∈ entries, b.Points < a.Points → a.Rank < b.Rank) ∧
    (((leaderboardMembers c.db circleID).map fun uc => uc.Points).Nodup →
      ∀ (i : Nat) (e : PointsLeaderboard), entries[i]? = some e → e.Rank = (i : Int) + 1) ∧
    (((leaderboardMembers c.db circleID).map fun uc => uc.Points) = [30, 10, 30, 5] →
      4 ≤ limit →
      entries.map (fun e => e.Points) = [30, 30, 10, 5] ∧
        (entries.map (fun e => e.Rank) = [1, 2, 3, 4] ∨
          entries.map (fun e => e.Rank) = [2, 1, 3, 4])) ∧
    (GetLeaderboard engine now circleID limit { db := c.db, faults := [] }).1 =
      Except.ok entries := by
  obtain ⟨hengine, hentries⟩ := GetLeaderboard_ok hok
  obtain ⟨hW, hWs⟩ := hconf.1 (leaderboardMembers c.db circleID)
  obtain ⟨hR, hRs⟩ := hconf.2
    (numberRows 1 (engine.windowOrder (leaderboardMembers c.db circleID)))
  unfold leaderboardQuery at hentries
  generalize hM : leaderboardMembers c.db circleID = M at *
  generalize hWdef : engine.windowOrder M = W at *
  generalize hNdef : numberRows 1 W = N at *
  generalize hRdef : engine.resultOrder N = R at *
  have hNfst : N.map Prod.fst = W := by rw [← hNdef]; exact numberRows_fst 1 W
  have hlenN : N.length = M.length := by
    rw [← hNdef, numberRows_length, hW.length_eq]
  have hlen : entries.length = min limit.toNat M.length := by
    rw [hentries, List.length_map, List.length_take, hR.length_eq, hlenN]
  have hpoints : (entries.map fun e => e.Points) =
      (R.map fun p => p.1.Points).take limit.toNat := by
    rw [hentries, List.map_map, List.map_take]
    rfl
  have hRpoints_perm : (R.map fun p => p.1.Points).Perm (M.map fun uc => uc.Points) := by
    have h1 : (R.map fun p => p.1.Points).Perm (N.map fun p => p.1.Points) := hR.map _
    have h2 : (N.map fun p => p.1.Points) = W.map fun uc => uc.Points := by
      rw [← hNfst, List.map_map]; rfl
    rw [h2] at h1
    exact h1.trans (hW.map _)
  have hRpoints_sorted : (R.map fun p => p.1.Points).Sorted (fun a b => b ≤ a) :=
    List.pairwise_map.2 hRs
  have hRsort : (R.map fun p => p.1.Points) =
      (M.map fun uc => uc.Points).insertionSort fun a b => b ≤ a :=
    eq_insertionSort_of_perm hRpoints_perm hRpoints_sorted
  have hmemN : ∀ e ∈ entries, ∃ p ∈ N, e = leaderboardEntry c.db now circleID p := by
    intro e he
    rw [hentries] at he
    obtain ⟨p, hp, rfl⟩ := List.mem_map.1 he
    exact ⟨p, hR.subset (List.mem_of_mem_take hp), rfl⟩
  have hranks : (entries.map fun e => e.Rank) = (R.take limit.toNat).map Prod.snd := by
    rw [hentries, List.map_map]
    rfl
  have hnodup : (entries.map fun e => e.Rank).Nodup := by
    rw [hranks]
    have h1 : (R.map Prod.snd).Nodup :=
      (hR.map Prod.snd).nodup_iff.2 (by rw [← hNdef]; exact numberRows_ranks_nodup 1 W)
    exact h1.sublist ((List.take_sublist _ _).map _)
  have hbounds : ∀ e ∈ entries, 1 ≤ e.Rank ∧ e.Rank ≤ (M.length : Int) := by
    intro e he
    obtain ⟨p, hp, rfl⟩ := hmemN e he
    rw [← hNdef] at hp
    obtain ⟨_, h1, h2⟩ := mem_numberRows hp
    rw [hW.length_eq] at h2
    exact ⟨h1, by simp only [leaderboardEntry]; omega⟩
  have horder : ∀ a ∈ entries, ∀ b ∈ entries, b.Points < a.Points → a.Rank < b.Rank := by
    intro a ha b hb hlt
    obtain ⟨p, hp, rfl⟩ := hmemN a ha
    obtain ⟨q, hq, rfl⟩ := hmemN b hb
    rw [← hNdef] at hp hq
    exact numberRows_rank_of_points 1 W hWs p q hp hq hlt
  refine ⟨hengine, ?_, hlen, ?_, ?_, ?_, hnodup, hbounds, horder, ?_, ?_, ?_⟩
  · rw [hlen]
    have : ((min limit.toNat M.length : Nat) : Int) ≤ (limit.toNat : Int) := by
      exact_mod_cast Nat.min_le_left _ _
    rw [Int.toNat_of_nonneg hlimit] at this
    exact this
  · have h1 : (entries.map fun e => (e.UserID, e.Points)) =
        (R.take limit.toNat).map fun p => (p.1.UserID, p.1.Points) := by
      rw [hentries, List.map_map]; rfl
    have h2 : (N.map fun p => (p.1.UserID, p.1.Points)) =
        W.map fun uc => (uc.UserID, uc.Points) := by
      rw [← hNfst, List.map_map]; rfl
    rw [h1]
    refine ((List.take_sublist _ _).map _).subperm.trans ?_
    refine (hR.map _).subperm.trans ?_
    rw [h2]
    exact (hW.map _).subperm
  · rw [hpoints]
    exact hRpoints_sorted.sublist (List.take_sublist _ _)
  · rw [hpoints, hRsort]
  · intro hdistinct i e hi
    have hNpoints : (N.map fun p => p.1.Points).Nodup := by
      have h2 : (N.map fun p => p.1.Points) = W.map fun uc => uc.Points := by
        rw [← hNfst, List.map_map]; rfl
      rw [h2]
      exact (hW.map _).nodup_iff.2 hdistinct
    have hNsorted : (N.map fun p => p.1.Points).Sorted (fun a b => b ≤ a) := by
      have h2 : (N.map fun p => p.1.Points) = W.map fun uc => uc.Points := by
        rw [← hNfst, List.map_map]; rfl
      rw [h2]
      exact List.pairwise_map.2 hWs
    have hRN : R = N := by
      refine perm_eq_of_map_eq (fun p => p.1.Points) R N hR hNpoints ?_
      rw [eq_insertionSort_of_perm (hR.map _) hRpoints_sorted]
      exact (eq_insertionSort_of_perm (List.Perm.refl _) hNsorted).symm
    rw [hentries, hRN, List.getElem?_map] at hi
    cases hp : (N.take limit.toNat)[i]? with
    | none => rw [hp] at hi; simp at hi
    | some p =>
      rw [hp] at hi
      simp only [Option.map_some', Option.some.injEq] at hi
      subst hi
      have hpN : N[i]? = some p := by
        rw [List.getElem?_take] at hp
        split at hp
        · exact hp
        · simp at hp
      rw [← hNdef] at hpN
      rw [show (leaderboardEntry c.db now circleID p).Rank = p.2 from rfl,
        numberRows_rank_at 1 W i p hpN]
      ring
  · intro hfour hl
    have hk : 4 ≤ limit.toNat := by omega
    have hpts : entries.map (fun e => e.Points) = [30, 30, 10, 5] := by
      rw [hpoints, hRsort, hfour]
      have : ([30, 10, 30, 5] : List Int).insertionSort (fun a b => b ≤ a) = [30, 30, 10, 5] := by
        decide
      rw [this]
      exact List.take_of_length_le (by simpa using hk)
    refine ⟨hpts, ?_⟩
    have hM4 : (M.length : Int) = 4 := by
      have := congrArg List.length hfour
      simp only [List.length_map, List.length_cons, List.length_nil] at this
      exact_mod_cast this
    rw [hM4] at hbounds
    exact ranks_of_thirty_ten entries hpts hnodup hbounds horder
  · unfold GetLeaderboard
    rw [query_nofault]
    simp only [hengine, if_true]
    rw [hentries]
    unfold leaderboardQuery
    rw [hM, hWdef, hNdef, hRdef]

/-- Witness of C18 (amended): the example board on the engine that keeps table
order, with limit 10. -/
theorem leaderboard_sorted_and_ranked_witness :
    ∃ entries, (GetLeaderboard exTableOrderEngine 100 1 10
        { db := exBoardDB, faults := [] }).1 = Except.ok entries ∧
      entries.length = 4 ∧ entries.map (fun e => e.Points) = [30, 30, 10, 5] ∧
      (entries.map fun e => e.Rank).Nodup :=
  ⟨_, rfl,
    ((leaderboard_sorted_and_ranked exTableOrderEngine exTableOrderEngine_conforms 100 1 10
      { db := exBoardDB, faults := [] } _ (by decide) rfl).2.2.1).trans (by decide),
    ((leaderboard_sorted_and_ranked exTableOrderEngine exTableOrderEngine_conforms 100 1 10
      { db := exBoardDB, faults := [] } _ (by decide) rfl).2.2.2.2.2.2.2.2.2.2.1 (by decide)
      (by decide)).1,
    (leaderboard_sorted_and_ranked exTableOrderEngine exTableOrderEngine_conforms 100 1 10
      { db := exBoardDB, faults := [] } _ (by decide) rfl).2.2.2.2.2.2.1⟩

/-! ## The leaderboard limit -/

/-- Counterexample to C19: a requested limit of 0 and a requested limit of 100 are
both replaced by 10, not clamped to 1 and to 50, in both endpoints. -/
theorem leaderboard_limit_not_clamped :
    leaderboardLimit (some "0") = 10 ∧ leaderboardLimit (some "100") = 10 ∧
    HandlerGetLeaderboard exTableOrderEngine 100 (some exUser) (some "100")
        { db := exBoardDB, faults := [] } =
      HandlerGetLeaderboard exTableOrderEngine 100 (some exUser) (some "10")
        { db := exBoardDB, faults := [] } ∧
    APIGetLeaderboard exTableOrderEngine 100 "key" (some exUser) (some "0")
        { db := exBoardDB, faults := [] } =
      APIGetLeaderboard exTableOrderEngine 100 "key" (some exUser) (some "10")
        { db := exBoardDB, faults := [] } := by
  refine ⟨by decide, by decide, ?_, ?_⟩
  · have h : leaderboardLimit (some "100") = leaderboardLimit (some "10") := by decide
    simp only [HandlerGetLeaderboard, h]
  · have h : leaderboardLimit (some "0") = leaderboardLimit (some "10") := by decide
    simp only [APIGetLeaderboard, h]

/-- C19, amended. In both `Handler.GetLeaderboard` and `API.GetLeaderboard` the
limit passed to the repository is `leaderboardLimit` of the query parameter: 10
when the parameter is absent, is not an integer, is below 1 or is above 50, and
the requested integer itself when it lies in [1, 50]; in every case it lies in
[1, 50].  Whatever the engine and the storage faults, both endpoints answer with
the result of `GetLeaderboard` for that limit. -/
theorem leaderboard_limit_default (limitParam : Option String) :
    (1 ≤ leaderboardLimit limitParam ∧ leaderboardLimit limitParam ≤ 50) ∧
    (limitParam = none → leaderboardLimit limitParam = 10) ∧
    (∀ s : String, limitParam = some s → atoi s = none → leaderboardLimit limitParam = 10) ∧
    (∀ (s : String) (n : Int), limitParam = some s → atoi s = some n → (n < 1 ∨ 50 < n) →
      leaderboardLimit limitParam = 10) ∧
    (∀ (s : String) (n : Int), limitParam = some s → atoi s = some n → 1 ≤ n → n ≤ 50 →
      leaderboardLimit limitParam = n) ∧
    (∀ (engine : Engine) (now : Time) (user : CurrentUser) (db : DB),
      engine.hasDateSub = true →
      (GetLeaderboard engine now user.CircleID (leaderboardLimit limitParam)
          { db := db, faults := [] }).1 =
        Except.ok (HandlerGetLeaderboard engine now (some user) limitParam
          { db := db, faults := [] }).1.leaderboard) ∧
    (∀ (engine : Engine) (now : Time) (apiToken : String) (user : CurrentUser) (db : DB),
      apiToken ≠ "" → engine.hasDateSub = true →
      (GetLeaderboard engine now user.CircleID (leaderboardLimit limitParam)
          { db := db, faults := [] }).1 =
        Except.ok (APIGetLeaderboard engine now apiToken (some user) limitParam
          { db := db, faults := [] }).1.leaderboard) ∧
    (∀ (engine : Engine) (now : Time) (apiToken : String) (user : CurrentUser) (c : Conn),
      apiToken ≠ "" →
      (∀ entries : List PointsLeaderboard,
        (GetLeaderboard engine now user.CircleID (leaderboardLimit limitParam) c).1 =
          Except.ok entries →
        (HandlerGetLeaderboard engine now (some user) limitParam c).1 =
            { code := 200, error := "", leaderboard := entries } ∧
          (APIGetLeaderboard engine now apiToken (some user) limitParam c).1 =
            { code := 200, error := "", leaderboard := entries }) ∧
      (∀ err : DBError,
        (GetLeaderboard engine now user.CircleID (leaderboardLimit limitParam) c).1 =
          Except.error err →
        (HandlerGetLeaderboard engine now (some user) limitParam c).1 =
            { code := 500, error := "Failed to get leaderboard", leaderboard := [] } ∧
          (APIGetLeaderboard engine now apiToken (some user) limitParam c).1 =
            { code := 500, error := "Failed to get leaderboard", leaderboard := [] })) := by
  refine ⟨?_, ?_, ?_, ?_, ?_, ?_, ?_, ?_⟩
  · unfold leaderboardLimit
    split
    · decide
    · rename_i limit _
      split_ifs with h
      · decide
      · omega
  · rintro rfl; decide
  · rintro s rfl hs
    simp [leaderboardLimit, hs]
  · rintro s n rfl hs hn
    have : n ≤ 0 ∨ 50 < n := by omega
    simp [leaderboardLimit, hs, this]
  · rintro s n rfl hs h1 h2
    have : ¬ (n ≤ 0 ∨ 50 < n) := by omega
    simp [leaderboardLimit, hs, this]
  · intro engine now user db hengine
    simp [HandlerGetLeaderboard, GetLeaderboard, query, hengine]
  · intro engine now apiToken user db htok hengine
    simp [APIGetLeaderboard, GetLeaderboard, query, htok, hengine]
  · intro engine now apiToken user c htok
    unfold HandlerGetLeaderboard APIGetLeaderboard
    rw [if_neg htok]
    simp only
    rcases hq : GetLeaderboard engine now user.CircleID (leaderboardLimit limitParam) c with
      ⟨err | entries, c1⟩
    · exact ⟨fun entries h => by simp at h, fun _ _ => ⟨rfl, rfl⟩⟩
    · refine ⟨fun entries h => ?_, fun err h => by simp at h⟩
      simp only [Except.ok.injEq] at h
      subst h
      exact ⟨rfl, rfl⟩

/-- Witness of C19 (amended): the parameter "25" is passed on as 25. -/
theorem leaderboard_limit_default_witness :
    atoi "25" = some 25 ∧ leaderboardLimit (some "25") = 25 :=
  ⟨by decide,
    (leaderboard_limit_default (some "25")).2.2.2.2.1 "25" 25 rfl (by decide) (by decide)
      (by decide)⟩

/-! ## The scheduler pass -/

theorem updateGoalProgressForUsers_nofault (now : Time) (goal : Goal) (userIDs : List Int)
    (db : DB) :
    updateGoalProgressForUsers now goal userIDs { db := db, faults := [] } =
      (none, { db := recomputeUsersTables now goal userIDs db, faults := [] }) := by
  unfold recomputeUsersTables
  induction userIDs generalizing db with
  | nil => rfl
  | cons userID rest ih =>
    unfold updateGoalProgressForUsers
    rw [updateUserGoalProgress_nofault_tables]
    simp only
    rw [ih, List.foldl_cons]

theorem updateGoalProgressOfGoal_nofault (now : Time) (circleID : Int) (goal : Goal) (db : DB) :
    updateGoalProgressOfGoal now circleID goal { db := db, faults := [] } =
      (none, { db := recomputeGoalTables now circleID goal db, faults := [] }) := by
  unfold updateGoalProgressOfGoal recomputeGoalTables relevantUserIDs
  cases goal.UserID with
  | some userID =>
    simp only
    rw [updateUserGoalProgress_nofault_tables]
    rfl
  | none =>
    simp only
    rw [query_nofault]
    simp only
    rw [updateGoalProgressForUsers_nofault]

theorem updateGoalProgressLoop_nofault (now : Time) (circleID : Int) (goals : List Goal)
    (db : DB) :
    updateGoalProgressLoop now circleID goals { db := db, faults := [] } =
      (none, { db := recomputeLoopTables now circleID goals db, faults := [] }) := by
  unfold recomputeLoopTables
  induction goals generalizing db with
  | nil => rfl
  | cons goal rest ih =>
    unfold updateGoalProgressLoop
    rw [updateGoalProgressOfGoal_nofault]
    simp only
    rw [ih, List.foldl_cons]

theorem UpdateGoalProgress_nofault (now : Time) (circleID : Int) (db : DB) :
    UpdateGoalProgress now circleID { db := db, faults := [] } =
      (none, { db := recomputeCircleTables now circleID db, faults := [] }) := by
  unfold UpdateGoalProgress Transaction updateGoalProgressTx recomputeCircleTables
  simp only [List.tail_nil]
  rw [query_nofault]
  simp only
  rw [updateGoalProgressLoop_nofault]
  rfl

theorem updateAllGoalProgress_nofault (now : Time) (db : DB) :
    updateAllGoalProgress now { db := db, faults := [] } =
      (none, { db := recomputeAllTables now scheduledCircleIDs db, faults := [] }) := by
  have hfold : ∀ (circleIDs : List Int) (db : DB),
      circleIDs.foldl (fun conn circleID => (UpdateGoalProgress now circleID conn).2)
          { db := db, faults := [] } =
        { db := circleIDs.foldl (fun d circleID => recomputeCircleTables now circleID d) db,
          faults := [] } := by
    intro circleIDs
    induction circleIDs with
    | nil => intro db; rfl
    | cons circleID rest ih =>
      intro db
      rw [List.foldl_cons, List.foldl_cons, UpdateGoalProgress_nofault]
      exact ih _
  unfold updateAllGoalProgress recomputeAllTables
  rw [hfold]

theorem sameShape_refl (db : DB) : SameShape db db := ⟨rfl, rfl⟩

theorem sameShape_trans {a b c : DB} (h1 : SameShape a b) (h2 : SameShape b c) :
    SameShape a c := ⟨h2.1.trans h1.1, h2.2.trans h1.2⟩

theorem markGoalCompleted_keys (now : Time) (goalID : Int) (db : DB) :
    (markGoalCompleted now goalID db).goals.map goalKey = db.goals.map goalKey := by
  unfold markGoalCompleted
  simp only [List.map_map]
  apply List.map_congr_left
  intro g _
  simp only [Function.comp]
  split <;> rfl

theorem goalBonusTables_keys (now : Time) (goal : Goal) (userID : Int) (db : DB) :
    (goalBonusTables now goal userID db).userCircles.map memberKey =
      db.userCircles.map memberKey := by
  unfold goalBonusTables
  cases goal.RewardPoints with
  | none => rfl
  | some r =>
    by_cases hpos : 0 < r
    · simp only [hpos, if_true]
      unfold insertPointsHistory updateUserCirclePoints
      simp only [List.map_map]
      apply List.map_congr_left
      intro uc _
      simp only [Function.comp]
      split <;> rfl
    · simp only [hpos, if_false]

/-- A batch recomputation writes neither the key columns of a goal nor those of a
membership row. -/
theorem updateUserGoalProgressTables_shape (now : Time) (goal : Goal) (userID : Int) (db : DB) :
    SameShape db (updateUserGoalProgressTables now goal userID db) := by
  unfold updateUserGoalProgressTables SameShape
  split
  · rw [saveGoalProgress_goals, saveGoalProgress_userCircles, markGoalCompleted_keys,
      goalBonusTables_goals]
    exact ⟨rfl, goalBonusTables_keys now goal userID db⟩
  · rw [saveGoalProgress_goals, saveGoalProgress_userCircles]
    exact ⟨rfl, rfl⟩

/-! ### What every step keeps, the whole pass keeps -/

theorem recomputeUsersTables_keeps (P : DB → Prop) (now : Time)
    (hstep : ∀ (g : Goal) (u : Int) (d : DB), P d → P (updateUserGoalProgressTables now g u d))
    (goal : Goal) (userIDs : List Int) (db : DB) (h : P db) :
    P (recomputeUsersTables now goal userIDs db) := by
  unfold recomputeUsersTables
  induction userIDs generalizing db with
  | nil => exact h
  | cons u rest ih => rw [List.foldl_cons]; exact ih _ (hstep goal u db h)

theorem recomputeLoopTables_keeps (P : DB → Prop) (now : Time)
    (hstep : ∀ (g : Goal) (u : Int) (d : DB), P d → P (updateUserGoalProgressTables now g u d))
    (circleID : Int) (goals : List Goal) (db : DB) (h : P db) :
    P (recomputeLoopTables now circleID goals db) := by
  unfold recomputeLoopTables
  induction goals generalizing db with
  | nil => exact h
  | cons g rest ih =>
    rw [List.foldl_cons]
    exact ih _ (recomputeUsersTables_keeps P now hstep g _ db h)

theorem recomputeAllTables_keeps (P : DB → Prop) (now : Time)
    (hstep : ∀ (g : Goal) (u : Int) (d : DB), P d → P (updateUserGoalProgressTables now g u d))
    (circleIDs : List Int) (db : DB) (h : P db) :
    P (recomputeAllTables now circleIDs db) := by
  unfold recomputeAllTables
  induction circleIDs generalizing db with
  | nil => exact h
  | cons c rest ih =>
    rw [List.foldl_cons]
    exact ih _ (recomputeLoopTables_keeps P now hstep c _ db h)

theorem shape_step (db0 : DB) (now : Time) (g : Goal) (u : Int) (d : DB)
    (h : SameShape db0 d) : SameShape db0 (updateUserGoalProgressTables now g u d) :=
  sameShape_trans h (updateUserGoalProgressTables_shape now g u d)

/-! ### The queries of the pass read key columns only -/

theorem activeMemberIDs_shape {db d : DB} (h : SameShape db d) (circleID : Int) :
    activeMemberIDs d circleID = activeMemberIDs db circleID := by
  have key : ∀ x : DB, activeMemberIDs x circleID =
      ((x.userCircles.map memberKey).filter
        (fun k => decide (k.2.1 = circleID) && k.2.2)).map (fun k => k.1) := by
    intro x
    unfold activeMemberIDs
    rw [List.filter_map, List.map_map]
    rfl
  rw [key d, key db, h.2]

theorem relevantUserIDs_shape {db d : DB} (h : SameShape db d) (circleID : Int) (g g' : Goal)
    (hg : g'.UserID = g.UserID) :
    relevantUserIDs d circleID g' = relevantUserIDs db circleID g := by
  unfold relevantUserIDs
  rw [hg, activeMemberIDs_shape h]

theorem activeGoalsOf_shape {db d : DB} (h : SameShape db d) (goal : Goal)
    (hgoal : goal ∈ db.goals) (hactive : goal.IsActive = true) :
    ∃ g ∈ activeGoalsOf d goal.CircleID, g.ID = goal.ID ∧ g.UserID = goal.UserID := by
  have hk : goalKey goal ∈ d.goals.map goalKey := by
    rw [h.1]; exact List.mem_map_of_mem _ hgoal
  obtain ⟨g, hg, hkey⟩ := List.mem_map.1 hk
  unfold goalKey at hkey
  simp only [Prod.mk.injEq] at hkey
  refine ⟨g, ?_, hkey.1, hkey.2.2.2⟩
  unfold activeGoalsOf
  rw [List.mem_filter]
  refine ⟨hg, ?_⟩
  simp [hkey.2.1, hkey.2.2.1, hactive]

/-! ### The row of a recomputed pair -/

theorem updateUserGoalProgressTables_find_other (now : Time) (goal : Goal) (userID : Int)
    (db : DB) (gid uid : Int) (h : ¬ (goal.ID = gid ∧ userID = uid)) :
    findGoalProgress (updateUserGoalProgressTables now goal userID db) gid uid =
      findGoalProgress db gid uid := by
  unfold updateUserGoalProgressTables
  split
  · rw [findGoalProgress_save_other _ _ gid uid h]
    unfold findGoalProgress
    have : (markGoalCompleted now goal.ID (goalBonusTables now goal userID db)).goalProgresses =
        db.goalProgresses := goalBonusTables_goalProgresses now goal userID db
    rw [this]
  · rw [findGoalProgress_save_other _ _ gid uid h]

theorem recomputedAt_new (now : Time) (goal : Goal) (userID : Int) (db : DB) :
    RecomputedAt now goal.ID userID (updateUserGoalProgressTables now goal userID db) :=
  ⟨_, updateUserGoalProgressTables_row now goal userID db, rfl⟩

theorem recomputedAt_step (now : Time) (gid uid : Int) (g : Goal) (u : Int) (d : DB)
    (h : RecomputedAt now gid uid d) :
    RecomputedAt now gid uid (updateUserGoalProgressTables now g u d) := by
  by_cases hk : g.ID = gid ∧ u = uid
  · rw [← hk.1, ← hk.2]
    exact recomputedAt_new now g u d
  · unfold RecomputedAt
    rw [updateUserGoalProgressTables_find_other now g u d gid uid hk]
    exact h

theorem recomputeUsersTables_recomputed (now : Time) (goal : Goal) (userID : Int)
    (userIDs : List Int) (hmem : userID ∈ userIDs) (db : DB) :
    RecomputedAt now goal.ID userID (recomputeUsersTables now goal userIDs db) := by
  induction userIDs generalizing db with
  | nil => simp at hmem
  | cons u rest ih =>
    rcases List.mem_cons.1 hmem with h | h
    · subst h
      exact recomputeUsersTables_keeps (RecomputedAt now goal.ID userID) now
        (recomputedAt_step now goal.ID userID) goal rest _ (recomputedAt_new now goal userID db)
    · exact ih h _

theorem recomputeLoopTables_recomputed (now : Time) (circleID gid userID : Int) (db0 : DB)
    (goals : List Goal)
    (hgoals : ∃ g ∈ goals, g.ID = gid ∧ userID ∈ relevantUserIDs db0 circleID g)
    (d : DB) (hshape : SameShape db0 d) :
    RecomputedAt now gid userID (recomputeLoopTables now circleID goals d) := by
  induction goals generalizing d with
  | nil => simp at hgoals
  | cons g rest ih =>
    obtain ⟨g', hmem, hid, hrel⟩ := hgoals
    rcases List.mem_cons.1 hmem with h | h
    · subst h
      have hrel' : userID ∈ relevantUserIDs d circleID g' := by
        rw [relevantUserIDs_shape hshape circleID g' g' rfl]; exact hrel
      have h1 : RecomputedAt now gid userID (recomputeGoalTables now circleID g' d) := by
        rw [← hid]
        exact recomputeUsersTables_recomputed now g' userID _ hrel' d
      exact recomputeLoopTables_keeps (RecomputedAt now gid userID) now
        (recomputedAt_step now gid userID) circleID rest _ h1
    · exact ih ⟨g', h, hid, hrel⟩ _
        (recomputeUsersTables_keeps (SameShape db0) now (shape_step db0 now) g _ d hshape)

theorem recomputeCircleTables_recomputed (now : Time) (userID : Int) (db0 : DB) (goal : Goal)
    (hgoal : goal ∈ db0.goals) (hactive : goal.IsActive = true)
    (hrel : userID ∈ relevantUserIDs db0 goal.CircleID goal) (d : DB)
    (hshape : SameShape db0 d) :
    RecomputedAt now goal.ID userID (recomputeCircleTables now goal.CircleID d) := by
  obtain ⟨g, hg, hid, huser⟩ := activeGoalsOf_shape hshape goal hgoal hactive
  refine recomputeLoopTables_recomputed now goal.CircleID goal.ID userID db0 _
    ⟨g, hg, hid, ?_⟩ d hshape
  rw [relevantUserIDs_shape (sameShape_refl db0) goal.CircleID goal g huser]
  exact hrel

theorem recomputeAllTables_recomputed (now : Time) (userID : Int) (db0 : DB) (goal : Goal)
    (hgoal : goal ∈ db0.goals) (hactive : goal.IsActive = true)
    (hrel : userID ∈ relevantUserIDs db0 goal.CircleID goal) (circleIDs : List Int)
    (hcircle : goal.CircleID ∈ circleIDs) (d : DB) (hshape : SameShape db0 d) :
    RecomputedAt now goal.ID userID (recomputeAllTables now circleIDs d) := by
  induction circleIDs generalizing d with
  | nil => simp at hcircle
  | cons c rest ih =>
    rcases List.mem_cons.1 hcircle with h | h
    · subst h
      exact recomputeAllTables_keeps (RecomputedAt now goal.ID userID) now
        (recomputedAt_step now goal.ID userID) rest _
        (recomputeCircleTables_recomputed now userID db0 goal hgoal hactive hrel d hshape)
    · exact ih h _
        (recomputeLoopTables_keeps (SameShape db0) now (shape_step db0 now) c _ d hshape)

theorem mem_scheduledCircleIDs (circleID : Int) :
    circleID ∈ scheduledCircleIDs ↔ 1 ≤ circleID ∧ circleID ≤ 100 := by
  unfold scheduledCircleIDs
  simp only [List.mem_map, List.mem_range]
  constructor
  · rintro ⟨i, hi, rfl⟩
    omega
  · rintro ⟨h1, h2⟩
    have hcast : ((circleID - 1).toNat : Int) = circleID - 1 :=
      Int.toNat_of_nonneg (by linarith)
    refine ⟨(circleID - 1).toNat, ?_, by rw [hcast]; ring⟩
    have : ((circleID - 1).toNat : Int) < 100 := by rw [hcast]; linarith
    exact_mod_cast this

set_option maxRecDepth 100000 in
/-- Counterexample to C20: circle 101 has an active circle-wide goal (target 100)
and an active member who was granted 150 points; a scheduler pass without any
storage fault returns `nil` and writes no progress row: circle 101 is not among
the circle ids it walks. -/
theorem far_circle_never_recomputed :
    (exFarDB.goals.map fun g => (g.ID, g.CircleID, g.IsActive, g.UserID, g.TargetPoints)) =
      [(5, 101, true, none, 100)] ∧
    activeMemberIDs exFarDB 101 = [1] ∧
    (exFarDB.goals.map fun g => goalWindowPoints g 1 exFarDB) = [150] ∧
    (updateAllGoalProgress 9 { db := exFarDB, faults := [] }).1 = none ∧
    (updateAllGoalProgress 9 { db := exFarDB, faults := [] }).2.db.goalProgresses = [] ∧
    findGoalProgress (updateAllGoalProgress 9 { db := exFarDB, faults := [] }).2.db 5 1 = none ∧
    (101 : Int) ∉ scheduledCircleIDs := by
  refine ⟨by decide, by decide, by decide, rfl, by decide, by decide, by decide⟩

/-- C20, amended. One pass of `updateAllGoalProgress` walks the circle ids 1 to
100 and no other.  It always returns `nil`.  When no statement fails, the pass is
`UpdateGoalProgress` for the ids 1, 2, ..., 100 in turn, and for every active
goal of a circle with an id from 1 to 100 and every relevant user (the goal's
user, or every active member of the circle when the goal is circle-wide) the
tables it leaves hold a progress row of the pair written by this pass. -/
theorem scheduler_walks_circles_1_to_100 (now : Time) (db : DB) (goal : Goal) (userID : Int)
    (hgoal : goal ∈ db.goals) (hactive : goal.IsActive = true)
    (hrange : 1 ≤ goal.CircleID ∧ goal.CircleID ≤ 100)
    (hrel : goal.UserID = some userID ∨
      (goal.UserID = none ∧ userID ∈ activeMemberIDs db goal.CircleID)) :
    (∀ circleID : Int, circleID ∈ scheduledCircleIDs ↔ 1 ≤ circleID ∧ circleID ≤ 100) ∧
    (∀ c : Conn, (updateAllGoalProgress now c).1 = none) ∧
    (updateAllGoalProgress now { db := db, faults := [] }).2 =
      { db := recomputeAllTables now scheduledCircleIDs db, faults := [] } ∧
    ∃ row : GoalProgress,
      findGoalProgress (updateAllGoalProgress now { db := db, faults := [] }).2.db
          goal.ID userID = some row ∧
        row.UpdatedAt = now := by
  refine ⟨mem_scheduledCircleIDs, fun _ => rfl, by rw [updateAllGoalProgress_nofault], ?_⟩
  rw [updateAllGoalProgress_nofault]
  have hrel' : userID ∈ relevantUserIDs db goal.CircleID goal := by
    unfold relevantUserIDs
    rcases hrel with h | ⟨h, hmem⟩
    · rw [h]; exact List.mem_singleton.2 rfl
    · rw [h]; exact hmem
  have h := recomputeAllTables_recomputed now userID db goal hgoal hactive hrel'
    scheduledCircleIDs ((mem_scheduledCircleIDs _).2 hrange) db (sameShape_refl db)
  unfold RecomputedAt at h
  dsimp only
  exact h

set_option maxRecDepth 100000 in
/-- Witness of C20 (amended): the scenario goal of circle 1 is circle-wide and
user 2 is an active member; the pass at instant 9 writes the row of the pair. -/
theorem scheduler_walks_circles_1_to_100_witness :
    exScenarioGoal ∈ exScenarioDB.goals ∧ 2 ∈ activeMemberIDs exScenarioDB 1 ∧
    ∃ row : GoalProgress,
      findGoalProgress (updateAllGoalProgress 9 { db := exScenarioDB, faults := [] }).2.db
          exScenarioGoal.ID 2 = some row ∧
        row.UpdatedAt = 9 :=
  ⟨by decide, by decide,
    (scheduler_walks_circles_1_to_100 9 exScenarioDB exScenarioGoal 2 (by decide) rfl
      (by decide) (Or.inr ⟨rfl, by decide⟩)).2.2.2⟩

/-! ## Failures during the scheduler pass -/

/-- A transaction that returns an error leaves the tables as they were. -/
theorem Transaction_err_db (fc : Conn → Option DBError × Conn) (c : Conn)
    (h : (Transaction fc c).1 ≠ none) : (Transaction fc c).2.db = c.db := by
  unfold Transaction at *
  rcases hf : c.faults with _ | ⟨b, rest⟩
  · rw [hf] at h
    simp only [List.tail_nil] at h ⊢
    rcases hfc : fc { db := c.db, faults := [] } with ⟨_ | e, c1⟩
    · rw [hfc] at h
      simp only at h ⊢
      rcases hf1 : c1.faults with _ | ⟨b1, rest1⟩
      · rw [hf1] at h; exact absurd rfl h
      · cases b1
        · rw [hf1] at h; exact absurd rfl h
        · rfl
    · rfl
  · cases b
    · rw [hf] at h
      simp only [List.tail_cons] at h ⊢
      rcases hfc : fc { db := c.db, faults := rest } with ⟨_ | e, c1⟩
      · rw [hfc] at h
        simp only at h ⊢
        rcases hf1 : c1.faults with _ | ⟨b1, rest1⟩
        · rw [hf1] at h; exact absurd rfl h
        · cases b1
          · rw [hf1] at h; exact absurd rfl h
          · rfl
      · rfl
    · rfl

/-- A transaction that returns `nil` leaves the tables its body left, and the
body returned `nil` on a connection with the tables at the start. -/
theorem Transaction_ok_db (fc : Conn → Option DBError × Conn) (c : Conn)
    (h : (Transaction fc c).1 = none) :
    ∃ tx : Conn, tx.db = c.db ∧ (fc tx).1 = none ∧ (Transaction fc c).2.db = (fc tx).2.db := by
  rcases Transaction_db_cases fc c with hdb | hex
  · unfold Transaction at *
    rcases hf : c.faults with _ | ⟨b, rest⟩
    · rw [hf] at h
      simp only [List.tail_nil] at h ⊢
      rcases hfc : fc { db := c.db, faults := [] } with ⟨_ | e, c1⟩
      · rw [hfc] at h
        simp only at h ⊢
        rcases hf1 : c1.faults with _ | ⟨b1, rest1⟩
        · exact ⟨{ db := c.db, faults := [] }, rfl, by rw [hfc], by rw [hfc]⟩
        · cases b1
          · exact ⟨{ db := c.db, faults := [] }, rfl, by rw [hfc], by rw [hfc]⟩
          · rw [hf1] at h; simp at h
      · rw [hfc] at h; simp at h
    · cases b
      · rw [hf] at h
        simp only [List.tail_cons] at h ⊢
        rcases hfc : fc { db := c.db, faults := rest } with ⟨_ | e, c1⟩
        · rw [hfc] at h
          simp only at h ⊢
          rcases hf1 : c1.faults with _ | ⟨b1, rest1⟩
          · exact ⟨{ db := c.db, faults := rest }, rfl, by rw [hfc], by rw [hfc]⟩
          · cases b1
            · exact ⟨{ db := c.db, faults := rest }, rfl, by rw [hfc], by rw [hfc]⟩
            · rw [hf1] at h; simp at h
        · rw [hfc] at h; simp at h
      · rw [hf] at h; simp at h
  · exact hex

theorem updateGoalProgressForUsers_ok (now : Time) (goal : Goal) (userIDs : List Int)
    (tx : Conn) (h : (updateGoalProgressForUsers now goal userIDs tx).1 = none) :
    (updateGoalProgressForUsers now goal userIDs tx).2.db =
      recomputeUsersTables now goal userIDs tx.db := by
  unfold recomputeUsersTables
  induction userIDs generalizing tx with
  | nil => rfl
  | cons userID rest ih =>
    unfold updateGoalProgressForUsers at h ⊢
    rcases hq : updateUserGoalProgress now goal userID tx with ⟨_ | e, tx1⟩
    · rw [hq] at h
      simp only at h ⊢
      have h1 : tx1.db = updateUserGoalProgressTables now goal userID tx.db := by
        have := @updateUserGoalProgress_ok_tables now goal userID tx (by rw [hq])
        rw [hq] at this
        exact this
      rw [ih tx1 h, h1, List.foldl_cons]
    · rw [hq] at h
      simp at h

theorem updateGoalProgressOfGoal_ok (now : Time) (circleID : Int) (goal : Goal) (tx : Conn)
    (h : (updateGoalProgressOfGoal now circleID goal tx).1 = none) :
    (updateGoalProgressOfGoal now circleID goal tx).2.db =
      recomputeGoalTables now circleID goal tx.db := by
  unfold updateGoalProgressOfGoal recomputeGoalTables relevantUserIDs at *
  cases hu : goal.UserID with
  | some userID =>
    rw [hu] at h
    simp only at h ⊢
    rw [updateUserGoalProgress_ok_tables h]
    rfl
  | none =>
    rw [hu] at h
    simp only at h ⊢
    have hdb := query_snd_db (fun db => activeMemberIDs db circleID) tx
    rcases hq : query (fun db => activeMemberIDs db circleID) tx with ⟨_ | userIDs, tx1⟩
    · rw [hq] at h
      simp at h
    · have hids : userIDs = activeMemberIDs tx.db circleID :=
        query_fst_ok (congrArg Prod.fst hq)
      rw [hq] at h hdb
      simp only at h hdb ⊢
      rw [updateGoalProgressForUsers_ok now goal userIDs tx1 h, hdb, hids]

theorem updateGoalProgressLoop_ok (now : Time) (circleID : Int) (goals : List Goal) (tx : Conn)
    (h : (updateGoalProgressLoop now circleID goals tx).1 = none) :
    (updateGoalProgressLoop now circleID goals tx).2.db =
      recomputeLoopTables now circleID goals tx.db := by
  unfold recomputeLoopTables
  induction goals generalizing tx with
  | nil => rfl
  | cons goal rest ih =>
    unfold updateGoalProgressLoop at h ⊢
    rcases hq : updateGoalProgressOfGoal now circleID goal tx with ⟨_ | e, tx1⟩
    · rw [hq] at h
      simp only at h ⊢
      have h1 : tx1.db = recomputeGoalTables now circleID goal tx.db := by
        have := updateGoalProgressOfGoal_ok now circleID goal tx (by rw [hq])
        rw [hq] at this
        exact this
      rw [ih tx1 h, h1, List.foldl_cons]
    · rw [hq] at h
      simp at h

theorem updateGoalProgressTx_ok (now : Time) (circleID : Int) (tx : Conn)
    (h : (updateGoalProgressTx now circleID tx).1 = none) :
    (updateGoalProgressTx now circleID tx).2.db = recomputeCircleTables now circleID tx.db := by
  unfold updateGoalProgressTx recomputeCircleTables at *
  have hdb := query_snd_db (fun db => activeGoalsOf db circleID) tx
  rcases hq : query (fun db => activeGoalsOf db circleID) tx with ⟨_ | goals, tx1⟩
  · rw [hq] at h
    simp at h
  · have hgoals : goals = activeGoalsOf tx.db circleID := query_fst_ok (congrArg Prod.fst hq)
    rw [hq] at h hdb
    simp only at h hdb ⊢
    rw [updateGoalProgressLoop_ok now circleID goals tx1 h, hdb, hgoals]

/-- A pass over one circle that returns `nil` has recomputed the whole circle. -/
theorem UpdateGoalProgress_ok_tables (now : Time) (circleID : Int) (c : Conn)
    (h : (UpdateGoalProgress now circleID c).1 = none) :
    (UpdateGoalProgress now circleID c).2.db = recomputeCircleTables now circleID c.db := by
  unfold UpdateGoalProgress at *
  obtain ⟨tx, htx, hfc, hdb⟩ := Transaction_ok_db (updateGoalProgressTx now circleID) c h
  rw [hdb, updateGoalProgressTx_ok now circleID tx hfc, htx]

/-- A pass over one circle that returns an error has written nothing. -/
theorem UpdateGoalProgress_err_db (now : Time) (circleID : Int) (c : Conn)
    (h : (UpdateGoalProgress now circleID c).1 ≠ none) :
    (UpdateGoalProgress now circleID c).2.db = c.db :=
  Transaction_err_db (updateGoalProgressTx now circleID) c h

theorem recomputeCircleTables_keeps (P : DB → Prop) (now : Time)
    (hstep : ∀ (g : Goal) (u : Int) (d : DB), P d → P (updateUserGoalProgressTables now g u d))
    (circleID : Int) (db : DB) (h : P db) : P (recomputeCircleTables now circleID db) :=
  recomputeLoopTables_keeps P now hstep circleID _ db h

/-- What every recomputation keeps, the loop over the circles keeps, whatever
the storage faults. -/
theorem updateCircles_keeps (P : DB → Prop) (now : Time)
    (hstep : ∀ (g : Goal) (u : Int) (d : DB), P d → P (updateUserGoalProgressTables now g u d))
    (circleIDs : List Int) (c : Conn) (h : P c.db) : P (updateCircles now circleIDs c).db := by
  unfold updateCircles
  induction circleIDs generalizing c with
  | nil => exact h
  | cons circleID rest ih =>
    rw [List.foldl_cons]
    apply ih
    by_cases hok : (UpdateGoalProgress now circleID c).1 = none
    · rw [UpdateGoalProgress_ok_tables now circleID c hok]
      exact recomputeCircleTables_keeps P now hstep circleID c.db h
    · rw [UpdateGoalProgress_err_db now circleID c hok]
      exact h

theorem updateCircles_append (now : Time) (pre post : List Int) (c : Conn) :
    updateCircles now (pre ++ post) c = updateCircles now post (updateCircles now pre c) := by
  unfold updateCircles
  rw [List.foldl_append]

theorem split_at_circle (circleIDs : List Int) (circleID : Int) (h : circleID ∈ circleIDs) :
    ∃ post : List Int,
      circleIDs = circleIDs.takeWhile (fun k => decide (k ≠ circleID)) ++ circleID :: post := by
  induction circleIDs with
  | nil => simp at h
  | cons k rest ih =>
    by_cases hk : k = circleID
    · subst hk
      exact ⟨rest, by simp [List.takeWhile_cons]⟩
    · rcases List.mem_cons.1 h with h1 | h1
      · exact absurd h1.symm hk
      · obtain ⟨post, hpost⟩ := ih h1
        refine ⟨post, ?_⟩
        rw [List.takeWhile_cons, if_pos (by simpa using hk), List.cons_append, ← hpost]

theorem updateAllGoalProgress_eq (now : Time) (c : Conn) :
    updateAllGoalProgress now c = (none, updateCircles now scheduledCircleIDs c) := rfl

theorem updateCircles_cons (now : Time) (circleID : Int) (rest : List Int) (c : Conn) :
    updateCircles now (circleID :: rest) c =
      updateCircles now rest (UpdateGoalProgress now circleID c).2 := rfl

/-- A circle whose own transaction succeeds is recomputed and stays recomputed,
whatever happens in the circles walked before and after it. -/
theorem updateCircles_recomputed (now : Time) (c : Conn) (circleIDs : List Int)
    (circleID : Int) (hmem : circleID ∈ circleIDs) (goal : Goal) (userID : Int)
    (hgoal : goal ∈ c.db.goals) (hactive : goal.IsActive = true)
    (hcircle : goal.CircleID = circleID)
    (hrel : userID ∈ relevantUserIDs c.db circleID goal)
    (hok : (UpdateGoalProgress now circleID
      (updateCircles now (circleIDs.takeWhile fun k => decide (k ≠ circleID)) c)).1 = none) :
    RecomputedAt now goal.ID userID (updateCircles now circleIDs c).db := by
  obtain ⟨post, hsplit⟩ := split_at_circle circleIDs circleID hmem
  have hshape : SameShape c.db
      (updateCircles now (circleIDs.takeWhile fun k => decide (k ≠ circleID)) c).db :=
    updateCircles_keeps (SameShape c.db) now (shape_step c.db now) _ c (sameShape_refl _)
  have hafter := UpdateGoalProgress_ok_tables now circleID _ hok
  subst hcircle
  have hrow := recomputeCircleTables_recomputed now userID c.db goal hgoal hactive hrel _ hshape
  rw [← hafter] at hrow
  have hend := updateCircles_keeps (RecomputedAt now goal.ID userID) now
    (recomputedAt_step now goal.ID userID) post _ hrow
  rw [← updateCircles_cons, ← updateCircles_append, ← hsplit] at hend
  exact hend

set_option maxRecDepth 100000 in
/-- Counterexample to C21: circle 1 has three active goals (ids 1, 2, 3) of its
member; during the pass the sum query of goal 2 fails.  `updateAllGoalProgress`
returns `nil` and circle 2 is recomputed (goal 4), but no progress is persisted
for the other goals of circle 1: the row of goal 1, written before the failure,
is rolled back and goal 3 is never reached.  Without the fault all four goals get
their row. -/
theorem failing_goal_blocks_its_group :
    (activeGoalsOf exTwoCirclesDB 1).map (fun g => (g.ID, g.UserID)) =
      [(1, some 1), (2, some 1), (3, some 1)] ∧
    ((updateUserGoalProgress 9 exOwnGoal 1
      { db := exTwoCirclesDB, faults := [false, false, true] }).1 = none ∧
      (updateUserGoalProgress 9 { exOwnGoal with ID := 2 } 1
        (updateUserGoalProgress 9 exOwnGoal 1
          { db := exTwoCirclesDB, faults := [false, false, true] }).2).1 =
        some DBError.storage) ∧
    (UpdateGoalProgress 9 1 { db := exTwoCirclesDB, faults := exGoalFault }).1 =
      some DBError.storage ∧
    (updateAllGoalProgress 9 { db := exTwoCirclesDB, faults := exGoalFault }).1 = none ∧
    ((updateAllGoalProgress 9
        { db := exTwoCirclesDB, faults := exGoalFault }).2.db.goalProgresses.map
      fun r => (r.GoalID, r.UserID)) = [(4, 2)] ∧
    findGoalProgress (updateAllGoalProgress 9
      { db := exTwoCirclesDB, faults := exGoalFault }).2.db 1 1 = none ∧
    findGoalProgress (updateAllGoalProgress 9
      { db := exTwoCirclesDB, faults := exGoalFault }).2.db 3 1 = none ∧
    ((updateAllGoalProgress 9 { db := exTwoCirclesDB, faults := [] }).2.db.goalProgresses.map
      fun r => (r.GoalID, r.UserID)) = [(1, 1), (2, 1), (3, 1), (4, 2)] := by
  refine ⟨by decide, ⟨by decide, by decide⟩, by decide, rfl, by decide, by decide, by decide,
    by decide⟩

/-- C21, amended. A failure is non-fatal from one circle to the next, not from
one goal to the next.  `updateAllGoalProgress` returns `nil` whatever fails.  A
`UpdateGoalProgress` that returns an error has persisted nothing for its circle
(the progress of the goals recomputed before the failing one is rolled back and
the remaining goals are not reached); one that returns `nil` has recomputed every
active goal of its circle.  For every circle id from 1 to 100 whose own
`UpdateGoalProgress` returns `nil` during the pass, whatever failed in the
circles walked before or after it, the pass leaves a progress row written by this
pass for every active goal of the circle and every relevant user. -/
theorem reconciler_survives_circle_failure (now : Time) (c : Conn) (circleID : Int)
    (goal : Goal) (userID : Int) (hrange : 1 ≤ circleID ∧ circleID ≤ 100)
    (hgoal : goal ∈ c.db.goals) (hactive : goal.IsActive = true)
    (hcircle : goal.CircleID = circleID)
    (hrel : goal.UserID = some userID ∨
      (goal.UserID = none ∧ userID ∈ activeMemberIDs c.db circleID))
    (hok : (UpdateGoalProgress now circleID
      (updateCircles now (circlesBefore circleID) c)).1 = none) :
    (updateAllGoalProgress now c).1 = none ∧
    (∀ (k : Int) (tx : Conn), (UpdateGoalProgress now k tx).1 ≠ none →
      (UpdateGoalProgress now k tx).2.db = tx.db) ∧
    (∀ (k : Int) (tx : Conn), (UpdateGoalProgress now k tx).1 = none →
      (UpdateGoalProgress now k tx).2.db = recomputeCircleTables now k tx.db) ∧
    ∃ row : GoalProgress,
      findGoalProgress (updateAllGoalProgress now c).2.db goal.ID userID = some row ∧
        row.UpdatedAt = now := by
  refine ⟨rfl, fun k tx h => UpdateGoalProgress_err_db now k tx h,
    fun k tx h => UpdateGoalProgress_ok_tables now k tx h, ?_⟩
  have hrel' : userID ∈ relevantUserIDs c.db circleID goal := by
    unfold relevantUserIDs
    rcases hrel with h | ⟨h, hmem⟩
    · rw [h]; exact List.mem_singleton.2 rfl
    · rw [h]; exact hmem
  have h := updateCircles_recomputed now c scheduledCircleIDs circleID
    ((mem_scheduledCircleIDs circleID).2 hrange) goal userID hgoal hactive hcircle hrel' hok
  rw [updateAllGoalProgress_eq]
  unfold RecomputedAt at h
  dsimp only
  exact h

set_option maxRecDepth 100000 in
/-- Witness of C21 (amended): the transaction of circle 1 fails at its second
goal, the one of circle 2 succeeds, and goal 4 of circle 2 has its row. -/
theorem reconciler_survives_circle_failure_witness :
    (UpdateGoalProgress 9 1 { db := exTwoCirclesDB, faults := exGoalFault }).1 ≠ none ∧
    (UpdateGoalProgress 9 2
      (updateCircles 9 (circlesBefore 2) { db := exTwoCirclesDB, faults := exGoalFault })).1 =
      none ∧
    ∃ row : GoalProgress,
      findGoalProgress
          (updateAllGoalProgress 9 { db := exTwoCirclesDB, faults := exGoalFault }).2.db 4 2 =
        some row ∧
        row.UpdatedAt = 9 :=
  ⟨by decide, by decide,
    (reconciler_survives_circle_failure 9 { db := exTwoCirclesDB, faults := exGoalFault } 2
      { exOwnGoal with ID := 4, CircleID := 2, UserID := some 2 } 2 (by decide) (by decide) rfl
      rfl (Or.inl rfl) (by decide)).2.2.2⟩

/-! ## The rewards a user can afford -/

/-- The loop of `GetAvailableRewards` appends exactly the rewards that pass the
spec's cap and balance preconditions, in the order it meets them. -/
theorem availableLoop_eq_filter (userPoints : Int) (available rewards : List Reward) :
    availableLoop userPoints available rewards =
      available ++ rewards.filter fun r => decide (specCanRedeem userPoints r) := by
  induction rewards generalizing available with
  | nil => simp [availableLoop]
  | cons reward rest ih =>
    unfold availableLoop
    by_cases hcost : reward.PointsCost ≤ userPoints
    · rw [if_pos hcost]
      cases hmax : reward.MaxRedeems with
      | none =>
        have hspec : specCanRedeem userPoints reward := ⟨hcost, Or.inl hmax⟩
        simp only [ih, List.filter_cons, hspec, decide_True, if_true, List.append_assoc,
          List.singleton_append]
      | some m =>
        by_cases hcap : reward.TimesRedeemed < m
        · have hspec : specCanRedeem userPoints reward := ⟨hcost, Or.inr ⟨m, hmax, hcap⟩⟩
          simp only [hcap, if_true, ih, List.filter_cons, hspec, decide_True, List.append_assoc,
            List.singleton_append]
        · have hspec : ¬ specCanRedeem userPoints reward := by
            rintro ⟨_, h | ⟨m', hm', hlt⟩⟩
            · rw [hmax] at h; exact Option.noConfusion h
            · rw [hmax] at hm'
              exact hcap ((Option.some.inj hm') ▸ hlt)
          simp only [hcap, if_false, ih, List.filter_cons, hspec, decide_False]
          rfl
    · rw [if_neg hcost]
      have hspec : ¬ specCanRedeem userPoints reward := fun h => hcost h.1
      simp only [ih, List.filter_cons, hspec, decide_False]
      rfl

theorem rewardsByCircle_sorted (db : DB) (circleID : Int) :
    (rewardsByCircle db circleID).Sorted fun a b => a.PointsCost ≤ b.PointsCost := by
  haveI : IsTotal Reward (fun a b => a.PointsCost ≤ b.PointsCost) := ⟨fun a b => le_total _ _⟩
  haveI : IsTrans Reward (fun a b => a.PointsCost ≤ b.PointsCost) :=
    ⟨fun a b c hab hbc => le_trans hab hbc⟩
  exact List.sorted_insertionSort _ _

theorem rewardsByCircle_perm (db : DB) (circleID : Int) :
    (rewardsByCircle db circleID).Perm
      (db.rewards.filter fun r => decide (r.CircleID = circleID) && r.IsActive) :=
  List.perm_insertionSort _ _

/-- The checks of `RedeemReward` on a reward that passes the spec's
preconditions. -/
theorem capReached_of_specCanRedeem {userPoints : Int} {reward : Reward}
    (h : specCanRedeem userPoints reward) :
    capReached reward = false ∧ ¬ userPoints < reward.PointsCost := by
  refine ⟨?_, not_lt.2 h.1⟩
  unfold capReached
  rcases h.2 with hnone | ⟨m, hm, hlt⟩
  · rw [hnone]
  · rw [hm]
    simp only [decide_eq_false_iff_not, not_le]
    exact hlt

theorem GetAvailableRewards_ok {circleID userPoints : Int} {c : Conn} {rewards : List Reward}
    (hok : (GetAvailableRewards circleID userPoints c).1 = Except.ok rewards) :
    rewards =
      (rewardsByCircle c.db circleID).filter fun r => decide (specCanRedeem userPoints r) := by
  unfold GetAvailableRewards GetRewardsByCircle at hok
  rcases hq : query (fun db => rewardsByCircle db circleID) c with ⟨_ | all, c1⟩
  · rw [hq] at hok
    simp at hok
  · have hall : all = rewardsByCircle c.db circleID := query_fst_ok (congrArg Prod.fst hq)
    rw [hq] at hok
    simp only [Except.ok.injEq] at hok
    rw [← hok, availableLoop_eq_filter, List.nil_append, hall]

/-- C22. A successful `GetAvailableRewards` returns exactly the sub-sequence, in
the same order, of the result of `GetRewardsByCircle` (the active rewards of the
circle by ascending `pointsCost`) made of the rewards with `pointsCost` at most
`userPoints` that are uncapped or not yet redeemed `maxRedeems` times: no other
reward is returned and no qualifying reward is left out, each as often as the
reward table holds it.  Every returned reward passes the cap check of
`RedeemReward` and, when `userPoints` is the balance, its balance check.  The
call writes nothing and succeeds when the query does not fail. -/
theorem available_rewards_exact (circleID userPoints : Int) (c : Conn) (rewards : List Reward)
    (hok : (GetAvailableRewards circleID userPoints c).1 = Except.ok rewards) :
    rewards =
      (rewardsByCircle c.db circleID).filter (fun r => decide (specCanRedeem userPoints r)) ∧
    (rewardsByCircle c.db circleID).Perm
      (c.db.rewards.filter fun r => decide (r.CircleID = circleID) && r.IsActive) ∧
    (rewardsByCircle c.db circleID).Sorted (fun a b => a.PointsCost ≤ b.PointsCost) ∧
    List.Sublist rewards (rewardsByCircle c.db circleID) ∧
    rewards.Sorted (fun a b => a.PointsCost ≤ b.PointsCost) ∧
    (∀ r : Reward, r ∈ rewards ↔
      r ∈ c.db.rewards ∧ r.CircleID = circleID ∧ r.IsActive = true ∧
        specCanRedeem userPoints r) ∧
    rewards.Perm
      (c.db.rewards.filter fun r =>
        (decide (r.CircleID = circleID) && r.IsActive) &&
          decide (specCanRedeem userPoints r)) ∧
    (∀ r ∈ rewards, capReached r = false ∧ ¬ userPoints < r.PointsCost) ∧
    (GetAvailableRewards circleID userPoints c).2.db = c.db ∧
    (GetAvailableRewards circleID userPoints { db := c.db, faults := [] }).1 =
      Except.ok rewards := by
  have hrewards := GetAvailableRewards_ok hok
  have hmem : ∀ r : Reward, r ∈ rewards ↔
      r ∈ c.db.rewards ∧ r.CircleID = circleID ∧ r.IsActive = true ∧
        specCanRedeem userPoints r := by
    intro r
    rw [hrewards, List.mem_filter, (rewardsByCircle_perm c.db circleID).mem_iff,
      List.mem_filter]
    simp only [Bool.and_eq_true, decide_eq_true_eq]
    tauto
  refine ⟨hrewards, rewardsByCircle_perm c.db circleID, rewardsByCircle_sorted c.db circleID,
    ?_, ?_, hmem, ?_, fun r hr => capReached_of_specCanRedeem ((hmem r).1 hr).2.2.2, ?_, ?_⟩
  · rw [hrewards]
    exact List.filter_sublist _
  · rw [hrewards]
    exact (rewardsByCircle_sorted c.db circleID).sublist (List.filter_sublist _)
  · rw [hrewards, ← List.filter_filter, List.filter_comm]
    exact (rewardsByCircle_perm c.db circleID).filter _
  · unfold GetAvailableRewards GetRewardsByCircle
    have hdb := query_snd_db (fun db => rewardsByCircle db circleID) c
    rcases hq : query (fun db => rewardsByCircle db circleID) c with ⟨_ | all, c1⟩
    · rw [hq] at hdb; exact hdb
    · rw [hq] at hdb; exact hdb
  · unfold GetAvailableRewards GetRewardsByCircle
    rw [query_nofault]
    simp only
    rw [availableLoop_eq_filter, List.nil_append, hrewards]

/-- Witness of C22: with 50 points in circle 1 of the example shop, the sticker
(cost 10) and the movie night (cost 40, one of two redemptions left) are
returned, in this order; the used-up, the soft-deleted, the too expensive and the
foreign reward are not. -/
theorem available_rewards_exact_witness :
    (GetAvailableRewards 1 50 { db := exShopDB, faults := [] }).1 =
      Except.ok
        [{ exMovieNight with ID := 4, Name := "Sticker", PointsCost := 10, MaxRedeems := none },
         exMovieNight] ∧
    [{ exMovieNight with ID := 4, Name := "Sticker", PointsCost := 10, MaxRedeems := none },
      exMovieNight] =
      (rewardsByCircle exShopDB 1).filter (fun r => decide (specCanRedeem 50 r)) :=
  ⟨rfl, (available_rewards_exact 1 50 { db := exShopDB, faults := [] } _ rfl).1⟩

/-! ## Reading the points of a user -/

/-- C23. `GetUserPoints` does not return the stored balance: for every user,
circle and state it returns 0 with a `nil` error and reads nothing.  After
`AwardPoints` of 50 on a zero balance the stored balance is 50 and
`GetUserPoints` still returns 0. -/
theorem getUserPoints_returns_zero :
    (∀ (userID circleID : Int) (c : Conn),
      GetUserPoints userID circleID c = (Except.ok 0, c)) ∧
    balance exLedgerDB 1 1 = 0 ∧
    (AwardPoints 10 1 1 50 7 { db := exLedgerDB, faults := [] }).1 = none ∧
    balance (AwardPoints 10 1 1 50 7 { db := exLedgerDB, faults := [] }).2.db 1 1 = 50 ∧
    (GetUserPoints 1 1 (AwardPoints 10 1 1 50 7 { db := exLedgerDB, faults := [] }).2).1 =
      Except.ok 0 := by
  refine ⟨fun _ _ _ => rfl, by decide, rfl, by decide, rfl⟩

/-! ## The two paths on the same grants: the batch pass -/

theorem goalWindowPoints_congr {db db' : DB} (h : db'.pointsHistories = db.pointsHistories)
    (goal : Goal) (userID : Int) :
    goalWindowPoints goal userID db' = goalWindowPoints goal userID db := by
  unfold goalWindowPoints
  rw [h]

theorem hasBalanceRow_congr {db db' : DB} (h : db'.userCircles = db.userCircles) (u g : Int) :
    hasBalanceRow db' u g ↔ hasBalanceRow db u g := by
  unfold hasBalanceRow
  rw [h]

/-- The bonus of another user is no event of this user's window. -/
theorem goalBonusTables_window_other (now : Time) (goal g : Goal) (v u : Int) (db : DB)
    (h : v ≠ u) :
    goalWindowPoints g u (goalBonusTables now goal v db) = goalWindowPoints g u db := by
  unfold goalBonusTables
  cases goal.RewardPoints with
  | none => rfl
  | some r =>
    by_cases hpos : 0 < r
    · simp only [hpos, if_true]
      have hb : inGoalWindow g u
          { Action := PointsHistoryAction.Add, Points := r, CreatedAt := now, CreatedBy := v,
            UserID := v, CircleID := goal.CircleID } = false := by
        rw [Bool.eq_false_iff]
        intro hw
        exact h ((inGoalWindow_iff g u _).1 hw).2.1
      unfold goalWindowPoints insertPointsHistory updateUserCirclePoints
      simp [List.filter_append, List.filter_cons, hb]
    · simp only [hpos, if_false]

theorem updateUserGoalProgressTables_window_other (now : Time) (goal g : Goal) (v u : Int)
    (db : DB) (h : v ≠ u) :
    goalWindowPoints g u (updateUserGoalProgressTables now goal v db) =
      goalWindowPoints g u db := by
  unfold updateUserGoalProgressTables
  split
  · rw [goalWindowPoints_congr (saveGoalProgress_pointsHistories _ _)]
    exact goalBonusTables_window_other now goal g v u db h
  · exact goalWindowPoints_congr (saveGoalProgress_pointsHistories _ _) g u

theorem goalBonusTables_hasBalanceRow (now : Time) (goal : Goal) (v : Int) (db : DB)
    (u g : Int) :
    hasBalanceRow (goalBonusTables now goal v db) u g ↔ hasBalanceRow db u g := by
  unfold goalBonusTables
  cases goal.RewardPoints with
  | none => exact Iff.rfl
  | some r =>
    by_cases hpos : 0 < r
    · simp only [hpos, if_true]
      rw [hasBalanceRow_insertPointsHistory, hasBalanceRow_update]
    · simp only [hpos, if_false]

theorem updateUserGoalProgressTables_hasBalanceRow (now : Time) (goal : Goal) (v : Int)
    (db : DB) (u g : Int) :
    hasBalanceRow (updateUserGoalProgressTables now goal v db) u g ↔ hasBalanceRow db u g := by
  have h := updateUserGoalProgressTables_userCircles now goal v db
  split at h
  · rw [hasBalanceRow_congr h, hasBalanceRow_congr rfl]
    exact goalBonusTables_hasBalanceRow now goal v db u g
  · exact hasBalanceRow_congr h u g

theorem updateUserGoalProgressTables_balance_other (now : Time) (goal : Goal) (v : Int)
    (db : DB) (u g : Int) (h : v ≠ u) :
    balance (updateUserGoalProgressTables now goal v db) u g = balance db u g := by
  rw [updateUserGoalProgressTables_balance]
  split
  · exact goalBonusTables_balance_other now goal v db u g (fun hk => h hk.1.symm)
  · rfl

/-- What the recomputation for any other user keeps, the member loop keeps over a
list of other users. -/
theorem recomputeUsersTables_obs {α : Type} (obs : DB → α) (now : Time) (goal : Goal) (u : Int)
    (hstep : ∀ (v : Int) (d : DB), v ≠ u →
      obs (updateUserGoalProgressTables now goal v d) = obs d)
    (userIDs : List Int) (hnot : u ∉ userIDs) (db : DB) :
    obs (recomputeUsersTables now goal userIDs db) = obs db := by
  unfold recomputeUsersTables
  induction userIDs generalizing db with
  | nil => rfl
  | cons v rest ih =>
    rw [List.foldl_cons, ih (fun hm => hnot (List.mem_cons_of_mem _ hm)),
      hstep v db (fun hv => hnot (hv ▸ List.mem_cons_self _ _))]

theorem recomputeUsersTables_append (now : Time) (goal : Goal) (pre post : List Int) (db : DB) :
    recomputeUsersTables now goal (pre ++ post) db =
      recomputeUsersTables now goal post (recomputeUsersTables now goal pre db) := by
  unfold recomputeUsersTables
  rw [List.foldl_append]

theorem count_one_split (userIDs : List Int) (u : Int) (h : userIDs.count u = 1) :
    ∃ pre post : List Int, userIDs = pre ++ u :: post ∧ u ∉ pre ∧ u ∉ post := by
  induction userIDs with
  | nil => simp at h
  | cons v rest ih =>
    by_cases hv : v = u
    · subst hv
      rw [List.count_cons_self] at h
      have h0 : rest.count v = 0 := by omega
      exact ⟨[], rest, rfl, by simp, List.count_eq_zero.1 h0⟩
    · rw [List.count_cons_of_ne (Ne.symm hv)] at h
      obtain ⟨pre, post, hsplit, hpre, hpost⟩ := ih h
      refine ⟨v :: pre, post, by rw [hsplit]; rfl, ?_, hpost⟩
      intro hm
      rcases List.mem_cons.1 hm with h1 | h1
      · exact hv h1.symm
      · exact hpre h1

/-- The member loop of the batch pass, for a user it meets exactly once: the row
of the user is that of the user's own recomputation on the tables at the start,
and the balance of the user grows by the bonus of that recomputation only. -/
theorem recomputeUsersTables_once (now : Time) (goal : Goal) (u : Int) (userIDs : List Int)
    (hcount : userIDs.count u = 1) (db : DB) :
    findGoalProgress (recomputeUsersTables now goal userIDs db) goal.ID u =
        findGoalProgress (updateUserGoalProgressTables now goal u db) goal.ID u ∧
      ((goalWindowPoints goal u db < goal.TargetPoints ∨ goal.CompletedAt ≠ none ∨
          goal.RewardPoints = none ∨ ∃ r, goal.RewardPoints = some r ∧ r ≤ 0) →
        balance (recomputeUsersTables now goal userIDs db) u goal.CircleID =
          balance db u goal.CircleID) ∧
      (goal.TargetPoints ≤ goalWindowPoints goal u db → goal.CompletedAt = none →
        ∀ r : Int, goal.RewardPoints = some r → 0 < r → hasBalanceRow db u goal.CircleID →
        balance (recomputeUsersTables now goal userIDs db) u goal.CircleID =
          balance db u goal.CircleID + r) := by
  obtain ⟨pre, post, hsplit, hpre, hpost⟩ := count_one_split userIDs u hcount
  have hcons : recomputeUsersTables now goal (u :: post) (recomputeUsersTables now goal pre db) =
      recomputeUsersTables now goal post
        (updateUserGoalProgressTables now goal u (recomputeUsersTables now goal pre db)) := rfl
  have hwin : goalWindowPoints goal u (recomputeUsersTables now goal pre db) =
      goalWindowPoints goal u db :=
    recomputeUsersTables_obs (goalWindowPoints goal u) now goal u
      (fun v d hv => updateUserGoalProgressTables_window_other now goal goal v u d hv) pre hpre db
  have hbal : balance (recomputeUsersTables now goal pre db) u goal.CircleID =
      balance db u goal.CircleID :=
    recomputeUsersTables_obs (fun d => balance d u goal.CircleID) now goal u
      (fun v d hv => updateUserGoalProgressTables_balance_other now goal v d u goal.CircleID hv)
      pre hpre db
  have hhas : hasBalanceRow (recomputeUsersTables now goal pre db) u goal.CircleID =
      hasBalanceRow db u goal.CircleID :=
    recomputeUsersTables_obs (fun d => hasBalanceRow d u goal.CircleID) now goal u
      (fun v d _ => propext (updateUserGoalProgressTables_hasBalanceRow now goal v d u
        goal.CircleID)) pre hpre db
  have hpost' : ∀ d : DB, balance (recomputeUsersTables now goal post d) u goal.CircleID =
      balance d u goal.CircleID := fun d =>
    recomputeUsersTables_obs (fun d => balance d u goal.CircleID) now goal u
      (fun v d hv => updateUserGoalProgressTables_balance_other now goal v d u goal.CircleID hv)
      post hpost d
  rw [hsplit, recomputeUsersTables_append, hcons]
  refine ⟨?_, fun hcase => ?_, fun hreach hnull r hr hpos hrow => ?_⟩
  · rw [recomputeUsersTables_obs (fun d => findGoalProgress d goal.ID u) now goal u
      (fun v d hv => updateUserGoalProgressTables_find_other now goal v d goal.ID u
        (fun hk => hv hk.2)) post hpost,
      updateUserGoalProgressTables_row, updateUserGoalProgressTables_row, hwin]
  · rw [hpost', updateUserGoalProgressTables_balance, hwin]
    split
    · rename_i hcond
      rcases hcase with h | h | h | h
      · exact absurd hcond.1 (not_le.2 h)
      · exact absurd hcond.2 h
      · rw [goalBonusTables_none _ (Or.inl h)]; exact hbal
      · rw [goalBonusTables_none _ (Or.inr h)]; exact hbal
    · exact hbal
  · rw [hpost', updateUserGoalProgressTables_balance, hwin, if_pos ⟨hreach, hnull⟩,
      goalBonusTables_balance_same now goal u r _ hr hpos (hhas ▸ hrow), hbal]

theorem updateUserCirclePoints_keys (u g : Int) (expr : Int → Int) (db : DB) :
    (updateUserCirclePoints u g expr db).userCircles.map memberKey =
      db.userCircles.map memberKey := by
  unfold updateUserCirclePoints
  simp only [List.map_map]
  apply List.map_congr_left
  intro uc _
  simp only [Function.comp]
  split <;> rfl

/-- The grants write neither a goal nor the key columns of a membership row. -/
theorem awardOnly_shape (userID circleID by_ : Int) (grants : List GrantCall) (db : DB) :
    (awardOnly userID circleID by_ grants { db := db, faults := [] }).db.goals = db.goals ∧
      SameShape db (awardOnly userID circleID by_ grants { db := db, faults := [] }).db := by
  unfold awardOnly
  induction grants generalizing db with
  | nil => exact ⟨rfl, sameShape_refl db⟩
  | cons grant rest ih =>
    rw [List.foldl_cons, AwardPoints_nofault_conn]
    obtain ⟨hg, hs⟩ := ih (awardTables grant.awardedAt userID circleID grant.points by_ db)
    have h1 : SameShape db (awardTables grant.awardedAt userID circleID grant.points by_ db) :=
      ⟨rfl, updateUserCirclePoints_keys userID circleID (fun p => p + grant.points) db⟩
    exact ⟨hg, sameShape_trans h1 hs⟩

/-- The batch pass over a circle with one active goal, when no statement fails. -/
theorem UpdateGoalProgress_single (now : Time) (goal : Goal) (db : DB)
    (hgoals : activeGoalsOf db goal.CircleID = [goal]) :
    UpdateGoalProgress now goal.CircleID { db := db, faults := [] } =
      (none,
        { db := recomputeUsersTables now goal (relevantUserIDs db goal.CircleID goal) db,
          faults := [] }) := by
  rw [UpdateGoalProgress_nofault]
  unfold recomputeCircleTables recomputeLoopTables
  rw [hgoals]
  rfl

/-- Counterexample to C16.  One goal (the scenario: grants 50 and 60, target 100,
bonus 20): the incremental path run after each grant and one batch pass on the
resulting ledger store the same `currentPoints` and both record a completion, but
leave the balances 110 and 130.  Two active goals in the circle (the second with
target 120): for the second goal the incremental path stores `currentPoints` 110
and no completion, the batch pass stores 130 and a completion, because it counts
the bonus Grant of the first goal. -/
theorem paths_disagree :
    exIncrSecond = awardAndRecompute 1 1 9 exGrants { db := exScenarioDB, faults := [] } ∧
    exBatchOnce =
      (UpdateGoalProgress 4 1 (awardOnly 1 1 9 exGrants { db := exScenarioDB, faults := [] })).2 ∧
    ((findGoalProgress exIncrSecond.db 1 1).map fun r => (r.CurrentPoints, r.CompletedAt.isSome)) =
      some (110, true) ∧
    ((findGoalProgress exBatchOnce.db 1 1).map fun r => (r.CurrentPoints, r.CompletedAt.isSome)) =
      some (110, true) ∧
    balance exIncrSecond.db 1 1 = 110 ∧ balance exBatchOnce.db 1 1 = 130 ∧
    exTwoGoalsIncr = awardAndRecompute 1 1 9 exGrants { db := exTwoGoalsDB, faults := [] } ∧
    exTwoGoalsBatch =
      (UpdateGoalProgress 4 1 (awardOnly 1 1 9 exGrants { db := exTwoGoalsDB, faults := [] })).2 ∧
    (exTwoGoalsDB.goals.map fun g => (g.ID, g.TargetPoints, g.RewardPoints)) =
      [(1, 100, some 20), (2, 120, none)] ∧
    ((findGoalProgress exTwoGoalsIncr.db 2 1).map fun r =>
      (r.CurrentPoints, r.CompletedAt.isSome)) = some (110, false) ∧
    ((findGoalProgress exTwoGoalsBatch.db 2 1).map fun r =>
      (r.CurrentPoints, r.CompletedAt.isSome)) = some (130, true) := by
  refine ⟨rfl, rfl, by decide, by decide, by decide, by decide, rfl, rfl, by decide, by decide,
    by decide⟩

/-- C16, amended. Convergence of the progress row of the only active goal of a
circle, not of the balances.  Take a goal that is the only active goal of its
circle and the only goal with its id, with a null `completedAt`, and a user it
applies to and whom the batch pass meets exactly once; start from tables where
the stored `currentPoints` of the pair equals the window sum; grant the user a
non-empty sequence of amounts in the circle, every grant and every incremental
recomputation falling in the goal's window, no running total overflowing, no
statement failing.  Then the row written by the incremental path run after each
grant and the row written by one batch pass `UpdateGoalProgress` on the
resulting ledger have the same `currentPoints` (the window sum), the same
`progress` and the same completion status.  The incremental path leaves the
balances of the ledger; after the batch pass the balance of the user in the
circle is larger by `rewardPoints` when the sum reaches `targetPoints` and
`rewardPoints` is positive, and the same otherwise. -/
theorem paths_agree_on_progress (goal : Goal) (userID createdBy : Int) (now : Time) (db : DB)
    (grants : List GrantCall)
    (hgoals : activeGoalsOf db goal.CircleID = [goal])
    (huniq : db.goals.filter (fun g => decide (g.ID = goal.ID)) = [goal])
    (hmember : (relevantUserIDs db goal.CircleID goal).count userID = 1)
    (hne : grants ≠ [])
    (hgrants : ∀ grant ∈ grants,
      goalAppliesNow grant.recomputedAt userID goal ∧ windowHolds goal grant.awardedAt)
    (hstart : storedPoints db goal.ID userID = goalWindowPoints goal userID db)
    (hfit : totalsFit (goalWindowPoints goal userID db) grants) :
    ∃ rowI rowB : GoalProgress,
      findGoalProgress
          (awardAndRecompute userID goal.CircleID createdBy grants
            { db := db, faults := [] }).db goal.ID userID = some rowI ∧
      (UpdateGoalProgress now goal.CircleID
        (awardOnly userID goal.CircleID createdBy grants { db := db, faults := [] })).1 = none ∧
      findGoalProgress
          (UpdateGoalProgress now goal.CircleID
            (awardOnly userID goal.CircleID createdBy grants
              { db := db, faults := [] })).2.db goal.ID userID = some rowB ∧
      rowB.CurrentPoints =
        goalWindowPoints goal userID db + (grants.map fun grant => grant.points).sum ∧
      rowI.CurrentPoints = rowB.CurrentPoints ∧
      rowI.Progress = rowB.Progress ∧
      (rowI.CompletedAt = none ↔ rowB.CompletedAt = none) ∧
      (rowB.CompletedAt = none ↔ rowB.CurrentPoints < goal.TargetPoints) ∧
      (∀ u g : Int,
        balance (awardAndRecompute userID goal.CircleID createdBy grants
            { db := db, faults := [] }).db u g =
          balance (awardOnly userID goal.CircleID createdBy grants
            { db := db, faults := [] }).db u g) ∧
      ((rowB.CurrentPoints < goal.TargetPoints ∨ goal.RewardPoints = none ∨
          ∃ r, goal.RewardPoints = some r ∧ r ≤ 0) →
        balance (UpdateGoalProgress now goal.CircleID
            (awardOnly userID goal.CircleID createdBy grants
              { db := db, faults := [] })).2.db userID goal.CircleID =
          balance (awardAndRecompute userID goal.CircleID createdBy grants
            { db := db, faults := [] }).db userID goal.CircleID) ∧
      (goal.TargetPoints ≤ rowB.CurrentPoints → ∀ r : Int, goal.RewardPoints = some r → 0 < r →
        hasBalanceRow db userID goal.CircleID →
        balance (UpdateGoalProgress now goal.CircleID
            (awardOnly userID goal.CircleID createdBy grants
              { db := db, faults := [] })).2.db userID goal.CircleID =
          balance (awardAndRecompute userID goal.CircleID createdBy grants
            { db := db, faults := [] }).db userID goal.CircleID + r) := by
  have hnull : goal.CompletedAt = none := by
    obtain ⟨grant, rest, rfl⟩ := List.exists_cons_of_ne_nil hne
    exact (hgrants grant (List.mem_cons_self _ _)).1.2.1
  have hactive : goal.IsActive = true := by
    have hmem : goal ∈ activeGoalsOf db goal.CircleID := by rw [hgoals]; exact List.mem_singleton.2 rfl
    unfold activeGoalsOf at hmem
    have := (List.mem_filter.1 hmem).2
    simp only [Bool.and_eq_true] at this
    exact this.2
  have hrowL := awardOnly_hasBalanceRow userID goal.CircleID createdBy grants db userID
    goal.CircleID
  have hshapeL := awardOnly_shape userID goal.CircleID createdBy grants db
  obtain ⟨dbI, dbL, hI, hL, hc, _, hs, hsum, hrow⟩ :=
    awardAndRecompute_ledger goal userID createdBy hactive grants hgrants db db huniq rfl rfl
      hstart hfit
  obtain ⟨rowI, hfindI, hprogI, hdoneI, hnotI⟩ := hrow hne
  have hptsI : rowI.CurrentPoints = goalWindowPoints goal userID dbL := by
    rw [← storedPoints_of_find hfindI, hs]
  rw [hL] at hrowL hshapeL
  have hgoalsL : activeGoalsOf dbL goal.CircleID = [goal] := by
    unfold activeGoalsOf at hgoals ⊢
    rw [hshapeL.1]
    exact hgoals
  have hrel : relevantUserIDs dbL goal.CircleID goal = relevantUserIDs db goal.CircleID goal :=
    relevantUserIDs_shape hshapeL.2 goal.CircleID goal goal rfl
  obtain ⟨hfindB, hbalsame, hbalplus⟩ := recomputeUsersTables_once now goal userID
    (relevantUserIDs db goal.CircleID goal) hmember dbL
  rw [hI, hL, UpdateGoalProgress_single now goal dbL hgoalsL, hrel]
  refine ⟨rowI, _, hfindI, rfl,
    hfindB.trans (updateUserGoalProgressTables_row now goal userID dbL), hsum, hptsI, ?_, ?_, ?_,
    fun u g => balance_congr hc u g, ?_, ?_⟩
  · rw [hprogI, hptsI]
  · simp only [hnull, and_true]
    by_cases hreach : goal.TargetPoints ≤ goalWindowPoints goal userID dbL
    · have := hdoneI (hptsI ▸ hreach)
      simp [hreach, this]
    · have := hnotI (hptsI ▸ not_le.1 hreach)
      simp [hreach, this]
  · simp only [hnull, and_true]
    by_cases hreach : goal.TargetPoints ≤ goalWindowPoints goal userID dbL
    · simp [hreach]
    · simp [hreach, not_le.1 hreach]
  · intro hcase
    rw [balance_congr hc userID goal.CircleID]
    refine hbalsame ?_
    rcases hcase with h | h | h
    · exact Or.inl h
    · exact Or.inr (Or.inr (Or.inl h))
    · exact Or.inr (Or.inr (Or.inr h))
  · intro hreach r hr hpos hrowdb
    rw [balance_congr hc userID goal.CircleID]
    exact hbalplus hreach hnull r hr hpos (hrowL.2 hrowdb)

theorem exGrants_totalsFit : totalsFit (goalWindowPoints exScenarioGoal 1 exScenarioDB) exGrants := by
  have h0 : goalWindowPoints exScenarioGoal 1 exScenarioDB = 0 := by decide
  unfold totalsFit
  rw [h0]
  intro k
  rcases k with _ | _ | k <;> simp [exGrants]

/-- Witness of C16: the grants of the scenario, whose goal is circle-wide with
two members; both rows of user 1 hold 110 points, and the balance after the batch
pass is the incremental balance plus the bonus of 20. -/
theorem paths_agree_on_progress_witness :
    activeGoalsOf exScenarioDB exScenarioGoal.CircleID = [exScenarioGoal] ∧
    relevantUserIDs exScenarioDB exScenarioGoal.CircleID exScenarioGoal = [1, 2] ∧
    totalsFit (goalWindowPoints exScenarioGoal 1 exScenarioDB) exGrants ∧
    ∃ rowI rowB : GoalProgress,
      findGoalProgress
          (awardAndRecompute 1 exScenarioGoal.CircleID 9 exGrants
            { db := exScenarioDB, faults := [] }).db exScenarioGoal.ID 1 = some rowI ∧
      findGoalProgress
          (UpdateGoalProgress 4 exScenarioGoal.CircleID
            (awardOnly 1 exScenarioGoal.CircleID 9 exGrants
              { db := exScenarioDB, faults := [] })).2.db exScenarioGoal.ID 1 = some rowB ∧
      rowB.CurrentPoints = 110 ∧ rowI.CurrentPoints = rowB.CurrentPoints ∧
      rowI.Progress = rowB.Progress ∧
      balance (UpdateGoalProgress 4 exScenarioGoal.CircleID
          (awardOnly 1 exScenarioGoal.CircleID 9 exGrants
            { db := exScenarioDB, faults := [] })).2.db 1 exScenarioGoal.CircleID =
        balance (awardAndRecompute 1 exScenarioGoal.CircleID 9 exGrants
          { db := exScenarioDB, faults := [] }).db 1 exScenarioGoal.CircleID + 20 :=
  ⟨by decide, by decide, exGrants_totalsFit,
    (paths_agree_on_progress exScenarioGoal 1 9 4 exScenarioDB exGrants (by decide) (by decide)
      (by decide) (by decide) (by decide) (by decide) exGrants_totalsFit).elim fun rowI hI =>
      hI.elim fun rowB h =>
        ⟨rowI, rowB, h.1, h.2.2.1, h.2.2.2.1.trans (by decide), h.2.2.2.2.1, h.2.2.2.2.2.1,
          h.2.2.2.2.2.2.2.2.2.2 (by rw [h.2.2.2.1]; decide) 20 rfl (by decide) (by decide)⟩⟩

end Donetick
